import Mathlib

/-! The genomic chaincode (`chaincode/genomic_cc.go`): a shallow embedding.

Go strings and byte slices are Lean `String`s (a nil byte slice is `none`), Go
`int` is `Int` restricted to the 64-bit range where the decoder produces it.
The Fabric stub is an explicit state: the private-data collections, the
transient map, a schedule of failing calls and the trace of calls issued.
`encoding/json` is modelled by a compact encoder and a recursive-descent
decoder over `List Char`. In string literals the braces of JSON text are
written `\x7b` and `\x7d`.
-/

set_option autoImplicit false

/-! ## `encoding/json`: struct tags -/

namespace reflect

/-- Characters of a struct-tag key: `tag[i] > ' ' && tag[i] != ':' && tag[i] != '"' && tag[i] != 0x7f`. -/
def isKeyChar (c : Char) : Bool :=
  decide (' ' < c) && c != ':' && c != '"' && c != Char.ofNat 127

/-- Scan the quoted value of a struct tag after its opening quote; gives the
characters between the quotes (backslash pairs kept) and what follows. -/
def scanQuoted : List Char → Option (List Char × List Char)
  | [] => none
  | '"' :: rest => some ([], rest)
  | '\\' :: c :: rest =>
    match scanQuoted rest with
    | some (v, r) => some ('\\' :: c :: v, r)
    | none => none
  | c :: rest =>
    match scanQuoted rest with
    | some (v, r) => some (c :: v, r)
    | none => none

/-- `StructTag.Lookup`: the conventional `key:"value"` pairs of a tag are
scanned left to right; a pair that is not of that shape ends the scan.
(Values are returned as written; the tags of this program hold no escapes.) -/
def lookupAux : Nat → List Char → List Char → Option (List Char)
  | 0, _, _ => none
  | fuel + 1, tag, key =>
    let tag := tag.dropWhile (fun c => c == ' ')
    let name := tag.takeWhile isKeyChar
    match tag.dropWhile isKeyChar with
    | ':' :: '"' :: rest =>
      if name.isEmpty then none else
      match scanQuoted rest with
      | none => none
      | some (value, rest) =>
        if key = name then some value else lookupAux fuel rest key
    | _ => none

/-- `StructTag.Get`: the value of `key` in the tag, or the empty string. -/
def StructTag.Get (tag : String) (key : String) : String :=
  match lookupAux (tag.length + 1) tag.data key.data with
  | some v => String.mk v
  | none => ""

end reflect

namespace json

/-- `parseTag`: the name is the tag value up to the first comma. -/
def parseTag (tag : String) : String :=
  String.mk (tag.data.takeWhile (fun c => c != ','))

/-- The key under which `encoding/json` reads and writes a struct field:
the name in its `json` tag, or the Go field name when the tag gives none. -/
def fieldName (goName : String) (tag : String) : String :=
  let name := parseTag (reflect.StructTag.Get tag "json")
  if name = "" then goName else name

end json

/-! ## `encoding/json`: the text of a document -/

namespace json

/-- A JSON value as the scanner delimits it; a number keeps its literal. -/
inductive Value where
  | null
  | bool (b : Bool)
  | number (lit : List Char)
  | string (s : List Char)
  | array (elems : List Value)
  | object (members : List (List Char × Value))

/-- JSON white space: `' '`, `'\t'`, `'\r'`, `'\n'`. -/
def isSpace (c : Char) : Bool :=
  c == ' ' || c == '\t' || c == '\r' || c == '\n'

/-- Drop leading white space. -/
def skipSpace : List Char → List Char
  | [] => []
  | c :: cs => if isSpace c then skipSpace cs else c :: cs

/-- Value of a hexadecimal digit. -/
def hexVal (c : Char) : Option Nat :=
  if '0' ≤ c ∧ c ≤ '9' then some (c.toNat - '0'.toNat)
  else if 'a' ≤ c ∧ c ≤ 'f' then some (c.toNat - 'a'.toNat + 10)
  else if 'A' ≤ c ∧ c ≤ 'F' then some (c.toNat - 'A'.toNat + 10)
  else none

/-- `getu4`: the 16-bit value of the four hexadecimal digits of a `\u` escape. -/
def getu4 (a b c d : Char) : Option Nat :=
  match hexVal a, hexVal b, hexVal c, hexVal d with
  | some x, some y, some z, some w => some (x * 4096 + y * 256 + z * 16 + w)
  | _, _, _, _ => none

/-- The character of a single-letter escape. -/
def unescape (c : Char) : Option Char :=
  if c = '"' then some '"'
  else if c = '\\' then some '\\'
  else if c = '/' then some '/'
  else if c = 'b' then some (Char.ofNat 8)
  else if c = 'f' then some (Char.ofNat 12)
  else if c = 'n' then some '\n'
  else if c = 'r' then some '\r'
  else if c = 't' then some '\t'
  else none

/-- A UTF-16 surrogate code unit. -/
def isSurrogate (r : Nat) : Bool := decide (0xD800 ≤ r ∧ r < 0xE000)

/-- `utf16.DecodeRune`: the code point of a surrogate pair, if it is one. -/
def decodeRune (r1 r2 : Nat) : Option Char :=
  if 0xD800 ≤ r1 ∧ r1 < 0xDC00 ∧ 0xDC00 ≤ r2 ∧ r2 < 0xE000 then
    some (Char.ofNat ((r1 - 0xD800) * 1024 + (r2 - 0xDC00) + 0x10000))
  else none

/-- Put a character in front of a scanned string. -/
def consChar (c : Char) : Option (List Char × List Char) → Option (List Char × List Char)
  | some (s, rest) => some (c :: s, rest)
  | none => none

/-- Read a string literal after its opening quote (scanner and `unquote`
together): gives the decoded characters and the input after the closing quote.
A lone surrogate escape decodes to U+FFFD; a control character is refused.
Every step consumes input, so a fuel of the input's length is enough. -/
def scanString : Nat → List Char → Option (List Char × List Char)
  | 0, _ => none
  | _ + 1, [] => none
  | fuel + 1, c :: cs =>
    if c = '"' then some ([], cs)
    else if c = '\\' then
      match cs with
      | 'u' :: h1 :: h2 :: h3 :: h4 :: rest =>
        match getu4 h1 h2 h3 h4 with
        | none => none
        | some r =>
          if isSurrogate r then
            match rest with
            | '\\' :: 'u' :: k1 :: k2 :: k3 :: k4 :: rest2 =>
              match (getu4 k1 k2 k3 k4).bind (decodeRune r) with
              | some ch => consChar ch (scanString fuel rest2)
              | none => consChar (Char.ofNat 0xFFFD) (scanString fuel rest)
            | _ => consChar (Char.ofNat 0xFFFD) (scanString fuel rest)
          else consChar (Char.ofNat r) (scanString fuel rest)
      | e :: rest =>
        match unescape e with
        | some ch => consChar ch (scanString fuel rest)
        | none => none
      | [] => none
    else if c.toNat < 0x20 then none
    else consChar c (scanString fuel cs)

/-- Split off the leading decimal digits. -/
def spanDigits (cs : List Char) : List Char × List Char :=
  (cs.takeWhile Char.isDigit, cs.dropWhile Char.isDigit)

/-- The exponent of a number literal, if one follows. -/
def scanExp (cs : List Char) : Option (List Char × List Char) :=
  match cs with
  | e :: r =>
    if e = 'e' ∨ e = 'E' then
      let (sign, r) :=
        match r with
        | s :: r2 => if s = '+' ∨ s = '-' then ([s], r2) else ([], r)
        | [] => ([], r)
      let (ds, r) := spanDigits r
      if ds.isEmpty then none else some (e :: sign ++ ds, r)
    else some ([], cs)
  | [] => some ([], cs)

/-- The fraction of a number literal, if one follows. -/
def scanFrac (cs : List Char) : Option (List Char × List Char) :=
  match cs with
  | '.' :: r =>
    let (ds, r) := spanDigits r
    if ds.isEmpty then none else some ('.' :: ds, r)
  | _ => some ([], cs)

/-- The integer part of a number literal: `0`, or a non-zero digit and digits. -/
def scanIntPart (cs : List Char) : Option (List Char × List Char) :=
  match cs with
  | d :: r =>
    if d = '0' then some (['0'], r)
    else if d.isDigit then
      let (ds, r) := spanDigits r
      some (d :: ds, r)
    else none
  | [] => none

/-- Read a number literal: `-? int frac? exp?`; gives the literal and the rest. -/
def scanNumber (cs : List Char) : Option (List Char × List Char) :=
  let (sign, cs) :=
    match cs with
    | '-' :: r => (['-'], r)
    | _ => ([], cs)
  match scanIntPart cs with
  | none => none
  | some (i, r) =>
    match scanFrac r with
    | none => none
    | some (f, r) =>
      match scanExp r with
      | none => none
      | some (e, r) => some (sign ++ i ++ f ++ e, r)

mutual

/-- Read one value, leading white space skipped. -/
def parseValue : Nat → List Char → Option (Value × List Char)
  | 0, _ => none
  | fuel + 1, cs =>
    match skipSpace cs with
    | [] => none
    | c :: r =>
      if c = '{' then
        match skipSpace r with
        | '}' :: r2 => some (Value.object [], r2)
        | _ =>
          match parseMembers fuel r with
          | some (ms, r2) => some (Value.object ms, r2)
          | none => none
      else if c = '[' then
        match skipSpace r with
        | ']' :: r2 => some (Value.array [], r2)
        | _ =>
          match parseElems fuel r with
          | some (es, r2) => some (Value.array es, r2)
          | none => none
      else if c = '"' then
        match scanString r.length r with
        | some (s, r2) => some (Value.string s, r2)
        | none => none
      else if c = 't' then
        match r with
        | 'r' :: 'u' :: 'e' :: r2 => some (Value.bool true, r2)
        | _ => none
      else if c = 'f' then
        match r with
        | 'a' :: 'l' :: 's' :: 'e' :: r2 => some (Value.bool false, r2)
        | _ => none
      else if c = 'n' then
        match r with
        | 'u' :: 'l' :: 'l' :: r2 => some (Value.null, r2)
        | _ => none
      else
        match scanNumber (c :: r) with
        | some (lit, r2) => some (Value.number lit, r2)
        | none => none

/-- Read the members of an object up to and including its closing brace. -/
def parseMembers : Nat → List Char → Option (List (List Char × Value) × List Char)
  | 0, _ => none
  | fuel + 1, cs =>
    match skipSpace cs with
    | '"' :: r =>
      match scanString r.length r with
      | none => none
      | some (k, r1) =>
        match skipSpace r1 with
        | ':' :: r2 =>
          match parseValue fuel r2 with
          | none => none
          | some (v, r3) =>
            match skipSpace r3 with
            | ',' :: r4 =>
              match parseMembers fuel r4 with
              | some (ms, r5) => some ((k, v) :: ms, r5)
              | none => none
            | '}' :: r4 => some ([(k, v)], r4)
            | _ => none
        | _ => none
    | _ => none

/-- Read the elements of an array up to and including its closing bracket. -/
def parseElems : Nat → List Char → Option (List Value × List Char)
  | 0, _ => none
  | fuel + 1, cs =>
    match parseValue fuel cs with
    | none => none
    | some (v, r) =>
      match skipSpace r with
      | ',' :: r2 =>
        match parseElems fuel r2 with
        | some (vs, r3) => some (v :: vs, r3)
        | none => none
      | ']' :: r2 => some ([v], r2)
      | _ => none

end

/-- The whole input is one JSON value between optional white space
(`checkValid` and the scan of the value). -/
def parse (data : String) : Option Value :=
  match parseValue (data.length + 1) data.data with
  | some (v, rest) => if skipSpace rest = [] then some v else none
  | none => none

end json

/-! ## `strconv`: decimal integers -/

namespace strconv

/-- Decimal digits of a natural number, most significant first. -/
def natDigits : Nat → Nat → List Char
  | 0, _ => []
  | fuel + 1, n =>
    if n < 10 then [Nat.digitChar n]
    else natDigits fuel (n / 10) ++ [Nat.digitChar (n % 10)]

/-- `strconv.Itoa` / `AppendInt(_, i, 10)`. -/
def Itoa (i : Int) : List Char :=
  if i < 0 then '-' :: natDigits (i.natAbs + 1) i.natAbs
  else natDigits (i.natAbs + 1) i.natAbs

/-- Value of a run of decimal digits, continuing from `acc`. -/
def parseUint : Nat → List Char → Option Nat
  | acc, [] => some acc
  | acc, c :: cs =>
    if c.isDigit then parseUint (acc * 10 + (c.toNat - '0'.toNat)) cs else none

/-- `strconv.ParseInt(s, 10, 64)`: an optional sign and decimal digits, in the
range of a 64-bit signed integer. -/
def ParseInt (s : List Char) : Option Int :=
  match s with
  | [] => none
  | '-' :: ds =>
    if ds.isEmpty then none else
    match parseUint 0 ds with
    | some n => if n ≤ 2 ^ 63 then some (-(n : Int)) else none
    | none => none
  | '+' :: ds =>
    if ds.isEmpty then none else
    match parseUint 0 ds with
    | some n => if n < 2 ^ 63 then some (n : Int) else none
    | none => none
  | ds =>
    match parseUint 0 ds with
    | some n => if n < 2 ^ 63 then some (n : Int) else none
    | none => none

end strconv

/-! ## `encoding/json`: encoding and decoding structs -/

namespace json

/-- The four hexadecimal digits of `\uXXXX` (lower case, as the encoder writes them). -/
def hex4 (n : Nat) : List Char :=
  [Nat.digitChar (n / 4096 % 16), Nat.digitChar (n / 256 % 16),
   Nat.digitChar (n / 16 % 16), Nat.digitChar (n % 16)]

/-- How the encoder writes one character of a string (HTML escaping on, as
`json.Marshal` has it): short escapes for quote, backslash, newline, return
and tab; `\u00XX` for the other control characters and for `<`, `>`, `&`;
`\u2028` and `\u2029` for U+2028 and U+2029; every other character as it is. -/
def escapeChar (c : Char) : List Char :=
  if c = '"' then ['\\', '"']
  else if c = '\\' then ['\\', '\\']
  else if c = '\n' then ['\\', 'n']
  else if c = '\r' then ['\\', 'r']
  else if c = '\t' then ['\\', 't']
  else if c.toNat < 0x20 ∨ c = '<' ∨ c = '>' ∨ c = '&' ∨ c.toNat = 0x2028 ∨ c.toNat = 0x2029 then
    '\\' :: 'u' :: hex4 c.toNat
  else [c]

/-- A string as a JSON string literal. -/
def quote (s : List Char) : List Char :=
  '"' :: (s.flatMap escapeChar ++ ['"'])

/-- The value of a struct field of this program: a Go `int` or a Go `string`. -/
inductive Field where
  | int (i : Int)
  | str (s : String)

/-- One field value in JSON. -/
def encodeField : Field → List Char
  | Field.int i => strconv.Itoa i
  | Field.str s => quote s.data

/-- The members `"key":value` of an object, separated by commas. -/
def encodeMembers : List (String × Field) → List Char
  | [] => []
  | [(k, v)] => quote k.data ++ ':' :: encodeField v
  | (k, v) :: rest => quote k.data ++ ':' :: encodeField v ++ ',' :: encodeMembers rest

/-- A struct as a compact JSON object, fields in declaration order. -/
def encodeObject (fields : List (String × Field)) : String :=
  String.mk ('{' :: (encodeMembers fields ++ ['}']))

/-- Case folding of field-name matching: ASCII letters to lower case, and the
two non-ASCII characters that fold to ASCII letters (U+017F to `s`, U+212A to `k`). -/
def foldRune (c : Char) : Char :=
  if c.toNat = 0x17F then 's' else if c.toNat = 0x212A then 'k' else c.toLower

/-- The field an object key selects: the one with exactly that name, else the
first whose name equals it under case folding. -/
def findField (names : List String) (key : List Char) : Option Nat :=
  match names.findIdx? (fun n => n.data == key) with
  | some i => some i
  | none => names.findIdx? (fun n => n.data.map foldRune == key.map foldRune)

/-- Decode a value into an `int` field: a number literal that `ParseInt`
accepts; `null` leaves the field as it is; anything else is a type error. -/
def decodeInt (cur : Int) : Value → Option Int
  | Value.number lit => strconv.ParseInt lit
  | Value.null => some cur
  | _ => none

/-- Decode a value into a `string` field. -/
def decodeString (cur : String) : Value → Option String
  | Value.string s => some (String.mk s)
  | Value.null => some cur
  | _ => none

/-- Decode the members of an object into a struct, in input order (a later
duplicate key overwrites); keys that select no field are skipped. -/
def decodeMembers {α : Type} (names : List String) (set : α → Nat → Value → Option α) :
    α → List (List Char × Value) → Option α
  | x, [] => some x
  | x, (k, v) :: rest =>
    match findField names k with
    | none => decodeMembers names set x rest
    | some i =>
      match set x i v with
      | some y => decodeMembers names set y rest
      | none => none

/-- `json.Unmarshal(data, &x)` for a struct `x` holding `zero`: the text must be
valid JSON; an object is decoded field by field, `null` leaves `x` as it is,
any other value is a type error. The text of Go's error values is not
modelled: the two messages stand for a syntax error and a type error. -/
def Unmarshal {α : Type} (names : List String) (set : α → Nat → Value → Option α)
    (zero : α) (data : String) : Except String α :=
  match parse data with
  | none => Except.error "invalid JSON input"
  | some (Value.object ms) =>
    match decodeMembers names set zero ms with
    | some x => Except.ok x
    | none => Except.error "json: cannot unmarshal value into Go struct field"
  | some Value.null => Except.ok zero
  | some _ => Except.error "json: cannot unmarshal value into Go value"

end json

/-! ## The chaincode's documents -/

/-- The public document, `type gene struct`, with its field tags as written. -/
structure gene where
  ObjectType : String
  Id : Int
  Name : String
  Population : String
  Gene : String
  Size : Int
deriving DecidableEq, Repr

/-- The restricted document, `type genePrivateDetails struct`. -/
structure genePrivateDetails where
  ObjectType : String
  Name : String
  Age : Int
  Varient : String
  Price : Int
deriving DecidableEq, Repr

/-- The struct `geneTransientInput` of `initGene`. -/
structure geneTransientInput where
  Id : Int
  Name : String
  Population : String
  Gene : String
  Size : Int
  Age : Int
  Varient : String
  Price : Int
deriving DecidableEq, Repr

/-- The struct `geneDeleteTransientInput` of `delete`. -/
structure geneDeleteTransientInput where
  Name : String
deriving DecidableEq, Repr

/-- The struct `geneTransferTransientInput` of `transferGene`. -/
structure geneTransferTransientInput where
  Gene : String
  Name : String
deriving DecidableEq, Repr

/-- Field names and tags of `gene`, as declared. -/
def gene.tags : List (String × String) :=
  [("ObjectType", "json:\"docType\""), ("Id", "json:\"id\""), ("Name", "json:name"),
   ("Population", "json:\"population\""), ("Gene", "json:\"gene\""), ("Size", "json:\"size\"")]

/-- Field names and tags of `genePrivateDetails`, as declared. -/
def genePrivateDetails.tags : List (String × String) :=
  [("ObjectType", "json:\"docType\""), ("Name", "json:\"name\""), ("Age", "json:\"age\""),
   ("Varient", "json:\"varient\""), ("Price", "json:\"price\"")]

/-- Field names and tags of `geneTransientInput`, as declared. -/
def geneTransientInput.tags : List (String × String) :=
  [("Id", "json:\"id\""), ("Name", "json:name"), ("Population", "json:\"population\""),
   ("Gene", "json:\"gene\""), ("Size", "json:\"size\""), ("Age", "json:\"age\""),
   ("Varient", "json:\"varient\""), ("Price", "json:\"price\"")]

/-- Field names and tags of `geneDeleteTransientInput`. -/
def geneDeleteTransientInput.tags : List (String × String) :=
  [("Name", "json:\"name\"")]

/-- Field names and tags of `geneTransferTransientInput`. -/
def geneTransferTransientInput.tags : List (String × String) :=
  [("Gene", "json:\"gene\""), ("Name", "json:\"name\"")]

/-- The JSON keys of a struct, from its field names and tags. -/
def jsonKeys (tags : List (String × String)) : List String :=
  tags.map (fun t => json.fieldName t.1 t.2)

/-- Go's `len` of a string or byte slice: its length in bytes. -/
def len (s : String) : Nat := s.utf8ByteSize

/-- The values of the fields of a `gene`, in declaration order. -/
def gene.fields (g : gene) : List json.Field :=
  [json.Field.str g.ObjectType, json.Field.int g.Id, json.Field.str g.Name,
   json.Field.str g.Population, json.Field.str g.Gene, json.Field.int g.Size]

/-- The values of the fields of a `genePrivateDetails`, in declaration order. -/
def genePrivateDetails.fields (d : genePrivateDetails) : List json.Field :=
  [json.Field.str d.ObjectType, json.Field.str d.Name, json.Field.int d.Age,
   json.Field.str d.Varient, json.Field.int d.Price]

/-- `json.Marshal(gene)`; encoding a struct of integers and strings cannot fail. -/
def gene.Marshal (g : gene) : Except String String :=
  Except.ok (json.encodeObject ((jsonKeys gene.tags).zip g.fields))

/-- `json.Marshal(genePrivateDetails)`. -/
def genePrivateDetails.Marshal (d : genePrivateDetails) : Except String String :=
  Except.ok (json.encodeObject ((jsonKeys genePrivateDetails.tags).zip d.fields))

/-- Store a decoded value in the `i`-th field of a `gene`. -/
def gene.set (g : gene) (i : Nat) (v : json.Value) : Option gene :=
  match i with
  | 0 => (json.decodeString g.ObjectType v).map (fun s => { g with ObjectType := s })
  | 1 => (json.decodeInt g.Id v).map (fun n => { g with Id := n })
  | 2 => (json.decodeString g.Name v).map (fun s => { g with Name := s })
  | 3 => (json.decodeString g.Population v).map (fun s => { g with Population := s })
  | 4 => (json.decodeString g.Gene v).map (fun s => { g with Gene := s })
  | 5 => (json.decodeInt g.Size v).map (fun n => { g with Size := n })
  | _ => some g

/-- Store a decoded value in the `i`-th field of a `geneTransientInput`. -/
def geneTransientInput.set (x : geneTransientInput) (i : Nat) (v : json.Value) :
    Option geneTransientInput :=
  match i with
  | 0 => (json.decodeInt x.Id v).map (fun n => { x with Id := n })
  | 1 => (json.decodeString x.Name v).map (fun s => { x with Name := s })
  | 2 => (json.decodeString x.Population v).map (fun s => { x with Population := s })
  | 3 => (json.decodeString x.Gene v).map (fun s => { x with Gene := s })
  | 4 => (json.decodeInt x.Size v).map (fun n => { x with Size := n })
  | 5 => (json.decodeInt x.Age v).map (fun n => { x with Age := n })
  | 6 => (json.decodeString x.Varient v).map (fun s => { x with Varient := s })
  | 7 => (json.decodeInt x.Price v).map (fun n => { x with Price := n })
  | _ => some x

/-- Store a decoded value in the field of a `geneDeleteTransientInput`. -/
def geneDeleteTransientInput.set (x : geneDeleteTransientInput) (i : Nat) (v : json.Value) :
    Option geneDeleteTransientInput :=
  match i with
  | 0 => (json.decodeString x.Name v).map (fun s => { x with Name := s })
  | _ => some x

/-- Store a decoded value in the `i`-th field of a `geneTransferTransientInput`. -/
def geneTransferTransientInput.set (x : geneTransferTransientInput) (i : Nat) (v : json.Value) :
    Option geneTransferTransientInput :=
  match i with
  | 0 => (json.decodeString x.Gene v).map (fun s => { x with Gene := s })
  | 1 => (json.decodeString x.Name v).map (fun s => { x with Name := s })
  | _ => some x

/-- `json.Unmarshal(data, &g)` for a zero `gene`. -/
def gene.Unmarshal (data : String) : Except String gene :=
  json.Unmarshal (jsonKeys gene.tags) gene.set ⟨"", 0, "", "", "", 0⟩ data

/-- `json.Unmarshal(data, &geneInput)` for a zero `geneTransientInput`. -/
def geneTransientInput.Unmarshal (data : String) : Except String geneTransientInput :=
  json.Unmarshal (jsonKeys geneTransientInput.tags) geneTransientInput.set
    ⟨0, "", "", "", 0, 0, "", 0⟩ data

/-- `json.Unmarshal(data, &geneDeleteInput)`. -/
def geneDeleteTransientInput.Unmarshal (data : String) : Except String geneDeleteTransientInput :=
  json.Unmarshal (jsonKeys geneDeleteTransientInput.tags) geneDeleteTransientInput.set ⟨""⟩ data

/-- `json.Unmarshal(data, &geneTransferInput)`. -/
def geneTransferTransientInput.Unmarshal (data : String) :
    Except String geneTransferTransientInput :=
  json.Unmarshal (jsonKeys geneTransferTransientInput.tags) geneTransferTransientInput.set
    ⟨"", ""⟩ data

/-! ## The Fabric shim -/

namespace pb

/-- The response of an invocation (`pb.Response`); a nil payload is `none`. -/
structure Response where
  Status : Int
  Message : String
  Payload : Option String
deriving DecidableEq, Repr

end pb

namespace queryresult

/-- One result of a range or rich query. -/
structure KV where
  Key : String
  Value : String
deriving DecidableEq, Repr

end queryresult

namespace shim

/-- Status code of a successful response. -/
def OK : Int := 200

/-- Status code of an error response. -/
def ERROR : Int := 500

/-- `shim.Success(payload)`. -/
def Success (payload : Option String) : pb.Response :=
  { Status := OK, Message := "", Payload := payload }

/-- `shim.Error(msg)`. -/
def Error (msg : String) : pb.Response :=
  { Status := ERROR, Message := msg, Payload := none }

/-- The separator and lower bound of composite keys, U+0000. -/
def minUnicodeRuneValue : Char := Char.ofNat 0

/-- The upper bound of composite-key ranges, U+10FFFF. -/
def maxUnicodeRuneValue : Char := Char.ofNat 0x10FFFF

/-- `validateCompositeKeyAttribute`: U+0000 and U+10FFFF may not occur in the
object type or an attribute of a composite key. (The wording of the error is
approximate.) -/
def validateCompositeKeyAttribute (str : String) : Option String :=
  if str.data.any (fun r => r == minUnicodeRuneValue || r == maxUnicodeRuneValue) then
    some ("input contain unicode U+0000 or U+10FFFF, which are not allowed in the input " ++
      "attribute of a composite key: " ++ str)
  else none

/-- The attributes of a composite key, each followed by U+0000. -/
def appendAttributes : String → List String → Except String String
  | ck, [] => Except.ok ck
  | ck, att :: rest =>
    match validateCompositeKeyAttribute att with
    | some err => Except.error err
    | none => appendAttributes (ck ++ att ++ String.singleton minUnicodeRuneValue) rest

/-- `createCompositeKey`: U+0000, the object type, U+0000, then every
attribute followed by U+0000. -/
def createCompositeKey (objectType : String) (attributes : List String) : Except String String :=
  match validateCompositeKeyAttribute objectType with
  | some err => Except.error err
  | none =>
    appendAttributes
      (String.singleton minUnicodeRuneValue ++ objectType ++ String.singleton minUnicodeRuneValue)
      attributes

/-- A call made on the stub or on a query iterator, as recorded in the trace. -/
inductive Call where
  | GetTransient
  | GetPrivateData (collection key : String)
  | PutPrivateData (collection key value : String)
  | DelPrivateData (collection key : String)
  | CreateCompositeKey (objectType : String) (attributes : List String)
  | GetPrivateDataByRange (collection startKey endKey : String)
  | GetPrivateDataQueryResult (collection query : String)
  | HasNext
  | Next
  | Close
deriving DecidableEq, Repr

/-- The stub of one invocation, with the ledger behind it: the arguments and
the transient map of the proposal, the private data of every collection (a
key without value is `none`), what a range scan and a rich query deliver (a
failing `Next` is an `error` item), the calls that fail for a reason outside
the chaincode (`fault n` is the error of the `n`-th call, counted from 0 over
`trace`), and the calls made so far. -/
structure ChaincodeStub where
  args : List String
  transient : String → Option String
  pvt : String → String → Option String
  byRange : String → String → String → List (Except String queryresult.KV)
  byQuery : String → String → List (Except String queryresult.KV)
  fault : Nat → Option String
  trace : List Call

namespace ChaincodeStub

/-- Record a call in the trace. -/
def log (stub : ChaincodeStub) (c : Call) : ChaincodeStub :=
  { stub with trace := stub.trace ++ [c] }

/-- `stub.GetFunctionAndParameters()`: the first argument and the others. -/
def GetFunctionAndParameters (stub : ChaincodeStub) : String × List String :=
  match stub.args with
  | [] => ("", [])
  | function :: params => (function, params)

/-- `stub.GetTransient()`. -/
def GetTransient (stub : ChaincodeStub) :
    Except String (String → Option String) × ChaincodeStub :=
  match stub.fault stub.trace.length with
  | some err => (Except.error err, stub.log Call.GetTransient)
  | none => (Except.ok stub.transient, stub.log Call.GetTransient)

/-- The private data after a value is written under a key of a collection. An
empty value is recorded by the ledger as the deletion of the key. -/
def put (pvt : String → String → Option String) (collection key value : String) :
    String → String → Option String :=
  fun c k =>
    if c = collection ∧ k = key then (if value = "" then none else some value) else pvt c k

/-- The private data after a key of a collection is deleted. -/
def del (pvt : String → String → Option String) (collection key : String) :
    String → String → Option String :=
  fun c k => if c = collection ∧ k = key then none else pvt c k

/-- `stub.GetPrivateData(collection, key)`: the value, nil when the key has none. -/
def GetPrivateData (stub : ChaincodeStub) (collection key : String) :
    Except String (Option String) × ChaincodeStub :=
  let stub1 := stub.log (Call.GetPrivateData collection key)
  if collection = "" then (Except.error "collection must not be an empty string", stub1)
  else
    match stub.fault stub.trace.length with
    | some err => (Except.error err, stub1)
    | none => (Except.ok (stub.pvt collection key), stub1)

/-- `stub.PutPrivateData(collection, key, value)`; gives the error, if any. -/
def PutPrivateData (stub : ChaincodeStub) (collection key value : String) :
    Option String × ChaincodeStub :=
  let stub1 := stub.log (Call.PutPrivateData collection key value)
  if collection = "" then (some "collection must not be an empty string", stub1)
  else if key = "" then (some "key must not be an empty string", stub1)
  else
    match stub.fault stub.trace.length with
    | some err => (some err, stub1)
    | none =>
      (none, { stub1 with pvt := put stub.pvt collection key value })

/-- `stub.DelPrivateData(collection, key)`; gives the error, if any. -/
def DelPrivateData (stub : ChaincodeStub) (collection key : String) :
    Option String × ChaincodeStub :=
  let stub1 := stub.log (Call.DelPrivateData collection key)
  if collection = "" then (some "collection must not be an empty string", stub1)
  else
    match stub.fault stub.trace.length with
    | some err => (some err, stub1)
    | none =>
      (none, { stub1 with pvt := del stub.pvt collection key })

/-- `stub.CreateCompositeKey(objectType, attributes)`. -/
def CreateCompositeKey (stub : ChaincodeStub) (objectType : String) (attributes : List String) :
    Except String String × ChaincodeStub :=
  let stub1 := stub.log (Call.CreateCompositeKey objectType attributes)
  match stub.fault stub.trace.length with
  | some err => (Except.error err, stub1)
  | none => (createCompositeKey objectType attributes, stub1)

/-- `stub.GetPrivateDataByRange(collection, startKey, endKey)`: the iterator,
as the results it will deliver. -/
def GetPrivateDataByRange (stub : ChaincodeStub) (collection startKey endKey : String) :
    Except String (List (Except String queryresult.KV)) × ChaincodeStub :=
  let stub1 := stub.log (Call.GetPrivateDataByRange collection startKey endKey)
  if collection = "" then (Except.error "collection must not be an empty string", stub1)
  else
    match stub.fault stub.trace.length with
    | some err => (Except.error err, stub1)
    | none => (Except.ok (stub.byRange collection startKey endKey), stub1)

/-- `stub.GetPrivateDataQueryResult(collection, query)`. -/
def GetPrivateDataQueryResult (stub : ChaincodeStub) (collection query : String) :
    Except String (List (Except String queryresult.KV)) × ChaincodeStub :=
  let stub1 := stub.log (Call.GetPrivateDataQueryResult collection query)
  if collection = "" then (Except.error "collection must not be an empty string", stub1)
  else
    match stub.fault stub.trace.length with
    | some err => (Except.error err, stub1)
    | none => (Except.ok (stub.byQuery collection query), stub1)

end ChaincodeStub

end shim

namespace unicode

/-- The lower-case mappings of `unicode.CaseRanges`: the code points `Lo`,
`Lo + stride`, ..., `Hi` of an entry `(Lo, Hi, stride, delta)` have the lower
case `r + delta`. (The simple lower-case mappings of the Unicode Character
Database, version 14.0; every other code point is its own lower case.) -/
def lowerRanges : List (Nat × Nat × Nat × Int) :=
  [(0x0041, 0x005A, 1, 32), (0x00C0, 0x00D6, 1, 32), (0x00D8, 0x00DE, 1, 32),
   (0x0100, 0x012E, 2, 1), (0x0130, 0x0130, 1, -199), (0x0132, 0x0136, 2, 1),
   (0x0139, 0x0147, 2, 1), (0x014A, 0x0176, 2, 1), (0x0178, 0x0178, 1, -121),
   (0x0179, 0x017D, 2, 1), (0x0181, 0x0181, 1, 210), (0x0182, 0x0184, 2, 1),
   (0x0186, 0x0186, 1, 206), (0x0187, 0x0187, 1, 1), (0x0189, 0x018A, 1, 205),
   (0x018B, 0x018B, 1, 1), (0x018E, 0x018E, 1, 79), (0x018F, 0x018F, 1, 202),
   (0x0190, 0x0190, 1, 203), (0x0191, 0x0191, 1, 1), (0x0193, 0x0193, 1, 205),
   (0x0194, 0x0194, 1, 207), (0x0196, 0x0196, 1, 211), (0x0197, 0x0197, 1, 209),
   (0x0198, 0x0198, 1, 1), (0x019C, 0x019C, 1, 211), (0x019D, 0x019D, 1, 213),
   (0x019F, 0x019F, 1, 214), (0x01A0, 0x01A4, 2, 1), (0x01A6, 0x01A6, 1, 218),
   (0x01A7, 0x01A7, 1, 1), (0x01A9, 0x01A9, 1, 218), (0x01AC, 0x01AC, 1, 1),
   (0x01AE, 0x01AE, 1, 218), (0x01AF, 0x01AF, 1, 1), (0x01B1, 0x01B2, 1, 217),
   (0x01B3, 0x01B5, 2, 1), (0x01B7, 0x01B7, 1, 219), (0x01B8, 0x01B8, 1, 1),
   (0x01BC, 0x01BC, 1, 1), (0x01C4, 0x01C4, 1, 2), (0x01C5, 0x01C5, 1, 1), (0x01C7, 0x01C7, 1, 2),
   (0x01C8, 0x01C8, 1, 1), (0x01CA, 0x01CA, 1, 2), (0x01CB, 0x01DB, 2, 1), (0x01DE, 0x01EE, 2, 1),
   (0x01F1, 0x01F1, 1, 2), (0x01F2, 0x01F4, 2, 1), (0x01F6, 0x01F6, 1, -97),
   (0x01F7, 0x01F7, 1, -56), (0x01F8, 0x021E, 2, 1), (0x0220, 0x0220, 1, -130),
   (0x0222, 0x0232, 2, 1), (0x023A, 0x023A, 1, 10795), (0x023B, 0x023B, 1, 1),
   (0x023D, 0x023D, 1, -163), (0x023E, 0x023E, 1, 10792), (0x0241, 0x0241, 1, 1),
   (0x0243, 0x0243, 1, -195), (0x0244, 0x0244, 1, 69), (0x0245, 0x0245, 1, 71),
   (0x0246, 0x024E, 2, 1), (0x0370, 0x0372, 2, 1), (0x0376, 0x0376, 1, 1),
   (0x037F, 0x037F, 1, 116), (0x0386, 0x0386, 1, 38), (0x0388, 0x038A, 1, 37),
   (0x038C, 0x038C, 1, 64), (0x038E, 0x038F, 1, 63), (0x0391, 0x03A1, 1, 32),
   (0x03A3, 0x03AB, 1, 32), (0x03CF, 0x03CF, 1, 8), (0x03D8, 0x03EE, 2, 1),
   (0x03F4, 0x03F4, 1, -60), (0x03F7, 0x03F7, 1, 1), (0x03F9, 0x03F9, 1, -7),
   (0x03FA, 0x03FA, 1, 1), (0x03FD, 0x03FF, 1, -130), (0x0400, 0x040F, 1, 80),
   (0x0410, 0x042F, 1, 32), (0x0460, 0x0480, 2, 1), (0x048A, 0x04BE, 2, 1),
   (0x04C0, 0x04C0, 1, 15), (0x04C1, 0x04CD, 2, 1), (0x04D0, 0x052E, 2, 1),
   (0x0531, 0x0556, 1, 48), (0x10A0, 0x10C5, 1, 7264), (0x10C7, 0x10C7, 1, 7264),
   (0x10CD, 0x10CD, 1, 7264), (0x13A0, 0x13EF, 1, 38864), (0x13F0, 0x13F5, 1, 8),
   (0x1C90, 0x1CBA, 1, -3008), (0x1CBD, 0x1CBF, 1, -3008), (0x1E00, 0x1E94, 2, 1),
   (0x1E9E, 0x1E9E, 1, -7615), (0x1EA0, 0x1EFE, 2, 1), (0x1F08, 0x1F0F, 1, -8),
   (0x1F18, 0x1F1D, 1, -8), (0x1F28, 0x1F2F, 1, -8), (0x1F38, 0x1F3F, 1, -8),
   (0x1F48, 0x1F4D, 1, -8), (0x1F59, 0x1F5F, 2, -8), (0x1F68, 0x1F6F, 1, -8),
   (0x1F88, 0x1F8F, 1, -8), (0x1F98, 0x1F9F, 1, -8), (0x1FA8, 0x1FAF, 1, -8),
   (0x1FB8, 0x1FB9, 1, -8), (0x1FBA, 0x1FBB, 1, -74), (0x1FBC, 0x1FBC, 1, -9),
   (0x1FC8, 0x1FCB, 1, -86), (0x1FCC, 0x1FCC, 1, -9), (0x1FD8, 0x1FD9, 1, -8),
   (0x1FDA, 0x1FDB, 1, -100), (0x1FE8, 0x1FE9, 1, -8), (0x1FEA, 0x1FEB, 1, -112),
   (0x1FEC, 0x1FEC, 1, -7), (0x1FF8, 0x1FF9, 1, -128), (0x1FFA, 0x1FFB, 1, -126),
   (0x1FFC, 0x1FFC, 1, -9), (0x2126, 0x2126, 1, -7517), (0x212A, 0x212A, 1, -8383),
   (0x212B, 0x212B, 1, -8262), (0x2132, 0x2132, 1, 28), (0x2160, 0x216F, 1, 16),
   (0x2183, 0x2183, 1, 1), (0x24B6, 0x24CF, 1, 26), (0x2C00, 0x2C2F, 1, 48),
   (0x2C60, 0x2C60, 1, 1), (0x2C62, 0x2C62, 1, -10743), (0x2C63, 0x2C63, 1, -3814),
   (0x2C64, 0x2C64, 1, -10727), (0x2C67, 0x2C6B, 2, 1), (0x2C6D, 0x2C6D, 1, -10780),
   (0x2C6E, 0x2C6E, 1, -10749), (0x2C6F, 0x2C6F, 1, -10783), (0x2C70, 0x2C70, 1, -10782),
   (0x2C72, 0x2C72, 1, 1), (0x2C75, 0x2C75, 1, 1), (0x2C7E, 0x2C7F, 1, -10815),
   (0x2C80, 0x2CE2, 2, 1), (0x2CEB, 0x2CED, 2, 1), (0x2CF2, 0x2CF2, 1, 1), (0xA640, 0xA66C, 2, 1),
   (0xA680, 0xA69A, 2, 1), (0xA722, 0xA72E, 2, 1), (0xA732, 0xA76E, 2, 1), (0xA779, 0xA77B, 2, 1),
   (0xA77D, 0xA77D, 1, -35332), (0xA77E, 0xA786, 2, 1), (0xA78B, 0xA78B, 1, 1),
   (0xA78D, 0xA78D, 1, -42280), (0xA790, 0xA792, 2, 1), (0xA796, 0xA7A8, 2, 1),
   (0xA7AA, 0xA7AA, 1, -42308), (0xA7AB, 0xA7AB, 1, -42319), (0xA7AC, 0xA7AC, 1, -42315),
   (0xA7AD, 0xA7AD, 1, -42305), (0xA7AE, 0xA7AE, 1, -42308), (0xA7B0, 0xA7B0, 1, -42258),
   (0xA7B1, 0xA7B1, 1, -42282), (0xA7B2, 0xA7B2, 1, -42261), (0xA7B3, 0xA7B3, 1, 928),
   (0xA7B4, 0xA7C2, 2, 1), (0xA7C4, 0xA7C4, 1, -48), (0xA7C5, 0xA7C5, 1, -42307),
   (0xA7C6, 0xA7C6, 1, -35384), (0xA7C7, 0xA7C9, 2, 1), (0xA7D0, 0xA7D0, 1, 1),
   (0xA7D6, 0xA7D8, 2, 1), (0xA7F5, 0xA7F5, 1, 1), (0xFF21, 0xFF3A, 1, 32),
   (0x10400, 0x10427, 1, 40), (0x104B0, 0x104D3, 1, 40), (0x10570, 0x1057A, 1, 39),
   (0x1057C, 0x1058A, 1, 39), (0x1058C, 0x10592, 1, 39), (0x10594, 0x10595, 1, 39),
   (0x10C80, 0x10CB2, 1, 64), (0x118A0, 0x118BF, 1, 32), (0x16E40, 0x16E5F, 1, 32),
   (0x1E900, 0x1E921, 1, 34)]

/-- `unicode.ToLower`: the lower case of a rune, the rune itself when it has none. -/
def ToLower (r : Char) : Char :=
  match lowerRanges.find?
      (fun e => e.1 ≤ r.toNat && r.toNat ≤ e.2.1 && (r.toNat - e.1) % e.2.2.1 == 0) with
  | some e => Char.ofNat (Int.toNat (r.toNat + e.2.2.2))
  | none => r

end unicode

namespace strings

/-- `strings.ToLower`: every rune mapped to its lower case by `unicode.ToLower`. -/
def ToLower (s : String) : String := ⟨s.data.map unicode.ToLower⟩

end strings

/-! ## The chaincode

Every handler takes the stub and the arguments and gives the response
together with the stub after its calls. Output on the standard output
(`fmt.Println`, `fmt.Printf`) is not modelled. -/

open shim

/-- The handler `initGene`: create a gene from the transient map. -/
def initGene (stub : ChaincodeStub) (args : List String) : pb.Response × ChaincodeStub :=
  if args.length ≠ 0 then
    (shim.Error "Incorrect number of arguments. Private gene data must be passed in transient map.",
      stub)
  else
  match stub.GetTransient with
  | (Except.error err, stub) => (shim.Error ("Error getting transient: " ++ err), stub)
  | (Except.ok transMap, stub) =>
  match transMap "gene" with
  | none => (shim.Error "gene must be a key in the transient map", stub)
  | some data =>
  if len data = 0 then
    (shim.Error "gene value in the transient map must be a non-empty JSON string", stub)
  else
  match geneTransientInput.Unmarshal data with
  | Except.error _ => (shim.Error ("Failed to decode JSON of: " ++ data), stub)
  | Except.ok geneInput =>
  if geneInput.Id ≤ 0 then (shim.Error "id field must be a positive integer", stub)
  else if len geneInput.Name = 0 then
    (shim.Error "name field must be a non-empty string", stub)
  else if len geneInput.Population = 0 then
    (shim.Error "population field must be a non-empty string", stub)
  else if len geneInput.Gene = 0 then
    (shim.Error "gene field must be a non-empty string", stub)
  else if geneInput.Size ≤ 0 then (shim.Error "size field must be a positive integer", stub)
  else if geneInput.Age ≤ 0 then (shim.Error "Age field must be a positive integer", stub)
  else if len geneInput.Varient = 0 then
    (shim.Error "varient field must be a non-empty string", stub)
  else if geneInput.Price ≤ 0 then (shim.Error "Price field must be a positive integer", stub)
  else
  -- ==== Check if gene already exists ====
  match stub.GetPrivateData "collectionGenes" geneInput.Name with
  | (Except.error err, stub) => (shim.Error ("Failed to get gene: " ++ err), stub)
  | (Except.ok (some _), stub) =>
    (shim.Error ("This gene already exists: " ++ geneInput.Name), stub)
  | (Except.ok none, stub) =>
  -- ==== Create gene object, marshal to JSON, and save to state ====
  let gene : gene :=
    { ObjectType := "gene", Id := geneInput.Id, Name := geneInput.Name,
      Population := geneInput.Population, Gene := geneInput.Gene, Size := geneInput.Size }
  match gene.Marshal with
  | Except.error err => (shim.Error err, stub)
  | Except.ok geneJSONasBytes =>
  match stub.PutPrivateData "collectionGenes" geneInput.Name geneJSONasBytes with
  | (some err, stub) => (shim.Error err, stub)
  | (none, stub) =>
  -- ==== Create gene private details object, marshal to JSON, and save to state ====
  let genePrivateDetails : genePrivateDetails :=
    { ObjectType := "genePrivateDetails", Name := geneInput.Name, Age := geneInput.Age,
      Varient := geneInput.Varient, Price := geneInput.Price }
  match genePrivateDetails.Marshal with
  | Except.error err => (shim.Error err, stub)
  | Except.ok genePrivateDetailsBytes =>
  match stub.PutPrivateData "collectionGenesPrivateDetails" geneInput.Name
      genePrivateDetailsBytes with
  | (some err, stub) => (shim.Error err, stub)
  | (none, stub) =>
  -- ==== Index the gene ====
  let indexName := "gene~name"
  match stub.CreateCompositeKey indexName [gene.Gene, gene.Name] with
  | (Except.error err, stub) => (shim.Error err, stub)
  | (Except.ok geneNameIndexKey, stub) =>
  let value := String.singleton (Char.ofNat 0)
  -- the error of this call is not looked at
  let stub := (stub.PutPrivateData "collectionGenes" geneNameIndexKey value).2
  (shim.Success none, stub)

/-- The handler `readGene`: the public document stored under a name. -/
def readGene (stub : ChaincodeStub) (args : List String) : pb.Response × ChaincodeStub :=
  if args.length ≠ 1 then
    (shim.Error "Incorrect number of arguments. Expecting name of the gene to query", stub)
  else
  let name := args.getD 0 ""
  match stub.GetPrivateData "collectionGenes" name with
  | (Except.error _, stub) =>
    (shim.Error ("\x7b\"Error\":\"Failed to get state for " ++ name ++ "\"\x7d"), stub)
  | (Except.ok none, stub) =>
    (shim.Error ("\x7b\"Error\":\"Gene does not exist: " ++ name ++ "\"\x7d"), stub)
  | (Except.ok (some valAsbytes), stub) => (shim.Success (some valAsbytes), stub)

/-- The handler `readGenePrivateDetails`: the restricted document stored under a name. -/
def readGenePrivateDetails (stub : ChaincodeStub) (args : List String) :
    pb.Response × ChaincodeStub :=
  if args.length ≠ 1 then
    (shim.Error "Incorrect number of arguments. Expecting name of the gene to query", stub)
  else
  let name := args.getD 0 ""
  match stub.GetPrivateData "collectionGenesPrivateDetails" name with
  | (Except.error err, stub) =>
    (shim.Error ("\x7b\"Error\":\"Failed to get private details for " ++ name ++ ": " ++ err ++
      "\"\x7d"), stub)
  | (Except.ok none, stub) =>
    (shim.Error ("\x7b\"Error\":\"Gene private details does not exist: " ++ name ++ "\"\x7d"), stub)
  | (Except.ok (some valAsbytes), stub) => (shim.Success (some valAsbytes), stub)

/-- The handler `delete`: remove a gene, its index entry and its private details. -/
def delete (stub : ChaincodeStub) (args : List String) : pb.Response × ChaincodeStub :=
  if args.length ≠ 0 then
    (shim.Error "Incorrect number of arguments. Private gene name must be passed in transient map.",
      stub)
  else
  match stub.GetTransient with
  | (Except.error err, stub) => (shim.Error ("Error getting transient: " ++ err), stub)
  | (Except.ok transMap, stub) =>
  match transMap "gene_delete" with
  | none => (shim.Error "gene_delete must be a key in the transient map", stub)
  | some data =>
  if len data = 0 then
    (shim.Error "gene_delete value in the transient map must be a non-empty JSON string", stub)
  else
  match geneDeleteTransientInput.Unmarshal data with
  | Except.error _ => (shim.Error ("Failed to decode JSON of: " ++ data), stub)
  | Except.ok geneDeleteInput =>
  if len geneDeleteInput.Name = 0 then
    (shim.Error "name field must be a non-empty string", stub)
  else
  -- to maintain the index, the gene is read first
  match stub.GetPrivateData "collectionGenes" geneDeleteInput.Name with
  | (Except.error _, stub) =>
    (shim.Error ("Failed to get state for " ++ geneDeleteInput.Name), stub)
  | (Except.ok none, stub) =>
    (shim.Error ("Gene does not exist: " ++ geneDeleteInput.Name), stub)
  | (Except.ok (some valAsbytes), stub) =>
  match gene.Unmarshal valAsbytes with
  | Except.error _ => (shim.Error ("Failed to decode JSON of: " ++ valAsbytes), stub)
  | Except.ok geneToDelete =>
  -- delete the gene from state
  match stub.DelPrivateData "collectionGenes" geneDeleteInput.Name with
  | (some err, stub) => (shim.Error ("Failed to delete state:" ++ err), stub)
  | (none, stub) =>
  -- Also delete the gene from the color~name index
  let indexName := "color~name"
  match stub.CreateCompositeKey indexName [geneToDelete.Gene, geneToDelete.Name] with
  | (Except.error err, stub) => (shim.Error err, stub)
  | (Except.ok geneNameIndexKey, stub) =>
  match stub.DelPrivateData "collectionGenes" geneNameIndexKey with
  | (some err, stub) => (shim.Error ("Failed to delete state:" ++ err), stub)
  | (none, stub) =>
  -- Finally, delete private details of gene
  match stub.DelPrivateData "collectionGenesPrivateDetails" geneDeleteInput.Name with
  | (some err, stub) => (shim.Error err, stub)
  | (none, stub) => (shim.Success none, stub)

/-- The handler `transferGene`: set a new gene label on a stored gene. -/
def transferGene (stub : ChaincodeStub) (args : List String) : pb.Response × ChaincodeStub :=
  if args.length ≠ 0 then
    (shim.Error "Incorrect number of arguments. Private gene data must be passed in transient map.",
      stub)
  else
  match stub.GetTransient with
  | (Except.error err, stub) => (shim.Error ("Error getting transient: " ++ err), stub)
  | (Except.ok transMap, stub) =>
  match transMap "gene_name" with
  | none => (shim.Error "gene_name must be a key in the transient map", stub)
  | some data =>
  if len data = 0 then
    (shim.Error "gene_name value in the transient map must be a non-empty JSON string", stub)
  else
  match geneTransferTransientInput.Unmarshal data with
  | Except.error _ => (shim.Error ("Failed to decode JSON of: " ++ data), stub)
  | Except.ok geneTransferInput =>
  if len geneTransferInput.Gene = 0 then
    (shim.Error "gene field must be a non-empty string", stub)
  else if len geneTransferInput.Name = 0 then
    (shim.Error "name field must be a non-empty string", stub)
  else
  match stub.GetPrivateData "collectionGenes" geneTransferInput.Name with
  | (Except.error err, stub) => (shim.Error ("Failed to get gene:" ++ err), stub)
  | (Except.ok none, stub) =>
    (shim.Error ("Name does not exist: " ++ geneTransferInput.Name), stub)
  | (Except.ok (some geneAsBytes), stub) =>
  match gene.Unmarshal geneAsBytes with
  | Except.error err => (shim.Error err, stub)
  | Except.ok geneToTransfer =>
  let geneToTransfer := { geneToTransfer with Gene := geneTransferInput.Gene }
  -- the error of Marshal is dropped; the bytes are then nil
  let geneJSONasBytes :=
    match geneToTransfer.Marshal with
    | Except.ok b => b
    | Except.error _ => ""
  match stub.PutPrivateData "collectionGenes" geneToTransfer.Name geneJSONasBytes with
  | (some err, stub) => (shim.Error err, stub)
  | (none, stub) => (shim.Success none, stub)

/-- The loop of `getGenesByRange` over the iterator: `HasNext`, `Next`, and one
array member written to the buffer for each result. -/
def getGenesByRange.loop : List (Except String queryresult.KV) → String → Bool → ChaincodeStub →
    Except String String × ChaincodeStub
  | [], buffer, _, stub => (Except.ok buffer, stub.log Call.HasNext)
  | Except.error err :: _, _, _, stub =>
    (Except.error err, (stub.log Call.HasNext).log Call.Next)
  | Except.ok queryResponse :: rest, buffer, bArrayMemberAlreadyWritten, stub =>
    let stub := (stub.log Call.HasNext).log Call.Next
    -- Add a comma before array members, suppress it for the first array member
    let buffer := if bArrayMemberAlreadyWritten = true then buffer ++ "," else buffer
    let buffer := buffer ++ "\x7b\"Key\":"
    let buffer := buffer ++ "\""
    let buffer := buffer ++ queryResponse.Key
    let buffer := buffer ++ "\""
    let buffer := buffer ++ ", \"Record\":"
    -- Record is a JSON object, so we write as-is
    let buffer := buffer ++ queryResponse.Value
    let buffer := buffer ++ "\x7d"
    getGenesByRange.loop rest buffer true stub

/-- The handler `getGenesByRange`: a range query on `collectionGenes`. The
deferred `Close` runs on every return after the iterator is obtained. -/
def getGenesByRange (stub : ChaincodeStub) (args : List String) : pb.Response × ChaincodeStub :=
  if args.length < 2 then (shim.Error "Incorrect number of arguments. Expecting 2", stub)
  else
  let startKey := args.getD 0 ""
  let endKey := args.getD 1 ""
  match stub.GetPrivateDataByRange "collectionGenes" startKey endKey with
  | (Except.error err, stub) => (shim.Error err, stub)
  | (Except.ok resultsIterator, stub) =>
  match getGenesByRange.loop resultsIterator "[" false stub with
  | (Except.error err, stub) => (shim.Error err, stub.log Call.Close)
  | (Except.ok buffer, stub) =>
  let buffer := buffer ++ "]"
  (shim.Success (some buffer), stub.log Call.Close)

/-- The loop of `getQueryResultForQueryString` over the iterator. -/
def getQueryResultForQueryString.loop : List (Except String queryresult.KV) → String → Bool →
    ChaincodeStub → Except String String × ChaincodeStub
  | [], buffer, _, stub => (Except.ok buffer, stub.log Call.HasNext)
  | Except.error err :: _, _, _, stub =>
    (Except.error err, (stub.log Call.HasNext).log Call.Next)
  | Except.ok queryResponse :: rest, buffer, bArrayMemberAlreadyWritten, stub =>
    let stub := (stub.log Call.HasNext).log Call.Next
    -- Add a comma before array members, suppress it for the first array member
    let buffer := if bArrayMemberAlreadyWritten = true then buffer ++ "," else buffer
    let buffer := buffer ++ "\x7b\"Key\":"
    let buffer := buffer ++ "\""
    let buffer := buffer ++ queryResponse.Key
    let buffer := buffer ++ "\""
    let buffer := buffer ++ ", \"Record\":"
    -- Record is a JSON object, so we write as-is
    let buffer := buffer ++ queryResponse.Value
    let buffer := buffer ++ "\x7d"
    getQueryResultForQueryString.loop rest buffer true stub

/-- The function `getQueryResultForQueryString`: run a rich query on
`collectionGenes` and build the JSON array of its results. -/
def getQueryResultForQueryString (stub : ChaincodeStub) (queryString : String) :
    Except String String × ChaincodeStub :=
  match stub.GetPrivateDataQueryResult "collectionGenes" queryString with
  | (Except.error err, stub) => (Except.error err, stub)
  | (Except.ok resultsIterator, stub) =>
  match getQueryResultForQueryString.loop resultsIterator "[" false stub with
  | (Except.error err, stub) => (Except.error err, stub.log Call.Close)
  | (Except.ok buffer, stub) =>
  let buffer := buffer ++ "]"
  (Except.ok buffer, stub.log Call.Close)

/-- The handler `queryAgeingDrugs`: rich query by (lower-cased) owner. -/
def queryAgeingDrugs (stub : ChaincodeStub) (args : List String) : pb.Response × ChaincodeStub :=
  if args.length < 1 then (shim.Error "Incorrect number of arguments. Expecting 1", stub)
  else
  let owner := strings.ToLower (args.getD 0 "")
  let queryString := "\x7b\"selector\":\x7b\"docType\":\"gene\",\"owner\":\"" ++ owner ++ "\"\x7d\x7d"
  match getQueryResultForQueryString stub queryString with
  | (Except.error err, stub) => (shim.Error err, stub)
  | (Except.ok queryResults, stub) => (shim.Success (some queryResults), stub)

/-- The handler `queryLongetivityMapByGene`: rich query with the caller's query string. -/
def queryLongetivityMapByGene (stub : ChaincodeStub) (args : List String) :
    pb.Response × ChaincodeStub :=
  if args.length < 1 then (shim.Error "Incorrect number of arguments. Expecting 1", stub)
  else
  let queryString := args.getD 0 ""
  match getQueryResultForQueryString stub queryString with
  | (Except.error err, stub) => (shim.Error err, stub)
  | (Except.ok queryResults, stub) => (shim.Success (some queryResults), stub)

/-- The entry point `Init`. -/
def Init (stub : ChaincodeStub) : pb.Response × ChaincodeStub :=
  (shim.Success none, stub)

/-- The entry point `Invoke`: route the function name to its handler. -/
def Invoke (stub : ChaincodeStub) : pb.Response × ChaincodeStub :=
  let (function, args) := stub.GetFunctionAndParameters
  if function = "initGene" then initGene stub args
  else if function = "readGene" then readGene stub args
  else if function = "readGenePrivateDetails" then readGenePrivateDetails stub args
  else if function = "transferGene" then transferGene stub args
  else if function = "delete" then delete stub args
  else if function = "queryLongetivityMapByGene" then queryLongetivityMapByGene stub args
  else if function = "queryAgeingDrugs" then queryAgeingDrugs stub args
  else if function = "getGenesByRange" then getGenesByRange stub args
  else (shim.Error "Received unknown function invocation", stub)

/-! ## Notions used in the statements -/

/-- The 64-bit range of a Go `int`. -/
def int64 (i : Int) : Prop := -(2 : Int) ^ 63 ≤ i ∧ i < (2 : Int) ^ 63

/-- The value the scanner delimits for an encoded field. -/
def json.fieldValue : json.Field → json.Value
  | json.Field.int i => json.Value.number (strconv.Itoa i)
  | json.Field.str s => json.Value.string s.data

/-- No call on the stub fails for a reason outside the chaincode. -/
def shim.ChaincodeStub.noFault (stub : ChaincodeStub) : Prop := ∀ n, stub.fault n = none

/-- The stub of a later invocation on the same ledger: new arguments and a new
transient map, the private data and the trace carried over. -/
def shim.ChaincodeStub.next (stub : ChaincodeStub) (args : List String)
    (transient : String → Option String) : ChaincodeStub :=
  { stub with args := args, transient := transient }

/-- A transient map with one entry. -/
def transientOf (key data : String) : String → Option String :=
  fun k => if k = key then some data else none

/-- The eight field constraints that `initGene` checks on a decoded input. -/
def validInput (x : geneTransientInput) : Prop :=
  0 < x.Id ∧ x.Name ≠ "" ∧ x.Population ≠ "" ∧ x.Gene ≠ "" ∧ 0 < x.Size ∧ 0 < x.Age ∧
    x.Varient ≠ "" ∧ 0 < x.Price

/-- The public document of a creation input. -/
def publicDoc (x : geneTransientInput) : gene :=
  { ObjectType := "gene", Id := x.Id, Name := x.Name, Population := x.Population,
    Gene := x.Gene, Size := x.Size }

/-- The restricted document of a creation input. -/
def restrictedDoc (x : geneTransientInput) : genePrivateDetails :=
  { ObjectType := "genePrivateDetails", Name := x.Name, Age := x.Age, Varient := x.Varient,
    Price := x.Price }

/-- The bytes of a `gene` as `json.Marshal` writes them. -/
def gene.encode (g : gene) : String :=
  json.encodeObject ((jsonKeys gene.tags).zip g.fields)

/-- The bytes of a `genePrivateDetails` as `json.Marshal` writes them. -/
def genePrivateDetails.encode (d : genePrivateDetails) : String :=
  json.encodeObject ((jsonKeys genePrivateDetails.tags).zip d.fields)

/-- A string without U+0000 and U+10FFFF: an attribute a composite key accepts. -/
def shim.validAttribute (s : String) : Prop := validateCompositeKeyAttribute s = none

/-- The composite key of an object type and two attributes. -/
def shim.compositeKey (objectType a b : String) : String :=
  String.singleton minUnicodeRuneValue ++ objectType ++ String.singleton minUnicodeRuneValue ++
    a ++ String.singleton minUnicodeRuneValue ++ b ++ String.singleton minUnicodeRuneValue

/-- The value of an index entry: the single byte 0x00. -/
def markerValue : String := String.singleton (Char.ofNat 0)

/-- The private data after a gene is created from an input: the public
document, the restricted document and the index entry. -/
def afterCreate (pvt : String → String → Option String) (x : geneTransientInput) :
    String → String → Option String :=
  ChaincodeStub.put
    (ChaincodeStub.put
      (ChaincodeStub.put pvt "collectionGenes" x.Name (publicDoc x).encode)
      "collectionGenesPrivateDetails" x.Name (restrictedDoc x).encode)
    "collectionGenes" (compositeKey "gene~name" x.Gene x.Name) markerValue

/-- The calls of a successful `initGene`, in order. -/
def createCalls (x : geneTransientInput) : List Call :=
  [Call.GetTransient,
   Call.GetPrivateData "collectionGenes" x.Name,
   Call.PutPrivateData "collectionGenes" x.Name (publicDoc x).encode,
   Call.PutPrivateData "collectionGenesPrivateDetails" x.Name (restrictedDoc x).encode,
   Call.CreateCompositeKey "gene~name" [x.Gene, x.Name],
   Call.PutPrivateData "collectionGenes" (compositeKey "gene~name" x.Gene x.Name) markerValue]

/-- Store a decoded value in the `i`-th field of a `genePrivateDetails`. -/
def genePrivateDetails.set (d : genePrivateDetails) (i : Nat) (v : json.Value) :
    Option genePrivateDetails :=
  match i with
  | 0 => (json.decodeString d.ObjectType v).map (fun s => { d with ObjectType := s })
  | 1 => (json.decodeString d.Name v).map (fun s => { d with Name := s })
  | 2 => (json.decodeInt d.Age v).map (fun n => { d with Age := n })
  | 3 => (json.decodeString d.Varient v).map (fun s => { d with Varient := s })
  | 4 => (json.decodeInt d.Price v).map (fun n => { d with Price := n })
  | _ => some d

/-- `json.Unmarshal(data, &d)` for a zero `genePrivateDetails` (what a reader of
the restricted document does with it). -/
def genePrivateDetails.Unmarshal (data : String) : Except String genePrivateDetails :=
  json.Unmarshal (jsonKeys genePrivateDetails.tags) genePrivateDetails.set ⟨"", "", 0, "", 0⟩ data

/-! ## The concrete scenario -/

/-- A ledger without private data, on which no call fails. -/
def emptyLedger : ChaincodeStub :=
  { args := [], transient := fun _ => none, pvt := fun _ _ => none,
    byRange := fun _ _ _ => [], byQuery := fun _ _ => [], fault := fun _ => none, trace := [] }

/-- The transient payload of the scenario. -/
def ronPayload : String :=
  "\x7b\"id\":11,\"name\":\"Ron\",\"population\":\"French\",\"gene\":\"ADRB2\",\"size\":5," ++
    "\"age\":40,\"varient\":\"APOB\",\"price\":99\x7d"

/-- The creation input of the scenario. -/
def ronInput : geneTransientInput :=
  { Id := 11, Name := "Ron", Population := "French", Gene := "ADRB2", Size := 5, Age := 40,
    Varient := "APOB", Price := 99 }

/-- The invocation of `initGene` of the scenario, on the empty ledger. -/
def ronStub : ChaincodeStub :=
  emptyLedger.next ["initGene"] (transientOf "gene" ronPayload)

/-- A payload whose name ends in U+0000, written as the escape `\u0000`. -/
def nulPayload : String :=
  "\x7b\"id\":11,\"name\":\"Ron\\u0000\",\"population\":\"French\",\"gene\":\"ADRB2\"," ++
    "\"size\":5,\"age\":40,\"varient\":\"APOB\",\"price\":99\x7d"

/-- The creation input that `nulPayload` decodes to. -/
def nulInput : geneTransientInput :=
  { Id := 11, Name := "Ron\x00", Population := "French", Gene := "ADRB2", Size := 5, Age := 40,
    Varient := "APOB", Price := 99 }

/-- A second payload for the name of the scenario, with other field values. -/
def ronAgainPayload : String :=
  "\x7b\"id\":12,\"name\":\"Ron\",\"population\":\"Dutch\",\"gene\":\"TP53\",\"size\":7," ++
    "\"age\":41,\"varient\":\"LDLR\",\"price\":120\x7d"

/-- The creation input that `ronAgainPayload` decodes to. -/
def ronAgainInput : geneTransientInput :=
  { Id := 12, Name := "Ron", Population := "Dutch", Gene := "TP53", Size := 7, Age := 41,
    Varient := "LDLR", Price := 120 }

/-- The ledger after the gene of the scenario is created. -/
def ronLedger : ChaincodeStub := (initGene ronStub []).2

/-- The transient payload of `delete` for the name of the scenario. -/
def ronDeletePayload : String := "\x7b\"name\":\"Ron\"\x7d"

/-- The invocation of `delete` for the gene of the scenario, once it is created. -/
def ronDeleteStub : ChaincodeStub :=
  ronLedger.next ["delete"] (transientOf "gene_delete" ronDeletePayload)

/-- The transient payload of `transferGene` that gives the gene of the scenario
the label TP53. -/
def ronTransferPayload : String := "\x7b\"gene\":\"TP53\",\"name\":\"Ron\"\x7d"

/-- The invocation of `transferGene` for the gene of the scenario, once it is created. -/
def ronTransferStub : ChaincodeStub :=
  ronLedger.next ["transferGene"] (transientOf "gene_name" ronTransferPayload)

/-! ## Invocations in sequence -/

/-- An invocation of `initGene` on a ledger, with the payload under the transient key. -/
def invokeInitGene (ledger : ChaincodeStub) (data : String) : pb.Response × ChaincodeStub :=
  initGene (ledger.next ["initGene"] (transientOf "gene" data)) []

/-- An invocation of `delete` on a ledger, with the payload under the transient key. -/
def invokeDelete (ledger : ChaincodeStub) (data : String) : pb.Response × ChaincodeStub :=
  delete (ledger.next ["delete"] (transientOf "gene_delete" data)) []

/-- An invocation of `transferGene` on a ledger, with the payload under the transient key. -/
def invokeTransferGene (ledger : ChaincodeStub) (data : String) : pb.Response × ChaincodeStub :=
  transferGene (ledger.next ["transferGene"] (transientOf "gene_name" data)) []

/-- An invocation of `readGene` on a ledger. -/
def invokeReadGene (ledger : ChaincodeStub) (name : String) : pb.Response × ChaincodeStub :=
  readGene (ledger.next ["readGene", name] (fun _ => none)) [name]

/-- An invocation of `readGenePrivateDetails` on a ledger. -/
def invokeReadGenePrivateDetails (ledger : ChaincodeStub) (name : String) :
    pb.Response × ChaincodeStub :=
  readGenePrivateDetails (ledger.next ["readGenePrivateDetails", name] (fun _ => none)) [name]

/-- A payload for the name of the scenario whose gene label ends in U+0000. -/
def ronNulGenePayload : String :=
  "\x7b\"id\":12,\"name\":\"Ron\",\"population\":\"Dutch\",\"gene\":\"TP53\\u0000\"," ++
    "\"size\":7,\"age\":41,\"varient\":\"LDLR\",\"price\":120\x7d"

/-- The creation input that `ronNulGenePayload` decodes to. -/
def ronNulGeneInput : geneTransientInput :=
  { Id := 12, Name := "Ron", Population := "Dutch", Gene := "TP53\x00", Size := 7, Age := 41,
    Varient := "LDLR", Price := 120 }

/-! ## The query responses -/

/-- One array member as the two loops write it to the buffer, piece by piece. -/
def arrayMember (kv : queryresult.KV) : String :=
  "\x7b\"Key\":" ++ "\"" ++ kv.Key ++ "\"" ++ ", \"Record\":" ++ kv.Value ++ "\x7d"

/-- The array of the results of a drained cursor, as the loops build it. -/
def resultArray (kvs : List queryresult.KV) : String :=
  "[" ++ String.intercalate "," (kvs.map arrayMember) ++ "]"

/-- One array member in the literal text of the specification:
`{"Key":"<key>","Record":<raw-record-json>}`. -/
def specMember (kv : queryresult.KV) : String :=
  "\x7b\"Key\":\"" ++ kv.Key ++ "\",\"Record\":" ++ kv.Value ++ "\x7d"

/-- The response array in the literal text of the specification. -/
def specArray (kvs : List queryresult.KV) : String :=
  "[" ++ String.intercalate "," (kvs.map specMember) ++ "]"

/-- The calls on the iterator while `n` results are read: `HasNext` and `Next` for each. -/
def readCalls : Nat → List Call
  | 0 => []
  | n + 1 => Call.HasNext :: Call.Next :: readCalls n

/-- A cursor that delivers the given results, none failing. -/
def cursorOf (kvs : List queryresult.KV) : List (Except String queryresult.KV) :=
  kvs.map Except.ok

/-- A cursor that delivers the given results and then fails in `Next`. -/
def failingCursor (kvs : List queryresult.KV) (err : String)
    (rest : List (Except String queryresult.KV)) : List (Except String queryresult.KV) :=
  kvs.map Except.ok ++ Except.error err :: rest

/-- The results of the query scenario: two genes as the ledger would deliver them. -/
def twoResults : List queryresult.KV :=
  [{ Key := "Ron", Value := "\x7b\"id\":11\x7d" }, { Key := "Sam", Value := "\x7b\"id\":12\x7d" }]

/-- A ledger whose range scans and rich queries deliver `twoResults`. -/
def queryStub : ChaincodeStub :=
  { emptyLedger with byRange := fun _ _ _ => cursorOf twoResults,
                     byQuery := fun _ _ => cursorOf twoResults }

/-- A result of the query scenario. -/
def oneResult : queryresult.KV := { Key := "Ron", Value := "\x7b\"id\":11\x7d" }

/-- A ledger whose range scans and rich queries deliver `oneResult` alone. -/
def oneResultStub : ChaincodeStub :=
  { emptyLedger with byRange := fun _ _ _ => cursorOf [oneResult],
                     byQuery := fun _ _ => cursorOf [oneResult] }

/-- A ledger whose cursors deliver `oneResult` and then fail in `Next`. -/
def failingQueryStub : ChaincodeStub :=
  { emptyLedger with byRange := fun _ _ _ => failingCursor [oneResult] "cursor lost" [],
                     byQuery := fun _ _ => failingCursor [oneResult] "cursor lost" [] }

/-- The names that `Invoke` routes to a handler. -/
def registeredFunctions : List String :=
  ["initGene", "readGene", "readGenePrivateDetails", "transferGene", "delete",
   "queryLongetivityMapByGene", "queryAgeingDrugs", "getGenesByRange"]

/-- The query string that `queryAgeingDrugs` builds for an owner. -/
def ownerQuery (owner : String) : String :=
  "\x7b\"selector\":\x7b\"docType\":\"gene\",\"owner\":\"" ++ owner ++ "\"\x7d\x7d"

/-- The invocation of `initGene` of the scenario on a ledger whose sixth call
(the write of the index entry) fails. -/
def ronFaultyStub : ChaincodeStub :=
  { ronStub with fault := fun n => if n = 5 then some "put failed" else none }

/-! ## Ledgers reached by creating, transferring and deleting -/

/-- An invocation of `initGene` that fails on validation or because the name is
taken: arguments were passed, the transient map has nothing under "gene", the
payload is empty or does not decode, a field constraint is violated, or
collectionGenes already has a value under the name. -/
def createRefused (ledger : ChaincodeStub) (args : List String) (t : String → Option String) :
    Prop :=
  args ≠ [] ∨ t "gene" = none ∨ ∃ data, t "gene" = some data ∧
    (data = "" ∨ (∃ e, geneTransientInput.Unmarshal data = Except.error e) ∨
      ∃ x, geneTransientInput.Unmarshal data = Except.ok x ∧
        (¬ validInput x ∨ ∃ v, ledger.pvt "collectionGenes" x.Name = some v))

/-- An invocation of `transferGene` that fails on validation or because nothing
is stored under the name: arguments were passed, the transient map has nothing
under "gene_name", the payload is empty or does not decode, the gene label or
the name is empty, or collectionGenes has no value under the name. -/
def transferRefused (ledger : ChaincodeStub) (args : List String) (t : String → Option String) :
    Prop :=
  args ≠ [] ∨ t "gene_name" = none ∨ ∃ data, t "gene_name" = some data ∧
    (data = "" ∨ (∃ e, geneTransferTransientInput.Unmarshal data = Except.error e) ∨
      ∃ g n, geneTransferTransientInput.Unmarshal data = Except.ok ⟨g, n⟩ ∧
        (g = "" ∨ n = "" ∨ ledger.pvt "collectionGenes" n = none))

/-- An invocation of `delete` that fails on validation or because nothing is
stored under the name: arguments were passed, the transient map has nothing
under "gene_delete", the payload is empty or does not decode, the name is
empty, or collectionGenes has no value under the name. -/
def deleteRefused (ledger : ChaincodeStub) (args : List String) (t : String → Option String) :
    Prop :=
  args ≠ [] ∨ t "gene_delete" = none ∨ ∃ data, t "gene_delete" = some data ∧
    (data = "" ∨ (∃ e, geneDeleteTransientInput.Unmarshal data = Except.error e) ∨
      ∃ n, geneDeleteTransientInput.Unmarshal data = Except.ok ⟨n⟩ ∧
        (n = "" ∨ ledger.pvt "collectionGenes" n = none))

/-- The ledgers reached from one without private data (on which no call fails
for a reason outside the chaincode) by invocations of `initGene`,
`transferGene` and `delete`, each with any arguments and transient map, that
answer with success or fail on validation, on a missing gene or on a name that
is taken. -/
inductive Reachable : ChaincodeStub → Prop
  | empty (s : ChaincodeStub) : (∀ c k, s.pvt c k = none) → s.noFault → Reachable s
  | byCreate (s : ChaincodeStub) (args : List String) (t : String → Option String) :
      Reachable s →
      ((initGene (s.next ("initGene" :: args) t) args).1 = shim.Success none ∨
        createRefused s args t) →
      Reachable (initGene (s.next ("initGene" :: args) t) args).2
  | byTransfer (s : ChaincodeStub) (args : List String) (t : String → Option String) :
      Reachable s →
      ((transferGene (s.next ("transferGene" :: args) t) args).1 = shim.Success none ∨
        transferRefused s args t) →
      Reachable (transferGene (s.next ("transferGene" :: args) t) args).2
  | byDelete (s : ChaincodeStub) (args : List String) (t : String → Option String) :
      Reachable s →
      ((delete (s.next ("delete" :: args) t) args).1 = shim.Success none ∨
        deleteRefused s args t) →
      Reachable (delete (s.next ("delete" :: args) t) args).2

/-- A public document is stored under a name: collectionGenes has under it
bytes that decode as a `gene`. -/
def holdsRecord (s : ChaincodeStub) (n : String) : Prop :=
  ∃ v g, s.pvt "collectionGenes" n = some v ∧ gene.Unmarshal v = Except.ok g

/-- A restricted document of that name is stored under a name:
collectionGenesPrivateDetails has under it bytes that decode as a
`genePrivateDetails` whose name is the key. -/
def holdsDetail (s : ChaincodeStub) (n : String) : Prop :=
  ∃ v d, s.pvt "collectionGenesPrivateDetails" n = some v ∧
    genePrivateDetails.Unmarshal v = Except.ok d ∧ d.Name = n

/-- An entry of collectionGenes that is the public document of its key. -/
def recordEntry (k v : String) : Prop :=
  ∃ g : gene, v = g.encode ∧ g.Name = k ∧ int64 g.Id ∧ int64 g.Size ∧ shim.validAttribute k ∧
    k ≠ ""

/-- An entry of collectionGenes that is an index entry of "gene~name". -/
def markerEntry (k v : String) : Prop :=
  v = markerValue ∧ ∃ a b, k = shim.compositeKey "gene~name" a b

/-- An entry of collectionGenesPrivateDetails that is the restricted document of its key. -/
def detailEntry (k v : String) : Prop :=
  ∃ d : genePrivateDetails, v = d.encode ∧ d.Name = k ∧ int64 d.Age ∧ int64 d.Price

/-- Private data in which every entry of collectionGenes is a public document
or an index entry, every entry of collectionGenesPrivateDetails a restricted
document, and the keys of the public documents are those of the restricted
documents. -/
def paired (pvt : String → String → Option String) : Prop :=
  (∀ k v, pvt "collectionGenes" k = some v → recordEntry k v ∨ markerEntry k v) ∧
  (∀ k v, pvt "collectionGenesPrivateDetails" k = some v → detailEntry k v) ∧
  (∀ k, (∃ v, pvt "collectionGenes" k = some v ∧ recordEntry k v) ↔
    ∃ v, pvt "collectionGenesPrivateDetails" k = some v)

/-! ## `encoding/json`: decoding what was encoded -/

open shim json strconv

theorem hexVal_digitChar (d : Nat) (h : d < 16) : hexVal (Nat.digitChar d) = some d := by
  interval_cases d <;> decide

theorem getu4_hex4 (n : Nat) (h : n < 65536) :
    getu4 (Nat.digitChar (n / 4096 % 16)) (Nat.digitChar (n / 256 % 16))
      (Nat.digitChar (n / 16 % 16)) (Nat.digitChar (n % 16)) = some n := by
  unfold getu4
  rw [hexVal_digitChar _ (Nat.mod_lt _ (by norm_num)), hexVal_digitChar _ (Nat.mod_lt _ (by norm_num)),
    hexVal_digitChar _ (Nat.mod_lt _ (by norm_num)), hexVal_digitChar _ (Nat.mod_lt _ (by norm_num))]
  simp only [Option.some.injEq]
  omega

theorem scanString_step (c : Char) (f : Nat) (tail : List Char) :
    scanString (f + 1) (escapeChar c ++ tail) = consChar c (scanString f tail) := by
  unfold escapeChar
  split_ifs with h1 h2 h3 h4 h5 h6
  · subst h1; simp [scanString, unescape]
  · subst h2; simp [scanString, unescape]
  · subst h3; simp [scanString, unescape]
  · subst h4; simp [scanString, unescape]
  · subst h5; simp [scanString, unescape]
  · have hn : c.toNat < 65536 := by
      rcases h6 with h | h | h | h | h | h
      · omega
      · subst h; decide
      · subst h; decide
      · subst h; decide
      · omega
      · omega
    have hs : isSurrogate c.toNat = false := by
      rcases h6 with h | h | h | h | h | h
      · simp [isSurrogate]; omega
      · subst h; decide
      · subst h; decide
      · subst h; decide
      · simp [isSurrogate]; omega
      · simp [isSurrogate]; omega
    simp [scanString, hex4, getu4_hex4 _ hn, hs]
  · have h7 : ¬ c.toNat < 32 := fun h => h6 (Or.inl h)
    simp [scanString, h1, h2, h7]

theorem length_escapeChar_pos (c : Char) : 1 ≤ (escapeChar c).length := by
  unfold escapeChar
  split_ifs <;> simp [hex4]

theorem scanString_escape (s : List Char) : ∀ (rest : List Char) (fuel : Nat),
    (s.flatMap escapeChar).length + 1 ≤ fuel →
    scanString fuel (s.flatMap escapeChar ++ '"' :: rest) = some (s, rest) := by
  induction s with
  | nil =>
    intro rest fuel h
    obtain ⟨f, rfl⟩ : ∃ f, fuel = f + 1 := ⟨fuel - 1, by simp at h; omega⟩
    simp [scanString]
  | cons c s ih =>
    intro rest fuel h
    obtain ⟨f, rfl⟩ : ∃ f, fuel = f + 1 := ⟨fuel - 1, by omega⟩
    have hc := length_escapeChar_pos c
    simp only [List.flatMap_cons, List.length_append, List.append_assoc] at h ⊢
    rw [scanString_step, ih rest f (by omega)]
    rfl

theorem digitChar_spec (d : Nat) (h : d < 10) :
    (Nat.digitChar d).isDigit = true ∧ (Nat.digitChar d).toNat - 48 = d ∧
      (d ≠ 0 → Nat.digitChar d ≠ '0') := by
  interval_cases d <;> decide

theorem parseUint_append (xs ys : List Char) : ∀ acc : Nat,
    parseUint acc (xs ++ ys) = (parseUint acc xs).bind (fun a => parseUint a ys) := by
  induction xs with
  | nil => intro acc; simp [parseUint]
  | cons c xs ih =>
    intro acc
    simp only [List.cons_append, parseUint]
    split_ifs
    · exact ih _
    · rfl

theorem parseUint_natDigits : ∀ (fuel n : Nat), n < fuel →
    parseUint 0 (natDigits fuel n) = some n := by
  intro fuel
  induction fuel with
  | zero => intro n h; omega
  | succ f ih =>
    intro n h
    unfold natDigits
    split_ifs with h10
    · obtain ⟨h1, h2, -⟩ := digitChar_spec n h10
      simp [parseUint, h1, h2]
    · obtain ⟨h1, h2, -⟩ := digitChar_spec (n % 10) (Nat.mod_lt _ (by norm_num))
      rw [parseUint_append, ih (n / 10) (by omega)]
      simp [parseUint, h1, h2]
      omega

theorem natDigits_isDigit : ∀ (fuel n : Nat), ∀ c ∈ natDigits fuel n, c.isDigit = true := by
  intro fuel
  induction fuel with
  | zero => intro n c h; simp [natDigits] at h
  | succ f ih =>
    intro n c h
    unfold natDigits at h
    split_ifs at h with h10
    · simp at h; subst h; exact (digitChar_spec n h10).1
    · simp at h
      rcases h with h | h
      · exact ih _ c h
      · subst h; exact (digitChar_spec _ (Nat.mod_lt _ (by norm_num))).1

/-- Shape of the digits of a number: a first digit that is zero only for 0. -/
theorem natDigits_head : ∀ (fuel n : Nat), n < fuel →
    ∃ d tl, natDigits fuel n = d :: tl ∧ (n = 0 → tl = []) ∧ (n ≠ 0 → d ≠ '0') := by
  intro fuel
  induction fuel with
  | zero => intro n h; omega
  | succ f ih =>
    intro n h
    unfold natDigits
    split_ifs with h10
    · exact ⟨_, [], rfl, fun _ => rfl, (digitChar_spec n h10).2.2⟩
    · obtain ⟨d, tl, e, -, h2⟩ := ih (n / 10) (by omega)
      refine ⟨d, tl ++ [Nat.digitChar (n % 10)], by simp [e], fun h0 => by omega, fun _ => ?_⟩
      exact h2 (by omega)

theorem spanDigits_append (ds : List Char) (c : Char) (r : List Char)
    (hds : ∀ x ∈ ds, x.isDigit = true) (hc : c.isDigit = false) :
    spanDigits (ds ++ c :: r) = (ds, c :: r) := by
  induction ds with
  | nil => simp [spanDigits, hc]
  | cons d ds ih =>
    have hd : d.isDigit = true := hds d (by simp)
    have := ih (fun x hx => hds x (by simp [hx]))
    simp only [spanDigits, Prod.mk.injEq] at this ⊢
    simp [hd, this.1, this.2]

theorem scanIntPart_natDigits (fuel n : Nat) (h : n < fuel) (c : Char) (r : List Char)
    (hc : c = ',' ∨ c = '}') :
    scanIntPart (natDigits fuel n ++ c :: r) = some (natDigits fuel n, c :: r) := by
  have hcd : c.isDigit = false := by rcases hc with rfl | rfl <;> decide
  by_cases hn : n = 0
  · subst hn
    obtain ⟨f, rfl⟩ : ∃ f, fuel = f + 1 := ⟨fuel - 1, by omega⟩
    have h0 : Nat.digitChar 0 = '0' := rfl
    simp [natDigits, scanIntPart, h0]
  · obtain ⟨d, tl, e, h0, h1⟩ := natDigits_head fuel n h
    have hall := natDigits_isDigit fuel n
    rw [e] at hall ⊢
    have := spanDigits_append tl c r (fun x hx => hall x (by simp [hx])) hcd
    simp [scanIntPart, h1 hn, hall d (by simp), this]

theorem scanNumber_Itoa (i : Int) (c : Char) (r : List Char) (hc : c = ',' ∨ c = '}') :
    scanNumber (Itoa i ++ c :: r) = some (Itoa i, c :: r) := by
  have hfrac : scanFrac (c :: r) = some ([], c :: r) := by
    rcases hc with rfl | rfl <;> simp [scanFrac]
  have hexp : scanExp (c :: r) = some ([], c :: r) := by
    rcases hc with rfl | rfl <;> simp [scanExp]
  have hint := scanIntPart_natDigits (i.natAbs + 1) i.natAbs (by omega) c r hc
  unfold Itoa
  split_ifs with hneg
  · simp [scanNumber, hint, hfrac, hexp]
  · obtain ⟨d, tl, e, -, -⟩ := natDigits_head (i.natAbs + 1) i.natAbs (by omega)
    have hd : d.isDigit = true := natDigits_isDigit (i.natAbs + 1) i.natAbs d (by rw [e]; simp)
    have hm : d ≠ '-' := by rintro rfl; exact absurd hd (by decide)
    rw [e] at hint ⊢
    unfold scanNumber
    split
    rename_i heq
    split at heq
    · rename_i heq2; simp at heq2; exact absurd heq2.1 hm
    · simp only [Prod.mk.injEq] at heq
      obtain ⟨rfl, rfl⟩ := heq
      rw [List.cons_append] at hint
      simp [hint, hfrac, hexp]

theorem ParseInt_Itoa (i : Int) (h : int64 i) : ParseInt (Itoa i) = some i := by
  have hp := parseUint_natDigits (i.natAbs + 1) i.natAbs (by omega)
  obtain ⟨d, tl, e, -, -⟩ := natDigits_head (i.natAbs + 1) i.natAbs (by omega)
  have hd : d.isDigit = true := natDigits_isDigit (i.natAbs + 1) i.natAbs d (by rw [e]; simp)
  unfold int64 at h
  unfold Itoa
  split_ifs with hneg
  · rw [e] at hp ⊢
    have : i.natAbs ≤ 2 ^ 63 := by omega
    have hcast : (i.natAbs : Int) = -i := by omega
    simp only [ParseInt, List.isEmpty_cons, hp, this, hcast]
    simp
  · have hm : d ≠ '-' := by rintro rfl; exact absurd hd (by decide)
    have hq : d ≠ '+' := by rintro rfl; exact absurd hd (by decide)
    rw [e] at hp ⊢
    have : i.natAbs < 2 ^ 63 := by omega
    have hcast : (i.natAbs : Int) = i := by omega
    unfold ParseInt
    split
    · simp at *
    · rename_i heq; simp at heq; exact absurd heq.1 hm
    · rename_i heq; simp at heq; exact absurd heq.1 hq
    · simp [hp, hcast]; omega

theorem Itoa_head (i : Int) : ∃ d tl, Itoa i = d :: tl ∧ (d = '-' ∨ d.isDigit = true) := by
  unfold Itoa
  split_ifs
  · exact ⟨_, _, rfl, Or.inl rfl⟩
  · obtain ⟨d, tl, e, -, -⟩ := natDigits_head (i.natAbs + 1) i.natAbs (by omega)
    exact ⟨d, tl, e, Or.inr (natDigits_isDigit (i.natAbs + 1) i.natAbs d (by rw [e]; simp))⟩

theorem parseValue_string (f : Nat) (r : List Char) :
    parseValue (f + 1) ('"' :: r) =
      (scanString r.length r).map (fun p => (Value.string p.1, p.2)) := by
  rcases h : scanString r.length r with _ | ⟨s, r2⟩ <;>
    simp [parseValue, skipSpace, isSpace, h]

theorem parseValue_field (v : Field) (f : Nat) (c : Char) (r : List Char)
    (hc : c = ',' ∨ c = '}') :
    parseValue (f + 1) (encodeField v ++ c :: r) = some (fieldValue v, c :: r) := by
  cases v with
  | str s =>
    have e : quote s.data ++ c :: r = '"' :: (s.data.flatMap escapeChar ++ '"' :: c :: r) := by
      simp [quote]
    simp only [encodeField, fieldValue]
    rw [e, parseValue_string, scanString_escape s.data (c :: r) _ (by simp)]
    rfl
  | int i =>
    obtain ⟨d, tl, e, hd⟩ := Itoa_head i
    have hnum := scanNumber_Itoa i c r hc
    simp only [encodeField, fieldValue]
    rw [e] at hnum ⊢
    have hsp : isSpace d = false := by
      rcases hd with rfl | hd
      · decide
      · cases hcon : isSpace d
        · rfl
        · unfold isSpace at hcon
          simp only [Bool.or_eq_true, beq_iff_eq] at hcon
          rcases hcon with ((rfl | rfl) | rfl) | rfl <;> exact absurd hd (by decide)
    have hne : d ≠ '{' ∧ d ≠ '[' ∧ d ≠ '"' ∧ d ≠ 't' ∧ d ≠ 'f' ∧ d ≠ 'n' := by
      refine ⟨?_, ?_, ?_, ?_, ?_, ?_⟩ <;> rintro rfl <;>
        rcases hd with hd | hd <;> exact absurd hd (by decide)
    obtain ⟨n1, n2, n3, n4, n5, n6⟩ := hne
    rw [List.cons_append] at hnum
    simp [parseValue, skipSpace, hsp, n1, n2, n3, n4, n5, n6, hnum]


theorem parseMembers_step (k : String) (v : Field) (f : Nat) (c : Char) (rest : List Char)
    (hc : c = ',' ∨ c = '}') :
    parseMembers (f + 2) (quote k.data ++ ':' :: (encodeField v ++ c :: rest)) =
      if c = ',' then
        (parseMembers (f + 1) rest).map (fun p => ((k.data, fieldValue v) :: p.1, p.2))
      else some ([(k.data, fieldValue v)], rest) := by
  have e : quote k.data ++ ':' :: (encodeField v ++ c :: rest) =
      '"' :: (k.data.flatMap escapeChar ++ '"' :: ':' :: (encodeField v ++ c :: rest)) := by
    simp [quote]
  rw [e, parseMembers]
  have hq : skipSpace ('"' :: (k.data.flatMap escapeChar ++ '"' :: ':' :: (encodeField v ++ c :: rest)))
      = '"' :: (k.data.flatMap escapeChar ++ '"' :: ':' :: (encodeField v ++ c :: rest)) := by
    simp [skipSpace, isSpace]
  have hcol : skipSpace (':' :: (encodeField v ++ c :: rest)) = ':' :: (encodeField v ++ c :: rest) := by
    simp [skipSpace, isSpace]
  rw [hq]
  simp only []
  rw [scanString_escape k.data _ _ (by simp)]
  simp only [hcol]
  rw [parseValue_field v f c rest hc]
  rcases hc with rfl | rfl
  · rcases h : parseMembers (f + 1) rest with _ | ⟨ms, r5⟩ <;> simp [skipSpace, isSpace, h]
  · simp [skipSpace, isSpace]

theorem parseMembers_encode (fields : List (String × Field)) (hne : fields ≠ []) :
    ∀ (fuel : Nat) (rest : List Char), fields.length + 1 ≤ fuel →
      parseMembers fuel (encodeMembers fields ++ '}' :: rest) =
        some (fields.map (fun kv => (kv.1.data, fieldValue kv.2)), rest) := by
  induction fields with
  | nil => exact absurd rfl hne
  | cons kv tl ih =>
    intro fuel rest hfuel
    obtain ⟨k, v⟩ := kv
    obtain ⟨f, rfl⟩ : ∃ f, fuel = f + 2 := ⟨fuel - 2, by simp at hfuel; omega⟩
    cases tl with
    | nil =>
      have e : encodeMembers [(k, v)] ++ '}' :: rest =
          quote k.data ++ ':' :: (encodeField v ++ '}' :: rest) := by
        simp [encodeMembers]
      rw [e, parseMembers_step k v f '}' rest (Or.inr rfl)]
      simp
    | cons kv2 tl2 =>
      have e : encodeMembers ((k, v) :: kv2 :: tl2) ++ '}' :: rest =
          quote k.data ++ ':' :: (encodeField v ++ ',' :: (encodeMembers (kv2 :: tl2) ++ '}' :: rest)) := by
        simp [encodeMembers]
      rw [e, parseMembers_step k v f ',' _ (Or.inl rfl),
        ih (by simp) (f + 1) rest (by simp at hfuel ⊢; omega)]
      simp

theorem encodeMembers_head (fields : List (String × Field)) (hne : fields ≠ []) :
    ∃ tl, encodeMembers fields = '"' :: tl := by
  match fields, hne with
  | [(k, v)], _ => exact ⟨_, rfl⟩
  | (k, v) :: kv2 :: tl2, _ => exact ⟨_, rfl⟩

theorem length_le_encodeMembers : ∀ fields : List (String × Field),
    fields.length ≤ (encodeMembers fields).length
  | [] => by simp
  | [(k, v)] => by simp [encodeMembers, quote]
  | (k, v) :: kv2 :: tl2 => by
    have := length_le_encodeMembers (kv2 :: tl2)
    simp [encodeMembers, quote] at this ⊢
    omega

/-- Scanning an encoded object gives back its keys and values. -/
theorem parse_encodeObject (fields : List (String × Field)) (hne : fields ≠ []) :
    parse (encodeObject fields) =
      some (Value.object (fields.map (fun kv => (kv.1.data, fieldValue kv.2)))) := by
  obtain ⟨tl, htl⟩ := encodeMembers_head fields hne
  have hlen := length_le_encodeMembers fields
  have hm := parseMembers_encode fields hne ((encodeMembers fields ++ ['}']).length + 1) [] (by simp; omega)
  unfold parse encodeObject
  simp only [String.length, parseValue]
  rw [htl] at hm ⊢
  simp [skipSpace, isSpace] at hm ⊢
  rw [hm]
  simp [skipSpace]


theorem gene_keys : jsonKeys gene.tags = ["docType", "id", "Name", "population", "gene", "size"] := by
  decide

theorem details_keys :
    jsonKeys genePrivateDetails.tags = ["docType", "name", "age", "varient", "price"] := by
  decide

theorem gene_findField :
    findField ["docType", "id", "Name", "population", "gene", "size"] "docType".data = some 0 ∧
    findField ["docType", "id", "Name", "population", "gene", "size"] "id".data = some 1 ∧
    findField ["docType", "id", "Name", "population", "gene", "size"] "Name".data = some 2 ∧
    findField ["docType", "id", "Name", "population", "gene", "size"] "population".data = some 3 ∧
    findField ["docType", "id", "Name", "population", "gene", "size"] "gene".data = some 4 ∧
    findField ["docType", "id", "Name", "population", "gene", "size"] "size".data = some 5 := by
  decide

/-- Decoding the encoding of a `gene` gives the `gene` back. -/
theorem gene_Unmarshal_encode (g : gene) (h1 : int64 g.Id) (h2 : int64 g.Size) :
    gene.Unmarshal (encodeObject ((jsonKeys gene.tags).zip g.fields)) = Except.ok g := by
  obtain ⟨f0, f1, f2, f3, f4, f5⟩ := gene_findField
  unfold gene.Unmarshal json.Unmarshal
  simp only [gene_keys, gene.fields, List.zip_cons_cons, List.zip_nil_right]
  rw [parse_encodeObject _ (by simp)]
  simp only [gene_keys, gene.fields, List.zip_cons_cons, List.map_cons, List.map_nil,
    List.zip_nil_right, decodeMembers, f0, f1, f2, f3, f4, f5, gene.set, fieldValue,
    decodeString, decodeInt, ParseInt_Itoa _ h1, ParseInt_Itoa _ h2, Option.map_some']


theorem ParseInt_range (s : List Char) (n : Int) (h : ParseInt s = some n) : int64 n := by
  unfold ParseInt at h
  unfold int64
  split at h
  · simp at h
  · split_ifs at h
    split at h
    · split_ifs at h with hb
      simp at h; omega
    · simp at h
  · split_ifs at h
    split at h
    · split_ifs at h with hb
      simp at h; omega
    · simp at h
  · split at h
    · split_ifs at h with hb
      simp at h; omega
    · simp at h

theorem decodeInt_range (cur : Int) (v : Value) (n : Int) (hc : int64 cur)
    (h : decodeInt cur v = some n) : int64 n := by
  cases v <;> simp [decodeInt] at h
  · subst h; exact hc
  · exact ParseInt_range _ _ h

theorem decodeMembers_inv {α : Type} (P : α → Prop) (names : List String)
    (set : α → Nat → Value → Option α)
    (hstep : ∀ x i v y, P x → set x i v = some y → P y) :
    ∀ (ms : List (List Char × Value)) (x y : α), P x → decodeMembers names set x ms = some y → P y := by
  intro ms
  induction ms with
  | nil => intro x y hx h; simp [decodeMembers] at h; subst h; exact hx
  | cons kv ms ih =>
    intro x y hx h
    obtain ⟨k, v⟩ := kv
    simp only [decodeMembers] at h
    split at h
    · exact ih x y hx h
    · split at h
      · rename_i z hz
        exact ih z y (hstep x _ v z hx hz) h
      · simp at h

/-- Every `int` field of a decoded creation input is in the 64-bit range. -/
theorem geneTransientInput_range (data : String) (x : geneTransientInput)
    (h : geneTransientInput.Unmarshal data = Except.ok x) :
    int64 x.Id ∧ int64 x.Size ∧ int64 x.Age ∧ int64 x.Price := by
  have hz : int64 0 := by unfold int64; omega
  unfold geneTransientInput.Unmarshal json.Unmarshal at h
  split at h
  · simp at h
  · split at h
    · rename_i ms _ _ y hy
      simp only [Except.ok.injEq] at h
      subst h
      refine decodeMembers_inv (fun x : geneTransientInput =>
        int64 x.Id ∧ int64 x.Size ∧ int64 x.Age ∧ int64 x.Price) _ _ ?_ _ _ y ⟨hz, hz, hz, hz⟩ hy
      intro x i v y hx hset
      obtain ⟨a, b, c, d⟩ := hx
      unfold geneTransientInput.set at hset
      split at hset <;> try simp only [Option.map_eq_some'] at hset
      all_goals
        obtain ⟨n, hn, rfl⟩ := hset
        first
          | exact ⟨decodeInt_range _ _ _ a hn, b, c, d⟩
          | exact ⟨a, decodeInt_range _ _ _ b hn, c, d⟩
          | exact ⟨a, b, decodeInt_range _ _ _ c hn, d⟩
          | exact ⟨a, b, c, decodeInt_range _ _ _ d hn⟩
          | exact ⟨a, b, c, d⟩
    · simp at h
  · simp only [Except.ok.injEq] at h
    subst h
    exact ⟨hz, hz, hz, hz⟩
  · simp at h

/-! ## The stub and the handlers when no call fails -/

open shim json strconv ChaincodeStub

theorem len_eq_zero_iff (s : String) : len s = 0 ↔ s = "" := by
  obtain ⟨l⟩ := s
  cases l with
  | nil => simp [len, String.utf8ByteSize, String.utf8ByteSize.go]
  | cons c cs =>
    have := Char.utf8Size_pos c
    simp [len, String.utf8ByteSize, String.utf8ByteSize.go]
    constructor
    · intro h; omega
    · intro h; exact absurd (congrArg String.data h) (by simp)


theorem noFault_log_iff (stub : ChaincodeStub) (c : Call) : (stub.log c).noFault ↔ stub.noFault :=
  Iff.rfl

theorem noFault_mk_iff (a : List String) (t : String → Option String)
    (p : String → String → Option String)
    (r : String → String → String → List (Except String queryresult.KV))
    (q : String → String → List (Except String queryresult.KV)) (f : Nat → Option String)
    (tr : List Call) :
    (ChaincodeStub.mk a t p r q f tr).noFault ↔ ∀ n, f n = none :=
  Iff.rfl

theorem noFault_next_iff (stub : ChaincodeStub) (args : List String)
    (t : String → Option String) : (stub.next args t).noFault ↔ stub.noFault :=
  Iff.rfl

theorem GetTransient_ok {stub : ChaincodeStub} (h : stub.noFault) :
    stub.GetTransient = (Except.ok stub.transient, stub.log Call.GetTransient) := by
  simp [GetTransient, h stub.trace.length]

theorem GetPrivateData_ok {stub : ChaincodeStub} (h : stub.noFault) (collection key : String)
    (hc : collection ≠ "") :
    stub.GetPrivateData collection key =
      (Except.ok (stub.pvt collection key), stub.log (Call.GetPrivateData collection key)) := by
  simp [GetPrivateData, h stub.trace.length, hc]

theorem PutPrivateData_ok {stub : ChaincodeStub} (h : stub.noFault) (collection key value : String)
    (hc : collection ≠ "") (hk : key ≠ "") :
    stub.PutPrivateData collection key value =
      (none, { stub.log (Call.PutPrivateData collection key value) with
        pvt := put stub.pvt collection key value }) := by
  simp [PutPrivateData, h stub.trace.length, hc, hk]

theorem DelPrivateData_ok {stub : ChaincodeStub} (h : stub.noFault) (collection key : String)
    (hc : collection ≠ "") :
    stub.DelPrivateData collection key =
      (none, { stub.log (Call.DelPrivateData collection key) with
        pvt := del stub.pvt collection key }) := by
  simp [DelPrivateData, h stub.trace.length, hc]

theorem CreateCompositeKey_ok {stub : ChaincodeStub} (h : stub.noFault) (objectType : String)
    (attributes : List String) :
    stub.CreateCompositeKey objectType attributes =
      (createCompositeKey objectType attributes,
        stub.log (Call.CreateCompositeKey objectType attributes)) := by
  simp [CreateCompositeKey, h stub.trace.length]


theorem createCompositeKey_two (objectType a b : String) (h0 : validAttribute objectType)
    (ha : validAttribute a) (hb : validAttribute b) :
    createCompositeKey objectType [a, b] = Except.ok (compositeKey objectType a b) := by
  unfold validAttribute at h0 ha hb
  simp [createCompositeKey, appendAttributes, h0, ha, hb, compositeKey]

theorem createCompositeKey_ok_iff (objectType a b k : String) (h0 : validAttribute objectType) :
    createCompositeKey objectType [a, b] = Except.ok k ↔
      validAttribute a ∧ validAttribute b ∧ k = compositeKey objectType a b := by
  unfold validAttribute at *
  simp only [createCompositeKey, appendAttributes, h0, compositeKey]
  constructor
  · intro h
    split at h
    · simp at h
    · split at h
      · simp at h
      · simp at h; simp_all
  · rintro ⟨ha, hb, rfl⟩
    simp [ha, hb]

theorem compositeKey_length (objectType a b : String) :
    (compositeKey objectType a b).length = objectType.length + a.length + b.length + 4 := by
  simp [compositeKey, String.length_append, String.singleton]
  omega

theorem compositeKey_ne_attr (objectType a b : String) : compositeKey objectType a b ≠ b := by
  intro h
  have := congrArg String.length h
  rw [compositeKey_length] at this
  omega

theorem compositeKey_ne_empty (objectType a b : String) : compositeKey objectType a b ≠ "" := by
  intro h
  have := congrArg String.length h
  rw [compositeKey_length] at this
  simp at this
theorem validAttribute_geneName : validAttribute "gene~name" := by
  unfold validAttribute; decide

theorem geneTransientInput_Unmarshal_empty :
    geneTransientInput.Unmarshal "" = Except.error "invalid JSON input" := by rfl

theorem initGene_ok (stub : ChaincodeStub) (data : String) (x : geneTransientInput)
    (hf : stub.noFault) (ht : stub.transient "gene" = some data)
    (hd : geneTransientInput.Unmarshal data = Except.ok x) (hv : validInput x)
    (hg : validAttribute x.Gene) (hn : validAttribute x.Name)
    (hfree : stub.pvt "collectionGenes" x.Name = none) :
    initGene stub [] =
      (shim.Success none,
        { stub with pvt := afterCreate stub.pvt x, trace := stub.trace ++ createCalls x }) := by
  obtain ⟨v1, v2, v3, v4, v5, v6, v7, v8⟩ := hv
  have hdata : data ≠ "" := by
    rintro rfl
    rw [geneTransientInput_Unmarshal_empty] at hd
    cases hd
  have hk := createCompositeKey_two "gene~name" x.Gene x.Name validAttribute_geneName hg hn
  simp only [initGene, List.length_nil, ne_eq, not_true_eq_false, ↓reduceIte,
    GetTransient_ok hf, ht, len_eq_zero_iff, hdata, hd, not_le.mpr v1, not_le.mpr v5,
    not_le.mpr v6, not_le.mpr v8, v2, v3, v4, v7]
  have hf' : ∀ n, stub.fault n = none := hf
  simp [GetPrivateData_ok, PutPrivateData_ok, CreateCompositeKey_ok, noFault_log_iff,
    noFault_mk_iff, hf, hf', hfree, gene.Marshal, genePrivateDetails.Marshal, hk, v2,
    compositeKey_ne_empty, afterCreate, createCalls, log, publicDoc, restrictedDoc, gene.encode,
    genePrivateDetails.encode, markerValue]
theorem encodeObject_ne_empty (fields : List (String × Field)) : encodeObject fields ≠ "" := by
  intro h
  have := congrArg String.data h
  simp [encodeObject] at this

theorem gene_encode_ne_empty (g : gene) : g.encode ≠ "" := encodeObject_ne_empty _

theorem details_encode_ne_empty (d : genePrivateDetails) : d.encode ≠ "" := encodeObject_ne_empty _

theorem readGene_present (stub : ChaincodeStub) (name v : String) (hf : stub.noFault)
    (h : stub.pvt "collectionGenes" name = some v) :
    readGene stub [name] =
      (shim.Success (some v), stub.log (Call.GetPrivateData "collectionGenes" name)) := by
  simp [readGene, GetPrivateData_ok hf, h]

theorem readGene_absent (stub : ChaincodeStub) (name : String) (hf : stub.noFault)
    (h : stub.pvt "collectionGenes" name = none) :
    readGene stub [name] =
      (shim.Error ("\x7b\"Error\":\"Gene does not exist: " ++ name ++ "\"\x7d"),
        stub.log (Call.GetPrivateData "collectionGenes" name)) := by
  simp [readGene, GetPrivateData_ok hf, h]

theorem readGenePrivateDetails_present (stub : ChaincodeStub) (name v : String)
    (hf : stub.noFault) (h : stub.pvt "collectionGenesPrivateDetails" name = some v) :
    readGenePrivateDetails stub [name] =
      (shim.Success (some v),
        stub.log (Call.GetPrivateData "collectionGenesPrivateDetails" name)) := by
  simp [readGenePrivateDetails, GetPrivateData_ok hf, h]

theorem afterCreate_gene (pvt : String → String → Option String) (x : geneTransientInput) :
    afterCreate pvt x "collectionGenes" x.Name = some (publicDoc x).encode := by
  simp [afterCreate, put, compositeKey_ne_attr, gene_encode_ne_empty,
    (compositeKey_ne_attr "gene~name" x.Gene x.Name).symm]

theorem afterCreate_details (pvt : String → String → Option String) (x : geneTransientInput) :
    afterCreate pvt x "collectionGenesPrivateDetails" x.Name = some (restrictedDoc x).encode := by
  simp [afterCreate, put, details_encode_ne_empty]

theorem afterCreate_marker (pvt : String → String → Option String) (x : geneTransientInput) :
    afterCreate pvt x "collectionGenes" (compositeKey "gene~name" x.Gene x.Name) =
      some markerValue := by
  simp [afterCreate, put, markerValue]
  intro h
  have := congrArg String.length h
  simp [String.singleton] at this

theorem details_findField :
    findField ["docType", "name", "age", "varient", "price"] "docType".data = some 0 ∧
    findField ["docType", "name", "age", "varient", "price"] "name".data = some 1 ∧
    findField ["docType", "name", "age", "varient", "price"] "age".data = some 2 ∧
    findField ["docType", "name", "age", "varient", "price"] "varient".data = some 3 ∧
    findField ["docType", "name", "age", "varient", "price"] "price".data = some 4 := by
  decide

/-- Decoding the encoding of a `genePrivateDetails` gives it back. -/
theorem details_Unmarshal_encode (d : genePrivateDetails) (h1 : int64 d.Age)
    (h2 : int64 d.Price) : genePrivateDetails.Unmarshal d.encode = Except.ok d := by
  obtain ⟨f0, f1, f2, f3, f4⟩ := details_findField
  unfold genePrivateDetails.Unmarshal json.Unmarshal genePrivateDetails.encode
  simp only [details_keys, genePrivateDetails.fields, List.zip_cons_cons, List.zip_nil_right]
  rw [parse_encodeObject _ (by simp)]
  simp only [List.map_cons, List.map_nil,
    decodeMembers, f0, f1, f2, f3, f4, genePrivateDetails.set, fieldValue,
    decodeString, decodeInt, ParseInt_Itoa _ h1, ParseInt_Itoa _ h2, Option.map_some']

theorem next_pvt (stub : ChaincodeStub) (args : List String) (t : String → Option String) :
    (stub.next args t).pvt = stub.pvt := rfl

theorem log_pvt (stub : ChaincodeStub) (c : Call) : (stub.log c).pvt = stub.pvt := rfl

theorem initGene_exists (stub : ChaincodeStub) (data : String) (x : geneTransientInput)
    (v : String) (hf : stub.noFault) (ht : stub.transient "gene" = some data)
    (hd : geneTransientInput.Unmarshal data = Except.ok x) (hv : validInput x)
    (hex : stub.pvt "collectionGenes" x.Name = some v) :
    initGene stub [] =
      (shim.Error ("This gene already exists: " ++ x.Name),
        (stub.log Call.GetTransient).log (Call.GetPrivateData "collectionGenes" x.Name)) := by
  obtain ⟨v1, v2, v3, v4, v5, v6, v7, v8⟩ := hv
  have hdata : data ≠ "" := by
    rintro rfl
    rw [geneTransientInput_Unmarshal_empty] at hd
    cases hd
  have hf' : ∀ n, stub.fault n = none := hf
  simp [initGene, GetTransient_ok hf, ht, len_eq_zero_iff, hdata, hd, not_le.mpr v1,
    not_le.mpr v5, not_le.mpr v6, not_le.mpr v8, v2, v3, v4, v7, GetPrivateData_ok,
    noFault_log_iff, hf, log_pvt, hex]

theorem geneDeleteTransientInput_Unmarshal_empty :
    geneDeleteTransientInput.Unmarshal "" = Except.error "invalid JSON input" := by rfl

theorem validAttribute_colorName : validAttribute "color~name" := by
  unfold validAttribute; decide

theorem delete_absent (stub : ChaincodeStub) (data n : String) (hf : stub.noFault)
    (ht : stub.transient "gene_delete" = some data)
    (hd : geneDeleteTransientInput.Unmarshal data = Except.ok ⟨n⟩) (hn : n ≠ "")
    (hp : stub.pvt "collectionGenes" n = none) :
    delete stub [] =
      (shim.Error ("Gene does not exist: " ++ n),
        (stub.log Call.GetTransient).log (Call.GetPrivateData "collectionGenes" n)) := by
  have hdata : data ≠ "" := by
    rintro rfl
    rw [geneDeleteTransientInput_Unmarshal_empty] at hd
    cases hd
  have hf' : ∀ n, stub.fault n = none := hf
  simp [delete, GetTransient_ok hf, ht, len_eq_zero_iff, hdata, hd, hn, GetPrivateData_ok,
    noFault_log_iff, hf, log_pvt, hp]

theorem delete_undecodable (stub : ChaincodeStub) (data n v e : String) (hf : stub.noFault)
    (ht : stub.transient "gene_delete" = some data)
    (hd : geneDeleteTransientInput.Unmarshal data = Except.ok ⟨n⟩) (hn : n ≠ "")
    (hp : stub.pvt "collectionGenes" n = some v) (hu : gene.Unmarshal v = Except.error e) :
    (delete stub []).1 = shim.Error ("Failed to decode JSON of: " ++ v) := by
  have hdata : data ≠ "" := by
    rintro rfl
    rw [geneDeleteTransientInput_Unmarshal_empty] at hd
    cases hd
  have hf' : ∀ n, stub.fault n = none := hf
  simp [delete, GetTransient_ok hf, ht, len_eq_zero_iff, hdata, hd, hn, GetPrivateData_ok,
    noFault_log_iff, hf, log_pvt, hp, hu]

theorem delete_bad_key (stub : ChaincodeStub) (data n v e : String) (g : gene)
    (hf : stub.noFault) (ht : stub.transient "gene_delete" = some data)
    (hd : geneDeleteTransientInput.Unmarshal data = Except.ok ⟨n⟩) (hn : n ≠ "")
    (hp : stub.pvt "collectionGenes" n = some v) (hu : gene.Unmarshal v = Except.ok g)
    (hk : createCompositeKey "color~name" [g.Gene, g.Name] = Except.error e) :
    (delete stub []).1 = shim.Error e := by
  have hdata : data ≠ "" := by
    rintro rfl
    rw [geneDeleteTransientInput_Unmarshal_empty] at hd
    cases hd
  have hf' : ∀ n, stub.fault n = none := hf
  simp [delete, GetTransient_ok hf, ht, len_eq_zero_iff, hdata, hd, hn, GetPrivateData_ok,
    noFault_log_iff, noFault_mk_iff, hf, hf', log_pvt, hp, hu, DelPrivateData_ok,
    CreateCompositeKey_ok, hk, log]

theorem delete_ok (stub : ChaincodeStub) (data n v k : String) (g : gene)
    (hf : stub.noFault) (ht : stub.transient "gene_delete" = some data)
    (hd : geneDeleteTransientInput.Unmarshal data = Except.ok ⟨n⟩) (hn : n ≠ "")
    (hp : stub.pvt "collectionGenes" n = some v) (hu : gene.Unmarshal v = Except.ok g)
    (hk : createCompositeKey "color~name" [g.Gene, g.Name] = Except.ok k) :
    delete stub [] =
      (shim.Success none,
        { stub with
          pvt := del (del (del stub.pvt "collectionGenes" n) "collectionGenes" k)
            "collectionGenesPrivateDetails" n,
          trace := stub.trace ++ [Call.GetTransient, Call.GetPrivateData "collectionGenes" n,
            Call.DelPrivateData "collectionGenes" n,
            Call.CreateCompositeKey "color~name" [g.Gene, g.Name],
            Call.DelPrivateData "collectionGenes" k,
            Call.DelPrivateData "collectionGenesPrivateDetails" n] }) := by
  have hdata : data ≠ "" := by
    rintro rfl
    rw [geneDeleteTransientInput_Unmarshal_empty] at hd
    cases hd
  have hf' : ∀ n, stub.fault n = none := hf
  simp [delete, GetTransient_ok hf, ht, len_eq_zero_iff, hdata, hd, hn, GetPrivateData_ok,
    noFault_log_iff, noFault_mk_iff, hf, hf', log_pvt, hp, hu, DelPrivateData_ok,
    CreateCompositeKey_ok, hk, log]

theorem delete_empty_name (stub : ChaincodeStub) (data : String) (hf : stub.noFault)
    (ht : stub.transient "gene_delete" = some data)
    (hd : geneDeleteTransientInput.Unmarshal data = Except.ok ⟨""⟩) :
    delete stub [] =
      (shim.Error "name field must be a non-empty string", stub.log Call.GetTransient) := by
  have hdata : data ≠ "" := by
    rintro rfl
    rw [geneDeleteTransientInput_Unmarshal_empty] at hd
    cases hd
  simp [delete, GetTransient_ok hf, ht, len_eq_zero_iff, hdata, hd]

/-- A `delete` that succeeds found the gene, decoded it and built its index key. -/
theorem delete_success_inv (stub : ChaincodeStub) (data n : String) (hf : stub.noFault)
    (ht : stub.transient "gene_delete" = some data)
    (hd : geneDeleteTransientInput.Unmarshal data = Except.ok ⟨n⟩)
    (hs : (delete stub []).1 = shim.Success none) :
    n ≠ "" ∧ ∃ (v k : String) (g : gene), stub.pvt "collectionGenes" n = some v ∧
      gene.Unmarshal v = Except.ok g ∧
      createCompositeKey "color~name" [g.Gene, g.Name] = Except.ok k ∧
      delete stub [] =
        (shim.Success none,
          { stub with
            pvt := del (del (del stub.pvt "collectionGenes" n) "collectionGenes" k)
              "collectionGenesPrivateDetails" n,
            trace := stub.trace ++ [Call.GetTransient, Call.GetPrivateData "collectionGenes" n,
              Call.DelPrivateData "collectionGenes" n,
              Call.CreateCompositeKey "color~name" [g.Gene, g.Name],
              Call.DelPrivateData "collectionGenes" k,
              Call.DelPrivateData "collectionGenesPrivateDetails" n] }) := by
  have hne : ∀ m : String, shim.Error m ≠ shim.Success none := by
    intro m h
    have := congrArg pb.Response.Status h
    simp [shim.Error, shim.Success, shim.ERROR, shim.OK] at this
  by_cases hn : n = ""
  · subst hn
    rw [delete_empty_name stub data hf ht hd] at hs
    exact absurd hs (hne _)
  refine ⟨hn, ?_⟩
  rcases hp : stub.pvt "collectionGenes" n with _ | v
  · rw [delete_absent stub data n hf ht hd hn hp] at hs
    exact absurd hs (hne _)
  rcases hu : gene.Unmarshal v with e | g
  · rw [delete_undecodable stub data n v e hf ht hd hn hp hu] at hs
    exact absurd hs (hne _)
  rcases hk : createCompositeKey "color~name" [g.Gene, g.Name] with e | k
  · rw [delete_bad_key stub data n v e g hf ht hd hn hp hu hk] at hs
    exact absurd hs (hne _)
  exact ⟨v, k, g, rfl, hu, hk, delete_ok stub data n v k g hf ht hd hn hp hu hk⟩

theorem geneTransferTransientInput_Unmarshal_empty :
    geneTransferTransientInput.Unmarshal "" = Except.error "invalid JSON input" := by rfl

theorem transferGene_ok (stub : ChaincodeStub) (data g n v : String) (r : gene)
    (hf : stub.noFault) (ht : stub.transient "gene_name" = some data)
    (hd : geneTransferTransientInput.Unmarshal data = Except.ok ⟨g, n⟩) (hg : g ≠ "")
    (hn : n ≠ "") (hp : stub.pvt "collectionGenes" n = some v)
    (hu : gene.Unmarshal v = Except.ok r) (hr : r.Name ≠ "") :
    transferGene stub [] =
      (shim.Success none,
        { stub with
          pvt := put stub.pvt "collectionGenes" r.Name ({ r with Gene := g } : gene).encode,
          trace := stub.trace ++ [Call.GetTransient, Call.GetPrivateData "collectionGenes" n,
            Call.PutPrivateData "collectionGenes" r.Name ({ r with Gene := g } : gene).encode] })
      := by
  have hdata : data ≠ "" := by
    rintro rfl
    rw [geneTransferTransientInput_Unmarshal_empty] at hd
    cases hd
  have hf' : ∀ n, stub.fault n = none := hf
  simp [transferGene, GetTransient_ok hf, ht, len_eq_zero_iff, hdata, hd, hg, hn,
    GetPrivateData_ok, noFault_log_iff, noFault_mk_iff, hf, hf', log_pvt, hp, hu,
    PutPrivateData_ok, hr, gene.Marshal, gene.encode, log]

theorem transferGene_absent (stub : ChaincodeStub) (data g n : String)
    (hf : stub.noFault) (ht : stub.transient "gene_name" = some data)
    (hd : geneTransferTransientInput.Unmarshal data = Except.ok ⟨g, n⟩) (hg : g ≠ "")
    (hn : n ≠ "") (hp : stub.pvt "collectionGenes" n = none) :
    transferGene stub [] =
      (shim.Error ("Name does not exist: " ++ n),
        (stub.log Call.GetTransient).log (Call.GetPrivateData "collectionGenes" n)) := by
  have hdata : data ≠ "" := by
    rintro rfl
    rw [geneTransferTransientInput_Unmarshal_empty] at hd
    cases hd
  have hf' : ∀ n, stub.fault n = none := hf
  simp [transferGene, GetTransient_ok hf, ht, len_eq_zero_iff, hdata, hd, hg, hn,
    GetPrivateData_ok, noFault_log_iff, hf, log_pvt, hp]


/-! ### The concrete scenario -/

theorem validInput_ron : validInput ronInput := by unfold validInput; decide

theorem validAttribute_of_literal_ADRB2 : validAttribute "ADRB2" := by
  unfold validAttribute; decide

theorem validAttribute_Ron : validAttribute "Ron" := by unfold validAttribute; decide

theorem ronPayload_decodes : geneTransientInput.Unmarshal ronPayload = Except.ok ronInput := by
  rfl

/-- The ledger of the scenario after the create, spelled out. -/
theorem ronLedger_eq :
    ronLedger =
      { ronStub with pvt := afterCreate ronStub.pvt ronInput,
                     trace := ronStub.trace ++ createCalls ronInput } := by
  unfold ronLedger
  rw [initGene_ok ronStub ronPayload ronInput (fun _ => rfl) (by rfl) ronPayload_decodes
    validInput_ron validAttribute_of_literal_ADRB2 validAttribute_Ron (by rfl)]

theorem ronLedger_noFault : ronLedger.noFault := by
  rw [ronLedger_eq]; exact fun _ => rfl

theorem ronLedger_gene : ronLedger.pvt "collectionGenes" "Ron" = some (publicDoc ronInput).encode := by
  rw [ronLedger_eq]; exact afterCreate_gene ronStub.pvt ronInput

theorem ronDelete_decodes :
    geneDeleteTransientInput.Unmarshal ronDeletePayload = Except.ok ⟨"Ron"⟩ := by rfl

theorem ron_int64 : int64 (publicDoc ronInput).Id ∧ int64 (publicDoc ronInput).Size := by
  unfold int64; decide

theorem ronDelete_succeeds : (delete ronDeleteStub []).1 = shim.Success none :=
  congrArg Prod.fst
    (delete_ok ronDeleteStub ronDeletePayload "Ron" (publicDoc ronInput).encode
      (compositeKey "color~name" "ADRB2" "Ron") (publicDoc ronInput) ronLedger_noFault (by rfl)
      ronDelete_decodes (by decide) ronLedger_gene
      (gene_Unmarshal_encode (publicDoc ronInput) ron_int64.1 ron_int64.2)
      (createCompositeKey_two "color~name" "ADRB2" "Ron" validAttribute_colorName
        validAttribute_of_literal_ADRB2 validAttribute_Ron))

theorem invokeInitGene_ok (ledger : ChaincodeStub) (data : String) (x : geneTransientInput)
    (hf : ledger.noFault) (hd : geneTransientInput.Unmarshal data = Except.ok x)
    (hv : validInput x) (hg : validAttribute x.Gene) (hn : validAttribute x.Name)
    (hfree : ledger.pvt "collectionGenes" x.Name = none) :
    invokeInitGene ledger data =
      (shim.Success none,
        { ledger.next ["initGene"] (transientOf "gene" data) with
          pvt := afterCreate ledger.pvt x, trace := ledger.trace ++ createCalls x }) :=
  initGene_ok _ data x hf (by simp [next, transientOf]) hd hv hg hn hfree

theorem invokeDelete_created (ledger : ChaincodeStub) (data : String) (x : geneTransientInput)
    (raw : String) (pvt : String → String → Option String)
    (hf : ledger.noFault) (hd : geneDeleteTransientInput.Unmarshal data = Except.ok ⟨x.Name⟩)
    (hraw : geneTransientInput.Unmarshal raw = Except.ok x)
    (hv : validInput x) (hg : validAttribute x.Gene) (hn : validAttribute x.Name)
    (hp : ledger.pvt = afterCreate pvt x) :
    (invokeDelete ledger data).1 = shim.Success none ∧
    (invokeDelete ledger data).2.noFault ∧
    (invokeDelete ledger data).2.pvt =
      del (del (del (afterCreate pvt x) "collectionGenes" x.Name) "collectionGenes"
        (compositeKey "color~name" x.Gene x.Name)) "collectionGenesPrivateDetails" x.Name := by
  obtain ⟨r1, r2, -, -⟩ := geneTransientInput_range raw x hraw
  have h := delete_ok (ledger.next ["delete"] (transientOf "gene_delete" data)) data x.Name
    (publicDoc x).encode (compositeKey "color~name" x.Gene x.Name) (publicDoc x) hf
    (by simp [next, transientOf]) hd hv.2.1
    (by rw [next_pvt, hp]; exact afterCreate_gene pvt x)
    (gene_Unmarshal_encode (publicDoc x) r1 r2)
    (createCompositeKey_two "color~name" x.Gene x.Name validAttribute_colorName hg hn)
  unfold invokeDelete
  rw [h]
  refine ⟨rfl, hf, ?_⟩
  simp [next_pvt, hp]

theorem initGene_bad_key (stub : ChaincodeStub) (data e : String) (x : geneTransientInput)
    (hf : stub.noFault) (ht : stub.transient "gene" = some data)
    (hd : geneTransientInput.Unmarshal data = Except.ok x) (hv : validInput x)
    (hfree : stub.pvt "collectionGenes" x.Name = none)
    (hk : createCompositeKey "gene~name" [x.Gene, x.Name] = Except.error e) :
    (initGene stub []).1 = shim.Error e := by
  obtain ⟨v1, v2, v3, v4, v5, v6, v7, v8⟩ := hv
  have hdata : data ≠ "" := by
    rintro rfl
    rw [geneTransientInput_Unmarshal_empty] at hd
    cases hd
  have hf' : ∀ n, stub.fault n = none := hf
  simp [initGene, GetTransient_ok hf, ht, len_eq_zero_iff, hdata, hd, not_le.mpr v1,
    not_le.mpr v5, not_le.mpr v6, not_le.mpr v8, v2, v3, v4, v7, GetPrivateData_ok,
    PutPrivateData_ok, CreateCompositeKey_ok, noFault_log_iff, noFault_mk_iff, hf, hf', hfree,
    gene.Marshal, genePrivateDetails.Marshal, hk, log]

theorem ronLedger_pvt : ronLedger.pvt = afterCreate emptyLedger.pvt ronInput := by
  rw [ronLedger_eq]; rfl

theorem compositeKey_ne_of_length (o1 o2 a b : String) (h : o1.length ≠ o2.length) :
    compositeKey o1 a b ≠ compositeKey o2 a b := by
  intro he
  have := congrArg String.length he
  rw [compositeKey_length, compositeKey_length] at this
  omega

/-- The index entry that `initGene` wrote is still there after the deletes of `delete`. -/
theorem marker_survives_delete (pvt : String → String → Option String)
    (x : geneTransientInput) :
    del (del (del (afterCreate pvt x) "collectionGenes" x.Name) "collectionGenes"
      (compositeKey "color~name" x.Gene x.Name)) "collectionGenesPrivateDetails" x.Name
      "collectionGenes" (compositeKey "gene~name" x.Gene x.Name) = some markerValue := by
  have h1 := compositeKey_ne_attr "gene~name" x.Gene x.Name
  have h2 := compositeKey_ne_of_length "gene~name" "color~name" x.Gene x.Name (by decide)
  simp [del, h1, h2, afterCreate_marker]

theorem ronTransfer_decodes :
    geneTransferTransientInput.Unmarshal ronTransferPayload = Except.ok ⟨"TP53", "Ron"⟩ := by
  rfl

theorem invokeInitGene_pvt (ledger : ChaincodeStub) (data : String) (x : geneTransientInput)
    (hf : ledger.noFault) (hd : geneTransientInput.Unmarshal data = Except.ok x)
    (hv : validInput x) (hg : validAttribute x.Gene) (hn : validAttribute x.Name)
    (hfree : ledger.pvt "collectionGenes" x.Name = none) :
    (invokeInitGene ledger data).1 = shim.Success none ∧
    (invokeInitGene ledger data).2.noFault ∧
    (invokeInitGene ledger data).2.pvt = afterCreate ledger.pvt x := by
  rw [invokeInitGene_ok ledger data x hf hd hv hg hn hfree]
  exact ⟨rfl, hf, rfl⟩

theorem invokeReadGene_present (ledger : ChaincodeStub) (name v : String) (hf : ledger.noFault)
    (h : ledger.pvt "collectionGenes" name = some v) :
    (invokeReadGene ledger name).1 = shim.Success (some v) :=
  congrArg Prod.fst (readGene_present _ name v (by exact hf) (by exact h))

theorem invokeReadGenePrivateDetails_present (ledger : ChaincodeStub) (name v : String)
    (hf : ledger.noFault) (h : ledger.pvt "collectionGenesPrivateDetails" name = some v) :
    (invokeReadGenePrivateDetails ledger name).1 = shim.Success (some v) :=
  congrArg Prod.fst (readGenePrivateDetails_present _ name v (by exact hf) (by exact h))

theorem validInput_ronAgain : validInput ronAgainInput := by unfold validInput; decide

theorem ronAgainPayload_decodes :
    geneTransientInput.Unmarshal ronAgainPayload = Except.ok ronAgainInput := by rfl

theorem invokeInitGene_bad_key (ledger : ChaincodeStub) (data e : String)
    (x : geneTransientInput) (hf : ledger.noFault)
    (hd : geneTransientInput.Unmarshal data = Except.ok x) (hv : validInput x)
    (hfree : ledger.pvt "collectionGenes" x.Name = none)
    (hk : createCompositeKey "gene~name" [x.Gene, x.Name] = Except.error e) :
    (invokeInitGene ledger data).1 = shim.Error e :=
  initGene_bad_key _ data e x hf (by simp [next, transientOf]) hd hv hfree hk

/-- The messages of the eight field checks of `initGene`. -/
theorem initGene_invalid (stub : ChaincodeStub) (data : String) (x : geneTransientInput)
    (hf : stub.noFault) (ht : stub.transient "gene" = some data)
    (hd : geneTransientInput.Unmarshal data = Except.ok x) (hv : ¬ validInput x) :
    (initGene stub []).1.Status = shim.ERROR ∧
    (initGene stub []).1.Message ∈
      ["id field must be a positive integer", "name field must be a non-empty string",
       "population field must be a non-empty string", "gene field must be a non-empty string",
       "size field must be a positive integer", "Age field must be a positive integer",
       "varient field must be a non-empty string", "Price field must be a positive integer"] ∧
    (initGene stub []).2 = stub.log Call.GetTransient := by
  have hdata : data ≠ "" := by
    rintro rfl
    rw [geneTransientInput_Unmarshal_empty] at hd
    cases hd
  simp only [initGene, List.length_nil, ne_eq, not_true_eq_false, ↓reduceIte,
    GetTransient_ok hf, ht, len_eq_zero_iff, hdata, hd]
  split_ifs with c1 c2 c3 c4 c5 c6 c7 c8
  all_goals try (simp [shim.Error]; done)
  exfalso
  exact hv ⟨not_le.mp c1, c2, c3, c4, not_le.mp c5, not_le.mp c6, c7, not_le.mp c8⟩

/-! ### The query loops -/

/-- The two loops are the same function of the cursor, the buffer and the stub. -/
theorem loops_agree : ∀ (results : List (Except String queryresult.KV)) (buffer : String)
    (written : Bool) (stub : ChaincodeStub),
    getGenesByRange.loop results buffer written stub =
      getQueryResultForQueryString.loop results buffer written stub
  | [], _, _, _ => rfl
  | Except.error _ :: _, _, _, _ => rfl
  | Except.ok kv :: rest, buffer, written, stub => by
    simp only [getGenesByRange.loop, getQueryResultForQueryString.loop]
    exact loops_agree rest _ true _

theorem intercalate_go_cons (acc s a : String) (l : List String) :
    String.intercalate.go acc s (a :: l) = String.intercalate.go (acc ++ s ++ a) s l := rfl

theorem intercalate_go_append (p acc s : String) (l : List String) :
    String.intercalate.go (p ++ acc) s l = p ++ String.intercalate.go acc s l := by
  induction l generalizing acc with
  | nil => rfl
  | cons a l ih =>
    simp only [intercalate_go_cons]
    rw [← ih]
    simp [String.append_assoc]

theorem log_trace (stub : ChaincodeStub) (c : Call) : (stub.log c).trace = stub.trace ++ [c] :=
  rfl

/-- The loop on a cursor that does not fail, once a member is written. -/
theorem loop_ok_written (kvs : List queryresult.KV) : ∀ (acc : String) (stub : ChaincodeStub),
    getGenesByRange.loop (cursorOf kvs) acc true stub =
      (Except.ok (String.intercalate.go acc "," (kvs.map arrayMember)),
        { stub with trace := stub.trace ++ (readCalls kvs.length ++ [Call.HasNext]) }) := by
  induction kvs with
  | nil => intro acc stub; rfl
  | cons kv kvs ih =>
    intro acc stub
    simp only [cursorOf, List.map_cons, getGenesByRange.loop, if_true] at ih ⊢
    rw [ih]
    simp only [intercalate_go_cons, arrayMember, String.append_assoc, readCalls, log,
      List.length_cons, List.append_assoc, List.cons_append, List.nil_append]

/-- The loop on a cursor that does not fail, from the opening bracket. -/
theorem loop_ok (kvs : List queryresult.KV) (stub : ChaincodeStub) :
    getGenesByRange.loop (cursorOf kvs) "[" false stub =
      (Except.ok ("[" ++ String.intercalate "," (kvs.map arrayMember)),
        { stub with trace := stub.trace ++ (readCalls kvs.length ++ [Call.HasNext]) }) := by
  cases kvs with
  | nil => rfl
  | cons kv kvs =>
    have h := loop_ok_written kvs ("[" ++ arrayMember kv) ((stub.log Call.HasNext).log Call.Next)
    simp only [cursorOf, List.map_cons, getGenesByRange.loop] at h ⊢
    simp only [arrayMember, String.append_assoc] at h
    simp only [Bool.false_eq_true, if_false, String.append_assoc]
    rw [h]
    simp only [String.intercalate, ← intercalate_go_append, arrayMember, String.append_assoc,
      readCalls, log, List.length_cons, List.append_assoc, List.cons_append, List.nil_append]

/-- The loop on a cursor whose `Next` fails after some results. -/
theorem loop_fail (kvs : List queryresult.KV) (err : String)
    (rest : List (Except String queryresult.KV)) :
    ∀ (buffer : String) (written : Bool) (stub : ChaincodeStub),
    getGenesByRange.loop (failingCursor kvs err rest) buffer written stub =
      (Except.error err,
        { stub with
          trace := stub.trace ++ (readCalls kvs.length ++ [Call.HasNext, Call.Next]) }) := by
  induction kvs with
  | nil => intro buffer written stub; simp [failingCursor, getGenesByRange.loop, readCalls, log]
  | cons kv kvs ih =>
    intro buffer written stub
    simp only [failingCursor, List.map_cons, List.cons_append, getGenesByRange.loop,
      List.append_eq] at ih ⊢
    rw [ih]
    simp only [readCalls, log, List.length_cons, List.append_assoc, List.cons_append,
      List.nil_append]

theorem getGenesByRange_ok (stub : ChaincodeStub) (startKey endKey : String)
    (more : List String) (kvs : List queryresult.KV)
    (hf : stub.fault stub.trace.length = none)
    (hc : stub.byRange "collectionGenes" startKey endKey = cursorOf kvs) :
    getGenesByRange stub (startKey :: endKey :: more) =
      (shim.Success (some (resultArray kvs)),
        { stub with
          trace := stub.trace ++
            (Call.GetPrivateDataByRange "collectionGenes" startKey endKey ::
              (readCalls kvs.length ++ [Call.HasNext, Call.Close])) }) := by
  simp [getGenesByRange, GetPrivateDataByRange, hf, hc, loop_ok, resultArray, log]

theorem getGenesByRange_fail (stub : ChaincodeStub) (startKey endKey : String)
    (more : List String) (kvs : List queryresult.KV) (err : String)
    (rest : List (Except String queryresult.KV))
    (hf : stub.fault stub.trace.length = none)
    (hc : stub.byRange "collectionGenes" startKey endKey = failingCursor kvs err rest) :
    getGenesByRange stub (startKey :: endKey :: more) =
      (shim.Error err,
        { stub with
          trace := stub.trace ++
            (Call.GetPrivateDataByRange "collectionGenes" startKey endKey ::
              (readCalls kvs.length ++ [Call.HasNext, Call.Next, Call.Close])) }) := by
  simp [getGenesByRange, GetPrivateDataByRange, hf, hc, loop_fail, log]

theorem getQueryResultForQueryString_ok (stub : ChaincodeStub) (queryString : String)
    (kvs : List queryresult.KV) (hf : stub.fault stub.trace.length = none)
    (hc : stub.byQuery "collectionGenes" queryString = cursorOf kvs) :
    getQueryResultForQueryString stub queryString =
      (Except.ok (resultArray kvs),
        { stub with
          trace := stub.trace ++
            (Call.GetPrivateDataQueryResult "collectionGenes" queryString ::
              (readCalls kvs.length ++ [Call.HasNext, Call.Close])) }) := by
  simp [getQueryResultForQueryString, GetPrivateDataQueryResult, hf, hc, ← loops_agree,
    loop_ok, resultArray, log]

theorem getQueryResultForQueryString_fail (stub : ChaincodeStub) (queryString : String)
    (kvs : List queryresult.KV) (err : String) (rest : List (Except String queryresult.KV))
    (hf : stub.fault stub.trace.length = none)
    (hc : stub.byQuery "collectionGenes" queryString = failingCursor kvs err rest) :
    getQueryResultForQueryString stub queryString =
      (Except.error err,
        { stub with
          trace := stub.trace ++
            (Call.GetPrivateDataQueryResult "collectionGenes" queryString ::
              (readCalls kvs.length ++ [Call.HasNext, Call.Next, Call.Close])) }) := by
  simp [getQueryResultForQueryString, GetPrivateDataQueryResult, hf, hc, ← loops_agree,
    loop_fail, log]

theorem arrayMember_eq (kv : queryresult.KV) :
    arrayMember kv = "\x7b\"Key\":\"" ++ kv.Key ++ "\", \"Record\":" ++ kv.Value ++ "\x7d" := by
  simp only [arrayMember, String.append_assoc]
  rfl

/-- Joining with a separator puts exactly one separator between two neighbours. -/
theorem intercalate_cons_cons (s a b : String) (l : List String) :
    String.intercalate s (a :: b :: l) = a ++ s ++ String.intercalate s (b :: l) := by
  simp only [String.intercalate, intercalate_go_cons]
  rw [← intercalate_go_append]

/-- What the loop writes does not depend on the stub. -/
theorem loop_fst_stub : ∀ (results : List (Except String queryresult.KV)) (buffer : String)
    (written : Bool) (s1 s2 : ChaincodeStub),
    (getGenesByRange.loop results buffer written s1).1 =
      (getGenesByRange.loop results buffer written s2).1
  | [], _, _, _, _ => rfl
  | Except.error _ :: _, _, _, _, _ => rfl
  | Except.ok kv :: rest, buffer, written, s1, s2 => by
    simp only [getGenesByRange.loop]
    exact loop_fst_stub rest _ true _ _

/-- The loop calls `HasNext` and `Next` only, and changes nothing but the trace. -/
theorem loop_trace : ∀ (results : List (Except String queryresult.KV)) (buffer : String)
    (written : Bool) (stub : ChaincodeStub),
    ∃ calls : List Call,
      (getGenesByRange.loop results buffer written stub).2 =
        { stub with trace := stub.trace ++ calls } ∧
      calls.count Call.Close = 0
  | [], _, _, stub => ⟨[Call.HasNext], rfl, by decide⟩
  | Except.error _ :: _, _, _, stub => ⟨[Call.HasNext, Call.Next], by
      simp [getGenesByRange.loop, log], by decide⟩
  | Except.ok kv :: rest, buffer, written, stub => by
    obtain ⟨calls, h1, h2⟩ := loop_trace rest
      ((((((((if written = true then buffer ++ "," else buffer) ++ "\x7b\"Key\":") ++ "\"") ++
        kv.Key) ++ "\"") ++ ", \"Record\":") ++ kv.Value) ++ "\x7d") true
      ((stub.log Call.HasNext).log Call.Next)
    refine ⟨Call.HasNext :: Call.Next :: calls, ?_, ?_⟩
    · simp only [getGenesByRange.loop]
      rw [h1]
      simp [log]
    · simp [List.count_cons, h2]

/-- The first call of `getQueryResultForQueryString` is the rich query on
collectionGenes with the query string it was given. -/
theorem getQueryResultForQueryString_first_call (stub : ChaincodeStub) (queryString : String) :
    ∃ rest, (getQueryResultForQueryString stub queryString).2.trace =
      stub.trace ++ Call.GetPrivateDataQueryResult "collectionGenes" queryString :: rest := by
  rcases hf : stub.fault stub.trace.length with _ | err
  · obtain ⟨c, h, -⟩ := loop_trace (stub.byQuery "collectionGenes" queryString) "[" false
      (stub.log (Call.GetPrivateDataQueryResult "collectionGenes" queryString))
    refine ⟨c ++ [Call.Close], ?_⟩
    simp only [getQueryResultForQueryString, GetPrivateDataQueryResult, hf, ← loops_agree]
    rcases hl : getGenesByRange.loop (stub.byQuery "collectionGenes" queryString) "[" false
      (stub.log (Call.GetPrivateDataQueryResult "collectionGenes" queryString)) with ⟨r, t⟩
    rw [hl] at h
    simp only at h
    subst h
    cases r <;> simp [hl] <;> simp [log]
  · exact ⟨[], by simp [getQueryResultForQueryString, GetPrivateDataQueryResult, hf, log]⟩

/-- The handler `queryAgeingDrugs` with an argument: the facade's calls on the
owner query, and its bytes as the payload. -/
theorem queryAgeingDrugs_facade (stub : ChaincodeStub) (c : String) (more : List String) :
    (queryAgeingDrugs stub (c :: more)).2 =
      (getQueryResultForQueryString stub (ownerQuery (strings.ToLower c))).2 ∧
    (∀ b, (getQueryResultForQueryString stub (ownerQuery (strings.ToLower c))).1 = Except.ok b →
      (queryAgeingDrugs stub (c :: more)).1 = shim.Success (some b)) ∧
    (∀ err, (getQueryResultForQueryString stub (ownerQuery (strings.ToLower c))).1 =
        Except.error err →
      (queryAgeingDrugs stub (c :: more)).1 = shim.Error err) := by
  have e : "\x7b\"selector\":\x7b\"docType\":\"gene\",\"owner\":\"" ++ strings.ToLower c ++ "\"\x7d\x7d" =
      ownerQuery (strings.ToLower c) := rfl
  simp only [queryAgeingDrugs, List.length_cons, List.getD_cons_zero, e]
  rcases hq : getQueryResultForQueryString stub (ownerQuery (strings.ToLower c)) with ⟨r, t⟩
  cases r <;> simp

/-- The handler `queryLongetivityMapByGene` with an argument: the facade's calls
on that argument, and its bytes as the payload. -/
theorem queryLongetivityMapByGene_facade (stub : ChaincodeStub) (q : String)
    (more : List String) :
    (queryLongetivityMapByGene stub (q :: more)).2 = (getQueryResultForQueryString stub q).2 ∧
    (∀ b, (getQueryResultForQueryString stub q).1 = Except.ok b →
      (queryLongetivityMapByGene stub (q :: more)).1 = shim.Success (some b)) ∧
    (∀ err, (getQueryResultForQueryString stub q).1 = Except.error err →
      (queryLongetivityMapByGene stub (q :: more)).1 = shim.Error err) := by
  simp only [queryLongetivityMapByGene, List.length_cons, List.getD_cons_zero]
  rcases hq : getQueryResultForQueryString stub q with ⟨r, t⟩
  cases r <;> simp

theorem transferGene_empty_gene (stub : ChaincodeStub) (data n : String)
    (hf : stub.noFault) (ht : stub.transient "gene_name" = some data)
    (hd : geneTransferTransientInput.Unmarshal data = Except.ok ⟨"", n⟩) :
    transferGene stub [] =
      (shim.Error "gene field must be a non-empty string", stub.log Call.GetTransient) := by
  have hdata : data ≠ "" := by
    rintro rfl
    rw [geneTransferTransientInput_Unmarshal_empty] at hd
    cases hd
  simp [transferGene, GetTransient_ok hf, ht, len_eq_zero_iff, hdata, hd]

theorem transferGene_empty_name (stub : ChaincodeStub) (data g : String)
    (hf : stub.noFault) (ht : stub.transient "gene_name" = some data)
    (hd : geneTransferTransientInput.Unmarshal data = Except.ok ⟨g, ""⟩) (hg : g ≠ "") :
    transferGene stub [] =
      (shim.Error "name field must be a non-empty string", stub.log Call.GetTransient) := by
  have hdata : data ≠ "" := by
    rintro rfl
    rw [geneTransferTransientInput_Unmarshal_empty] at hd
    cases hd
  simp [transferGene, GetTransient_ok hf, ht, len_eq_zero_iff, hdata, hd, hg]

/-- An `initGene` that answers with success: its input decoded and was valid, the
name was free, the key of the index entry could be built, none of its first
five calls failed, and the private data is that of the create when the write of
the index entry did not fail, and lacks the index entry's write when it did. -/
theorem initGene_success_inv (stub : ChaincodeStub)
    (hs : (initGene stub []).1 = shim.Success none) :
    ∃ data x, stub.transient "gene" = some data ∧
      geneTransientInput.Unmarshal data = Except.ok x ∧ validInput x ∧
      stub.pvt "collectionGenes" x.Name = none ∧
      validAttribute x.Gene ∧ validAttribute x.Name ∧
      (initGene stub []).2.trace = stub.trace ++ createCalls x ∧
      (stub.fault (stub.trace.length + 5) = none →
        (initGene stub []).2.pvt = afterCreate stub.pvt x) ∧
      (stub.fault (stub.trace.length + 5) ≠ none →
        (initGene stub []).2.pvt =
          put (put stub.pvt "collectionGenes" x.Name (publicDoc x).encode)
            "collectionGenesPrivateDetails" x.Name (restrictedDoc x).encode) := by
  rcases h0 : stub.fault stub.trace.length with _ | e0
  swap
  · simp [initGene, GetTransient, h0, shim.Error, shim.Success, shim.OK, shim.ERROR] at hs
  rcases ht : stub.transient "gene" with _ | data
  · simp [initGene, GetTransient, h0, ht, shim.Error, shim.Success, shim.OK, shim.ERROR] at hs
  by_cases hdata : data = ""
  · simp [initGene, GetTransient, h0, ht, hdata, len_eq_zero_iff, shim.Error, shim.Success,
      shim.OK, shim.ERROR] at hs
  rcases hd : geneTransientInput.Unmarshal data with e | x
  · simp [initGene, GetTransient, h0, ht, hdata, len_eq_zero_iff, hd, shim.Error, shim.Success,
      shim.OK, shim.ERROR] at hs
  by_cases hv : validInput x
  swap
  · exfalso
    simp only [initGene, List.length_nil, ne_eq, not_true_eq_false, ↓reduceIte,
      GetTransient, h0, ht, len_eq_zero_iff, hdata, hd] at hs
    split_ifs at hs with c1 c2 c3 c4 c5 c6 c7 c8
    all_goals try (simp [shim.Error, shim.Success, shim.OK, shim.ERROR] at hs; done)
    exact hv ⟨not_le.mp c1, c2, c3, c4, not_le.mp c5, not_le.mp c6, c7, not_le.mp c8⟩
  refine ⟨data, x, rfl, hd, hv, ?_⟩
  obtain ⟨v1, v2, v3, v4, v5, v6, v7, v8⟩ := hv
  simp only [initGene, List.length_nil, ne_eq, not_true_eq_false, ↓reduceIte,
    GetTransient, h0, ht, len_eq_zero_iff, hdata, hd, not_le.mpr v1, not_le.mpr v5,
    not_le.mpr v6, not_le.mpr v8, v2, v3, v4, v7] at hs ⊢
  rcases h1 : stub.fault (stub.trace.length + 1) with _ | e1
  swap
  · simp [GetPrivateData, log, h1, shim.Error, shim.Success, shim.OK, shim.ERROR] at hs
  rcases hp : stub.pvt "collectionGenes" x.Name with _ | v
  swap
  · simp [GetPrivateData, log, h1, hp, shim.Error, shim.Success, shim.OK, shim.ERROR] at hs
  rcases h2 : stub.fault (stub.trace.length + 2) with _ | e2
  swap
  · simp [GetPrivateData, PutPrivateData, log, h1, hp, h2, v2, gene.Marshal, shim.Error,
      shim.Success, shim.OK, shim.ERROR] at hs
  rcases h3 : stub.fault (stub.trace.length + 3) with _ | e3
  swap
  · simp [GetPrivateData, PutPrivateData, log, h1, hp, h2, h3, v2, gene.Marshal,
      genePrivateDetails.Marshal, shim.Error, shim.Success, shim.OK, shim.ERROR] at hs
  rcases h4 : stub.fault (stub.trace.length + 4) with _ | e4
  swap
  · simp [GetPrivateData, PutPrivateData, CreateCompositeKey, log, h1, hp, h2, h3, h4, v2,
      gene.Marshal, genePrivateDetails.Marshal, shim.Error, shim.Success, shim.OK,
      shim.ERROR] at hs
  rcases hk : createCompositeKey "gene~name" [x.Gene, x.Name] with e | k
  · simp [GetPrivateData, PutPrivateData, CreateCompositeKey, log, h1, hp, h2, h3, h4, v2,
      gene.Marshal, genePrivateDetails.Marshal, hk, shim.Error, shim.Success, shim.OK,
      shim.ERROR] at hs
  obtain ⟨hg, hn, rfl⟩ :=
    (createCompositeKey_ok_iff "gene~name" x.Gene x.Name k validAttribute_geneName).mp hk
  refine ⟨rfl, hg, hn, ?_, ?_, ?_⟩
  · rcases h5 : stub.fault (stub.trace.length + 5) with _ | e5 <;>
    simp [GetPrivateData, PutPrivateData, CreateCompositeKey, log, h1, hp, h2, h3, h4, h5, v2,
      gene.Marshal, genePrivateDetails.Marshal, hk, compositeKey_ne_empty, createCalls,
      publicDoc, restrictedDoc, gene.encode, genePrivateDetails.encode, markerValue]
  · intro h5
    simp [GetPrivateData, PutPrivateData, CreateCompositeKey, log, h1, hp, h2, h3, h4, h5, v2,
      gene.Marshal, genePrivateDetails.Marshal, hk, compositeKey_ne_empty, afterCreate,
      publicDoc, restrictedDoc, gene.encode, genePrivateDetails.encode, markerValue]
  · intro h5
    rcases h5' : stub.fault (stub.trace.length + 5) with _ | e5
    · exact absurd h5' h5
    simp [GetPrivateData, PutPrivateData, CreateCompositeKey, log, h1, hp, h2, h3, h4, h5', v2,
      gene.Marshal, genePrivateDetails.Marshal, hk, compositeKey_ne_empty,
      publicDoc, restrictedDoc, gene.encode, genePrivateDetails.encode, markerValue]

/-! ### Invocations that are refused, and those that succeed -/

theorem Error_ne_Success (msg : String) (p : Option String) : shim.Error msg ≠ shim.Success p := by
  simp [shim.Error, shim.Success, shim.OK, shim.ERROR]

/-- A refused `initGene` writes nothing. -/
theorem initGene_refused (stub : ChaincodeStub) (args : List String) (hf : stub.noFault)
    (h : createRefused stub args stub.transient) :
    (initGene stub args).2.pvt = stub.pvt ∧ (initGene stub args).2.fault = stub.fault := by
  by_cases ha : args = []
  swap
  · have : args.length ≠ 0 := fun h0 => ha (List.length_eq_zero.mp h0)
    simp [initGene, this]
  subst ha
  rcases h with h | h | ⟨data, ht, h | ⟨e, he⟩ | ⟨x, hx, h⟩⟩
  · exact absurd rfl h
  · simp [initGene, GetTransient_ok hf, h, log]
  · simp [initGene, GetTransient_ok hf, ht, h, len_eq_zero_iff, log]
  · by_cases hd : data = ""
    · simp [initGene, GetTransient_ok hf, ht, hd, len_eq_zero_iff, log]
    · simp [initGene, GetTransient_ok hf, ht, hd, len_eq_zero_iff, he, log]
  · by_cases hv : validInput x
    · rcases h with h | ⟨v, hv'⟩
      · exact absurd hv h
      · rw [initGene_exists stub data x v hf ht hx hv hv']
        exact ⟨rfl, rfl⟩
    · rw [(initGene_invalid stub data x hf ht hx hv).2.2]
      exact ⟨rfl, rfl⟩

/-- A refused `transferGene` writes nothing. -/
theorem transferGene_refused (stub : ChaincodeStub) (args : List String) (hf : stub.noFault)
    (h : transferRefused stub args stub.transient) :
    (transferGene stub args).2.pvt = stub.pvt ∧
      (transferGene stub args).2.fault = stub.fault := by
  by_cases ha : args = []
  swap
  · have : args.length ≠ 0 := fun h0 => ha (List.length_eq_zero.mp h0)
    simp [transferGene, this]
  subst ha
  rcases h with h | h | ⟨data, ht, h | ⟨e, he⟩ | ⟨g, n, hx, h⟩⟩
  · exact absurd rfl h
  · simp [transferGene, GetTransient_ok hf, h, log]
  · simp [transferGene, GetTransient_ok hf, ht, h, len_eq_zero_iff, log]
  · by_cases hd : data = ""
    · simp [transferGene, GetTransient_ok hf, ht, hd, len_eq_zero_iff, log]
    · simp [transferGene, GetTransient_ok hf, ht, hd, len_eq_zero_iff, he, log]
  · by_cases hg : g = ""
    · subst hg
      rw [transferGene_empty_gene stub data n hf ht hx]
      exact ⟨rfl, rfl⟩
    by_cases hn : n = ""
    · subst hn
      rw [transferGene_empty_name stub data g hf ht hx hg]
      exact ⟨rfl, rfl⟩
    rcases h with h | h | h
    · exact absurd h hg
    · exact absurd h hn
    · rw [transferGene_absent stub data g n hf ht hx hg hn h]
      exact ⟨rfl, rfl⟩

/-- A refused `delete` writes nothing. -/
theorem delete_refused (stub : ChaincodeStub) (args : List String) (hf : stub.noFault)
    (h : deleteRefused stub args stub.transient) :
    (delete stub args).2.pvt = stub.pvt ∧ (delete stub args).2.fault = stub.fault := by
  by_cases ha : args = []
  swap
  · have : args.length ≠ 0 := fun h0 => ha (List.length_eq_zero.mp h0)
    simp [delete, this]
  subst ha
  rcases h with h | h | ⟨data, ht, h | ⟨e, he⟩ | ⟨n, hx, h⟩⟩
  · exact absurd rfl h
  · simp [delete, GetTransient_ok hf, h, log]
  · simp [delete, GetTransient_ok hf, ht, h, len_eq_zero_iff, log]
  · by_cases hd : data = ""
    · simp [delete, GetTransient_ok hf, ht, hd, len_eq_zero_iff, log]
    · simp [delete, GetTransient_ok hf, ht, hd, len_eq_zero_iff, he, log]
  · by_cases hn : n = ""
    · subst hn
      rw [delete_empty_name stub data hf ht hx]
      exact ⟨rfl, rfl⟩
    rcases h with h | h
    · exact absurd h hn
    · rw [delete_absent stub data n hf ht hx hn h]
      exact ⟨rfl, rfl⟩

/-- A handler that answers with success was given no arguments. -/
theorem success_args (stub : ChaincodeStub) (args : List String) :
    ((initGene stub args).1 = shim.Success none → args = []) ∧
    ((transferGene stub args).1 = shim.Success none → args = []) ∧
    ((delete stub args).1 = shim.Success none → args = []) := by
  refine ⟨fun h => ?_, fun h => ?_, fun h => ?_⟩ <;>
  · by_contra ha
    have : args.length ≠ 0 := fun h0 => ha (List.length_eq_zero.mp h0)
    simp [initGene, transferGene, delete, this, Error_ne_Success] at h

/-- A `transferGene` that succeeds found the gene and decoded it, and wrote the
document with the new label under the name in the document. -/
theorem transferGene_success_inv (stub : ChaincodeStub) (hf : stub.noFault)
    (hs : (transferGene stub []).1 = shim.Success none) :
    ∃ (data g n v : String) (r : gene), stub.transient "gene_name" = some data ∧
      geneTransferTransientInput.Unmarshal data = Except.ok ⟨g, n⟩ ∧ g ≠ "" ∧ n ≠ "" ∧
      stub.pvt "collectionGenes" n = some v ∧ gene.Unmarshal v = Except.ok r ∧ r.Name ≠ "" ∧
      (transferGene stub []).2.pvt =
        put stub.pvt "collectionGenes" r.Name ({ r with Gene := g } : gene).encode ∧
      (transferGene stub []).2.fault = stub.fault := by
  have hf' : ∀ n, stub.fault n = none := hf
  rcases ht : stub.transient "gene_name" with _ | data
  · simp [transferGene, GetTransient_ok hf, ht, Error_ne_Success] at hs
  by_cases hdata : data = ""
  · simp [transferGene, GetTransient_ok hf, ht, hdata, len_eq_zero_iff, Error_ne_Success] at hs
  rcases hd : geneTransferTransientInput.Unmarshal data with e | ⟨g, n⟩
  · simp [transferGene, GetTransient_ok hf, ht, hdata, len_eq_zero_iff, hd,
      Error_ne_Success] at hs
  by_cases hg : g = ""
  · simp [transferGene, GetTransient_ok hf, ht, hdata, len_eq_zero_iff, hd, hg,
      Error_ne_Success] at hs
  by_cases hn : n = ""
  · simp [transferGene, GetTransient_ok hf, ht, hdata, len_eq_zero_iff, hd, hg, hn,
      Error_ne_Success] at hs
  rcases hp : stub.pvt "collectionGenes" n with _ | v
  · rw [transferGene_absent stub data g n hf ht hd hg hn hp] at hs
    exact absurd hs (Error_ne_Success _ _)
  rcases hu : gene.Unmarshal v with e | r
  · simp [transferGene, GetTransient_ok hf, ht, hdata, len_eq_zero_iff, hd, hg, hn,
      GetPrivateData_ok, noFault_log_iff, hf, log_pvt, hp, hu, Error_ne_Success] at hs
  by_cases hr : r.Name = ""
  · simp [transferGene, GetTransient_ok hf, ht, hdata, len_eq_zero_iff, hd, hg, hn,
      GetPrivateData_ok, noFault_log_iff, hf, log_pvt, hp, hu, PutPrivateData, hr,
      Error_ne_Success] at hs
  refine ⟨data, g, n, v, r, rfl, hd, hg, hn, hp, hu, hr, ?_⟩
  rw [transferGene_ok stub data g n v r hf ht hd hg hn hp hu hr]
  exact ⟨rfl, rfl⟩

/-- A `delete` that succeeds, from its response alone. -/
theorem delete_success_cases (stub : ChaincodeStub) (hf : stub.noFault)
    (hs : (delete stub []).1 = shim.Success none) :
    ∃ (n v : String) (g : gene) (a b : String), n ≠ "" ∧
      stub.pvt "collectionGenes" n = some v ∧ gene.Unmarshal v = Except.ok g ∧
      (delete stub []).2.pvt =
        del (del (del stub.pvt "collectionGenes" n) "collectionGenes"
          (compositeKey "color~name" a b)) "collectionGenesPrivateDetails" n ∧
      (delete stub []).2.fault = stub.fault := by
  rcases ht : stub.transient "gene_delete" with _ | data
  · simp [delete, GetTransient_ok hf, ht, Error_ne_Success] at hs
  by_cases hdata : data = ""
  · simp [delete, GetTransient_ok hf, ht, hdata, len_eq_zero_iff, Error_ne_Success] at hs
  rcases hd : geneDeleteTransientInput.Unmarshal data with e | ⟨⟨n⟩⟩
  · simp [delete, GetTransient_ok hf, ht, hdata, len_eq_zero_iff, hd, Error_ne_Success] at hs
  obtain ⟨hn, v, k, g, hp, hu, hk, he⟩ := delete_success_inv stub data n hf ht hd hs
  obtain ⟨-, -, rfl⟩ :=
    (createCompositeKey_ok_iff "color~name" g.Gene g.Name k validAttribute_colorName).mp hk
  refine ⟨n, v, g, g.Gene, g.Name, hn, hp, hu, ?_⟩
  rw [he]
  exact ⟨rfl, rfl⟩

theorem not_validAttribute_compositeKey (objectType a b : String) :
    ¬ validAttribute (compositeKey objectType a b) := by
  simp [validAttribute, validateCompositeKeyAttribute, compositeKey, String.singleton,
    minUnicodeRuneValue]

theorem gene_Unmarshal_markerValue :
    gene.Unmarshal markerValue = Except.error "invalid JSON input" := by rfl

theorem recordEntry_decodes (k v : String) (h : recordEntry k v) :
    ∃ g : gene, gene.Unmarshal v = Except.ok g ∧ g.Name = k := by
  obtain ⟨g, rfl, hn, h1, h2, -, -⟩ := h
  exact ⟨g, gene_Unmarshal_encode g h1 h2, hn⟩

theorem markerEntry_undecodable (k v : String) (g : gene) (h : markerEntry k v) :
    gene.Unmarshal v ≠ Except.ok g := by
  obtain ⟨rfl, -⟩ := h
  rw [gene_Unmarshal_markerValue]
  simp

theorem afterCreate_genes (pvt : String → String → Option String) (x : geneTransientInput)
    (k : String) :
    afterCreate pvt x "collectionGenes" k =
      if k = compositeKey "gene~name" x.Gene x.Name then some markerValue
      else if k = x.Name then some (publicDoc x).encode else pvt "collectionGenes" k := by
  have hm : markerValue ≠ "" := by decide
  simp [afterCreate, put, hm, gene_encode_ne_empty]

theorem afterCreate_restricted (pvt : String → String → Option String) (x : geneTransientInput)
    (k : String) :
    afterCreate pvt x "collectionGenesPrivateDetails" k =
      if k = x.Name then some (restrictedDoc x).encode
      else pvt "collectionGenesPrivateDetails" k := by
  simp [afterCreate, put, details_encode_ne_empty]

theorem paired_empty (pvt : String → String → Option String) (h : ∀ c k, pvt c k = none) :
    paired pvt := by
  refine ⟨fun k v hv => ?_, fun k v hv => ?_, fun k => ⟨?_, ?_⟩⟩
  · rw [h] at hv; cases hv
  · rw [h] at hv; cases hv
  · rintro ⟨v, hv, -⟩; rw [h] at hv; cases hv
  · rintro ⟨v, hv⟩; rw [h] at hv; cases hv

theorem paired_create (pvt : String → String → Option String) (x : geneTransientInput)
    (hp : paired pvt) (hn : validAttribute x.Name) (hne : x.Name ≠ "")
    (hi : int64 x.Id ∧ int64 x.Size ∧ int64 x.Age ∧ int64 x.Price) :
    paired (afterCreate pvt x) := by
  obtain ⟨p1, p2, p3⟩ := hp
  obtain ⟨i1, i2, i3, i4⟩ := hi
  have hck : x.Name ≠ compositeKey "gene~name" x.Gene x.Name :=
    (compositeKey_ne_attr "gene~name" x.Gene x.Name).symm
  have hrec : recordEntry x.Name (publicDoc x).encode :=
    ⟨publicDoc x, rfl, rfl, i1, i2, hn, hne⟩
  have hnodetail : ∀ v, pvt "collectionGenesPrivateDetails"
      (compositeKey "gene~name" x.Gene x.Name) ≠ some v := by
    intro v hv
    obtain ⟨w, -, ⟨g, -, -, -, -, hval, -⟩⟩ := (p3 _).mpr ⟨v, hv⟩
    exact not_validAttribute_compositeKey _ _ _ hval
  refine ⟨fun k v hv => ?_, fun k v hv => ?_, fun k => ?_⟩
  · rw [afterCreate_genes] at hv
    split_ifs at hv with h1 h2
    · cases hv
      exact Or.inr ⟨rfl, x.Gene, x.Name, h1⟩
    · cases hv
      subst h2
      exact Or.inl hrec
    · exact p1 k v hv
  · rw [afterCreate_restricted] at hv
    split_ifs at hv with h1
    · cases hv
      exact ⟨restrictedDoc x, rfl, h1.symm, i3, i4⟩
    · exact p2 k v hv
  · simp only [afterCreate_genes, afterCreate_restricted]
    by_cases h1 : k = compositeKey "gene~name" x.Gene x.Name
    · have h2 : k ≠ x.Name := by rw [h1]; exact hck.symm
      simp only [h1, ↓reduceIte, hck.symm]
      constructor
      · rintro ⟨v, hv, ⟨g, -, -, -, -, hval, -⟩⟩
        exact absurd hval (not_validAttribute_compositeKey _ _ _)
      · rintro ⟨v, hv⟩
        exact absurd hv (hnodetail v)
    · by_cases h2 : k = x.Name
      · subst h2
        simp only [h1, ↓reduceIte]
        exact ⟨fun _ => ⟨_, rfl⟩, fun _ => ⟨_, rfl, hrec⟩⟩
      · simp only [h1, h2, ↓reduceIte]
        exact p3 k

theorem paired_transfer (pvt : String → String → Option String) (n v label : String) (r : gene)
    (hp : paired pvt) (hv : pvt "collectionGenes" n = some v)
    (hu : gene.Unmarshal v = Except.ok r) :
    r.Name = n ∧
    paired (put pvt "collectionGenes" r.Name ({ r with Gene := label } : gene).encode) := by
  obtain ⟨p1, p2, p3⟩ := hp
  rcases p1 n v hv with hrec | hm
  swap
  · exact absurd hu (markerEntry_undecodable n v r hm)
  obtain ⟨g, rfl, hgn, i1, i2, hval, hne⟩ := hrec
  have hdec : gene.Unmarshal g.encode = Except.ok g := gene_Unmarshal_encode g i1 i2
  have hr : r = g := by
    rw [hdec] at hu
    exact (Except.ok.inj hu).symm
  rw [hr]
  clear hr hu
  refine ⟨hgn, ?_⟩
  subst hgn
  have hrec : recordEntry g.Name ({ g with Gene := label } : gene).encode :=
    ⟨{ g with Gene := label }, rfl, rfl, i1, i2, hval, hne⟩
  have hput : ∀ k, put pvt "collectionGenes" g.Name ({ g with Gene := label } : gene).encode
      "collectionGenes" k =
      if k = g.Name then some ({ g with Gene := label } : gene).encode
      else pvt "collectionGenes" k := by
    intro k
    simp [put, gene_encode_ne_empty]
  have hput2 : ∀ k, put pvt "collectionGenes" g.Name ({ g with Gene := label } : gene).encode
      "collectionGenesPrivateDetails" k = pvt "collectionGenesPrivateDetails" k := by
    intro k
    simp [put]
  refine ⟨fun k w hw => ?_, fun k w hw => ?_, fun k => ?_⟩
  · rw [hput] at hw
    split_ifs at hw with h1
    · cases hw
      subst h1
      exact Or.inl hrec
    · exact p1 k w hw
  · rw [hput2] at hw
    exact p2 k w hw
  · rw [hput, hput2]
    by_cases h1 : k = g.Name
    · subst h1
      simp only [↓reduceIte]
      exact ⟨fun _ => (p3 _).mp ⟨_, hv, g, rfl, rfl, i1, i2, hval, hne⟩,
        fun _ => ⟨_, rfl, hrec⟩⟩
    · simp only [h1, ↓reduceIte]
      exact p3 k

theorem paired_delete (pvt : String → String → Option String) (n a b : String)
    (hp : paired pvt) :
    paired (del (del (del pvt "collectionGenes" n) "collectionGenes"
      (compositeKey "color~name" a b)) "collectionGenesPrivateDetails" n) := by
  obtain ⟨p1, p2, p3⟩ := hp
  have hg : ∀ k, del (del (del pvt "collectionGenes" n) "collectionGenes"
      (compositeKey "color~name" a b)) "collectionGenesPrivateDetails" n "collectionGenes" k =
      if k = compositeKey "color~name" a b then none
      else if k = n then none else pvt "collectionGenes" k := by
    intro k
    simp [del]
  have hd : ∀ k, del (del (del pvt "collectionGenes" n) "collectionGenes"
      (compositeKey "color~name" a b)) "collectionGenesPrivateDetails" n
      "collectionGenesPrivateDetails" k =
      if k = n then none else pvt "collectionGenesPrivateDetails" k := by
    intro k
    simp [del]
  refine ⟨fun k w hw => ?_, fun k w hw => ?_, fun k => ?_⟩
  · rw [hg] at hw
    split_ifs at hw with h1 h2
    exact p1 k w hw
  · rw [hd] at hw
    split_ifs at hw with h1
    exact p2 k w hw
  · rw [hg, hd]
    by_cases h2 : k = n
    · simp [h2]
    by_cases h1 : k = compositeKey "color~name" a b
    · simp only [h1, ↓reduceIte, h2]
      constructor
      · rintro ⟨v, hv, -⟩
        cases hv
      · intro h
        rw [← h1] at h
        simp only [h2, ↓reduceIte] at h
        obtain ⟨w, -, ⟨g, -, -, -, -, hval, -⟩⟩ := (p3 k).mpr h
        rw [h1] at hval
        exact absurd hval (not_validAttribute_compositeKey _ _ _)
    · simp only [h1, h2, ↓reduceIte]
      exact p3 k

/-- On every reachable ledger no call fails, and the public and the restricted
documents are paired. -/
theorem Reachable_paired (s : ChaincodeStub) (h : Reachable s) : s.noFault ∧ paired s.pvt := by
  induction h with
  | empty s h0 hf => exact ⟨hf, paired_empty s.pvt h0⟩
  | byCreate s args t _ hstep ih =>
    obtain ⟨hf, hp⟩ := ih
    have hf' : (s.next ("initGene" :: args) t).noFault := hf
    rcases hstep with hs | hr
    · have ha := (success_args _ _).1 hs
      subst ha
      obtain ⟨data, x, ht, hd, hv, hfree, hg, hn, -, hpvt, -⟩ := initGene_success_inv _ hs
      have e := initGene_ok _ data x hf' ht hd hv hg hn hfree
      rw [e]
      exact ⟨hf, paired_create s.pvt x hp hn hv.2.1 (geneTransientInput_range data x hd)⟩
    · obtain ⟨e1, e2⟩ := initGene_refused _ args hf' hr
      refine ⟨fun n => ?_, ?_⟩
      · rw [e2]; exact hf n
      · rw [e1]; exact hp
  | byTransfer s args t _ hstep ih =>
    obtain ⟨hf, hp⟩ := ih
    have hf' : (s.next ("transferGene" :: args) t).noFault := hf
    rcases hstep with hs | hr
    · have ha := (success_args _ _).2.1 hs
      subst ha
      obtain ⟨data, g, n, v, r, -, -, -, -, hv, hu, -, e1, e2⟩ :=
        transferGene_success_inv _ hf' hs
      refine ⟨fun n => ?_, ?_⟩
      · rw [e2]; exact hf n
      · rw [e1]; exact (paired_transfer s.pvt n v g r hp hv hu).2
    · obtain ⟨e1, e2⟩ := transferGene_refused _ args hf' hr
      refine ⟨fun n => ?_, ?_⟩
      · rw [e2]; exact hf n
      · rw [e1]; exact hp
  | byDelete s args t _ hstep ih =>
    obtain ⟨hf, hp⟩ := ih
    have hf' : (s.next ("delete" :: args) t).noFault := hf
    rcases hstep with hs | hr
    · have ha := (success_args _ _).2.2 hs
      subst ha
      obtain ⟨n, v, g, a, b, -, -, -, e1, e2⟩ := delete_success_cases _ hf' hs
      refine ⟨fun n => ?_, ?_⟩
      · rw [e2]; exact hf n
      · rw [e1]; exact paired_delete s.pvt n a b hp
    · obtain ⟨e1, e2⟩ := delete_refused _ args hf' hr
      refine ⟨fun n => ?_, ?_⟩
      · rw [e2]; exact hf n
      · rw [e1]; exact hp

/-- The ledger of the scenario after the create, and after the delete that
follows it, are reachable. -/
theorem ron_reachable : Reachable ronLedger ∧ Reachable (delete ronDeleteStub []).2 := by
  have h1 : Reachable ronLedger :=
    Reachable.byCreate emptyLedger [] (transientOf "gene" ronPayload)
      (Reachable.empty emptyLedger (fun _ _ => rfl) (fun _ => rfl)) (Or.inl rfl)
  exact ⟨h1, Reachable.byDelete ronLedger [] (transientOf "gene_delete" ronDeletePayload) h1
    (Or.inl ronDelete_succeeds)⟩

/-! ### What the handlers leave as it is -/

theorem loop_pvt (results : List (Except String queryresult.KV)) (buffer : String)
    (written : Bool) (stub : ChaincodeStub) :
    (getGenesByRange.loop results buffer written stub).2.pvt = stub.pvt := by
  obtain ⟨calls, h, -⟩ := loop_trace results buffer written stub
  rw [h]

theorem readGene_pvt (stub : ChaincodeStub) (args : List String) :
    (readGene stub args).2.pvt = stub.pvt := by
  by_cases ha : args.length = 1
  · obtain ⟨name, rfl⟩ := List.length_eq_one.mp ha
    rcases hf : stub.fault stub.trace.length with _ | e
    · rcases hp : stub.pvt "collectionGenes" name with _ | v <;>
        simp [readGene, GetPrivateData, hf, hp, log]
    · simp [readGene, GetPrivateData, hf, log]
  · simp [readGene, ha]

theorem readGenePrivateDetails_pvt (stub : ChaincodeStub) (args : List String) :
    (readGenePrivateDetails stub args).2.pvt = stub.pvt := by
  by_cases ha : args.length = 1
  · obtain ⟨name, rfl⟩ := List.length_eq_one.mp ha
    rcases hf : stub.fault stub.trace.length with _ | e
    · rcases hp : stub.pvt "collectionGenesPrivateDetails" name with _ | v <;>
        simp [readGenePrivateDetails, GetPrivateData, hf, hp, log]
    · simp [readGenePrivateDetails, GetPrivateData, hf, log]
  · simp [readGenePrivateDetails, ha]

theorem getGenesByRange_pvt (stub : ChaincodeStub) (args : List String) :
    (getGenesByRange stub args).2.pvt = stub.pvt := by
  by_cases ha : args.length < 2
  · simp [getGenesByRange, ha]
  rcases hf : stub.fault stub.trace.length with _ | e
  · have h : (getGenesByRange.loop
        (stub.byRange "collectionGenes" (args.getD 0 "") (args.getD 1 "")) "[" false
        (stub.log (Call.GetPrivateDataByRange "collectionGenes" (args.getD 0 "")
          (args.getD 1 "")))).2.pvt = stub.pvt := loop_pvt _ _ _ _
    rcases hl : getGenesByRange.loop
      (stub.byRange "collectionGenes" (args.getD 0 "") (args.getD 1 "")) "[" false
      (stub.log (Call.GetPrivateDataByRange "collectionGenes" (args.getD 0 "")
        (args.getD 1 ""))) with ⟨r, t⟩
    rw [hl] at h
    simp only at h
    have hc : ¬ "collectionGenes" = "" := by decide
    simp only [getGenesByRange, GetPrivateDataByRange, ha, hf, hc, ↓reduceIte, hl]
    cases r <;> exact h
  · simp [getGenesByRange, GetPrivateDataByRange, ha, hf, log]

theorem getQueryResultForQueryString_pvt (stub : ChaincodeStub) (queryString : String) :
    (getQueryResultForQueryString stub queryString).2.pvt = stub.pvt := by
  rcases hf : stub.fault stub.trace.length with _ | e
  · have h : (getGenesByRange.loop (stub.byQuery "collectionGenes" queryString) "[" false
        (stub.log (Call.GetPrivateDataQueryResult "collectionGenes" queryString))).2.pvt =
        stub.pvt := loop_pvt _ _ _ _
    rcases hl : getGenesByRange.loop (stub.byQuery "collectionGenes" queryString) "[" false
      (stub.log (Call.GetPrivateDataQueryResult "collectionGenes" queryString)) with ⟨r, t⟩
    rw [hl] at h
    simp only at h
    have hc : ¬ "collectionGenes" = "" := by decide
    simp only [getQueryResultForQueryString, GetPrivateDataQueryResult, hf, hc, ↓reduceIte,
      ← loops_agree, hl]
    cases r <;> exact h
  · simp [getQueryResultForQueryString, GetPrivateDataQueryResult, hf, log]

theorem queryAgeingDrugs_pvt (stub : ChaincodeStub) (args : List String) :
    (queryAgeingDrugs stub args).2.pvt = stub.pvt := by
  by_cases ha : args.length < 1
  · simp [queryAgeingDrugs, ha]
  have h := getQueryResultForQueryString_pvt stub
    ("\x7b\"selector\":\x7b\"docType\":\"gene\",\"owner\":\"" ++ strings.ToLower (args.getD 0 "") ++
      "\"\x7d\x7d")
  rcases hq : getQueryResultForQueryString stub
    ("\x7b\"selector\":\x7b\"docType\":\"gene\",\"owner\":\"" ++ strings.ToLower (args.getD 0 "") ++
      "\"\x7d\x7d") with ⟨r, t⟩
  rw [hq] at h
  simp only at h
  simp only [queryAgeingDrugs, ha, ↓reduceIte, hq]
  cases r <;> exact h

theorem queryLongetivityMapByGene_pvt (stub : ChaincodeStub) (args : List String) :
    (queryLongetivityMapByGene stub args).2.pvt = stub.pvt := by
  by_cases ha : args.length < 1
  · simp [queryLongetivityMapByGene, ha]
  have h := getQueryResultForQueryString_pvt stub (args.getD 0 "")
  rcases hq : getQueryResultForQueryString stub (args.getD 0 "") with ⟨r, t⟩
  rw [hq] at h
  simp only at h
  simp only [queryLongetivityMapByGene, ha, ↓reduceIte, hq]
  cases r <;> exact h

/-- The entries that a successful `initGene` may have written. -/
theorem initGene_frame (stub : ChaincodeStub) (args : List String)
    (hs : (initGene stub args).1 = shim.Success none) :
    ∃ data x, args = [] ∧ stub.transient "gene" = some data ∧
      geneTransientInput.Unmarshal data = Except.ok x ∧
      ∀ c k, (initGene stub args).2.pvt c k ≠ stub.pvt c k →
        (c = "collectionGenes" ∧ k = x.Name) ∨
        (c = "collectionGenes" ∧ k = compositeKey "gene~name" x.Gene x.Name) ∨
        (c = "collectionGenesPrivateDetails" ∧ k = x.Name) := by
  have ha := (success_args stub args).1 hs
  subst ha
  obtain ⟨data, x, ht, hd, -, -, -, -, -, h1, h2⟩ := initGene_success_inv stub hs
  refine ⟨data, x, rfl, ht, hd, fun c k hne => ?_⟩
  by_contra hno
  simp only [not_or, not_and] at hno
  obtain ⟨n1, n2, n3⟩ := hno
  apply hne
  rcases hf : stub.fault (stub.trace.length + 5) with _ | e
  · rw [h1 hf]
    simp only [afterCreate, put]
    have a1 : ¬ (c = "collectionGenes" ∧ k = x.Name) := fun h => n1 h.1 h.2
    have a2 : ¬ (c = "collectionGenes" ∧ k = compositeKey "gene~name" x.Gene x.Name) :=
      fun h => n2 h.1 h.2
    have a3 : ¬ (c = "collectionGenesPrivateDetails" ∧ k = x.Name) := fun h => n3 h.1 h.2
    simp [a1, a2, a3]
  · rw [h2 (by rw [hf]; simp)]
    simp only [put]
    have a1 : ¬ (c = "collectionGenes" ∧ k = x.Name) := fun h => n1 h.1 h.2
    have a3 : ¬ (c = "collectionGenesPrivateDetails" ∧ k = x.Name) := fun h => n3 h.1 h.2
    simp [a1, a3]

/-- After an `initGene` that answers with success and whose write of the
index entry (its sixth call) does not fail, the input decoded to x:
collectionGenes, which holds the public document under x.Name, holds under the
composite key that `createCompositeKey` builds from "gene~name" and the
attributes [x.Gene, x.Name] (U+0000, the index name, U+0000, the gene label,
U+0000, the name, U+0000: label before name) the value `markerValue`, which is
the one character U+0000, one byte long, and so not the empty value that the
ledger takes for a deletion. -/
theorem marker_written (stub : ChaincodeStub)
    (hs : (initGene stub []).1 = shim.Success none)
    (hm : stub.fault (stub.trace.length + 5) = none) :
    ∃ data x, stub.transient "gene" = some data ∧
      geneTransientInput.Unmarshal data = Except.ok x ∧
      createCompositeKey "gene~name" [x.Gene, x.Name] =
        Except.ok (shim.compositeKey "gene~name" x.Gene x.Name) ∧
      shim.compositeKey "gene~name" x.Gene x.Name =
        "\x00gene~name\x00" ++ x.Gene ++ "\x00" ++ x.Name ++ "\x00" ∧
      (initGene stub []).2.pvt "collectionGenes" (shim.compositeKey "gene~name" x.Gene x.Name) =
        some markerValue ∧
      (initGene stub []).2.pvt "collectionGenes" x.Name = some (publicDoc x).encode ∧
      markerValue.data = [Char.ofNat 0] ∧ markerValue.utf8ByteSize = 1 ∧ markerValue ≠ "" := by
  obtain ⟨data, x, ht, hd, hv, -, hg, hn, -, hp, -⟩ := initGene_success_inv stub hs
  refine ⟨data, x, ht, hd, createCompositeKey_two "gene~name" x.Gene x.Name
    validAttribute_geneName hg hn, ?_, ?_, ?_, rfl, rfl, by decide⟩
  · simp only [shim.compositeKey, String.append_assoc]
    rfl
  · rw [hp hm]
    exact afterCreate_marker stub.pvt x
  · rw [hp hm]
    exact afterCreate_gene stub.pvt x

theorem marker_written_witness :
    ∃ data x, ronStub.transient "gene" = some data ∧
      geneTransientInput.Unmarshal data = Except.ok x ∧
      createCompositeKey "gene~name" [x.Gene, x.Name] =
        Except.ok (shim.compositeKey "gene~name" x.Gene x.Name) ∧
      shim.compositeKey "gene~name" x.Gene x.Name =
        "\x00gene~name\x00" ++ x.Gene ++ "\x00" ++ x.Name ++ "\x00" ∧
      (initGene ronStub []).2.pvt "collectionGenes"
          (shim.compositeKey "gene~name" x.Gene x.Name) =
        some markerValue ∧
      (initGene ronStub []).2.pvt "collectionGenes" x.Name = some (publicDoc x).encode ∧
      markerValue.data = [Char.ofNat 0] ∧ markerValue.utf8ByteSize = 1 ∧ markerValue ≠ "" :=
  marker_written ronStub rfl rfl

/-- The create of the input whose name ends in U+0000, on the empty ledger, is answered
with an error. -/
theorem nul_create_status :
    (initGene (emptyLedger.next ["initGene"] (transientOf "gene" nulPayload)) []).1.Status =
      shim.ERROR := by rfl

/-! ## The claims -/

open shim json strconv ChaincodeStub

/-- C1 (amended): a valid creation input whose gene label and name hold neither
U+0000 nor U+10FFFF, on a ledger with no gene under that name and no failing
call: `initGene` succeeds; `readGene` then returns the encoding of the public
document and `readGenePrivateDetails` that of the restricted document, and
these decode to the record with docType "gene" (resp. "genePrivateDetails")
and the input's fields. -/
theorem initGene_then_reads (stub : ChaincodeStub) (data : String) (x : geneTransientInput)
    (hf : stub.noFault) (ht : stub.transient "gene" = some data)
    (hd : geneTransientInput.Unmarshal data = Except.ok x) (hv : validInput x)
    (hg : validAttribute x.Gene) (hn : validAttribute x.Name)
    (hfree : stub.pvt "collectionGenes" x.Name = none) :
    (initGene stub []).1 = shim.Success none ∧
    (readGene ((initGene stub []).2.next ["readGene", x.Name] (fun _ => none)) [x.Name]).1 =
      shim.Success (some (publicDoc x).encode) ∧
    gene.Unmarshal (publicDoc x).encode = Except.ok
      { ObjectType := "gene", Id := x.Id, Name := x.Name, Population := x.Population,
        Gene := x.Gene, Size := x.Size } ∧
    (readGenePrivateDetails
        ((initGene stub []).2.next ["readGenePrivateDetails", x.Name] (fun _ => none))
        [x.Name]).1 = shim.Success (some (restrictedDoc x).encode) ∧
    genePrivateDetails.Unmarshal (restrictedDoc x).encode = Except.ok
      { ObjectType := "genePrivateDetails", Name := x.Name, Age := x.Age, Varient := x.Varient,
        Price := x.Price } := by
  obtain ⟨r1, r2, r3, r4⟩ := geneTransientInput_range data x hd
  rw [initGene_ok stub data x hf ht hd hv hg hn hfree]
  refine ⟨rfl, ?_, gene_Unmarshal_encode (publicDoc x) r1 r2, ?_,
    details_Unmarshal_encode (restrictedDoc x) r3 r4⟩
  · exact congrArg Prod.fst
      (readGene_present _ x.Name _ (by exact hf) (by exact afterCreate_gene stub.pvt x))
  · exact congrArg Prod.fst
      (readGenePrivateDetails_present _ x.Name _ (by exact hf)
        (by exact afterCreate_details stub.pvt x))

theorem initGene_then_reads_witness :
    (initGene ronStub []).1 = shim.Success none ∧
    (readGene ((initGene ronStub []).2.next ["readGene", "Ron"] (fun _ => none)) ["Ron"]).1 =
      shim.Success (some (publicDoc ronInput).encode) ∧
    gene.Unmarshal (publicDoc ronInput).encode = Except.ok
      { ObjectType := "gene", Id := 11, Name := "Ron", Population := "French",
        Gene := "ADRB2", Size := 5 } ∧
    (readGenePrivateDetails
        ((initGene ronStub []).2.next ["readGenePrivateDetails", "Ron"] (fun _ => none))
        ["Ron"]).1 = shim.Success (some (restrictedDoc ronInput).encode) ∧
    genePrivateDetails.Unmarshal (restrictedDoc ronInput).encode = Except.ok
      { ObjectType := "genePrivateDetails", Name := "Ron", Age := 40, Varient := "APOB",
        Price := 99 } :=
  initGene_then_reads ronStub ronPayload ronInput (fun _ => rfl) (by decide) (by rfl)
    (by unfold validInput; decide) (by unfold validAttribute; decide)
    (by unfold validAttribute; decide) (by rfl)

/-- C1 as stated fails: the input decoded from `nulPayload` satisfies the eight
field constraints and the ledger is empty, yet `initGene` returns an error,
because the composite key of the index cannot hold U+0000. -/
theorem initGene_rejects_nul_name :
    geneTransientInput.Unmarshal nulPayload = Except.ok nulInput ∧ validInput nulInput ∧
    emptyLedger.pvt "collectionGenes" nulInput.Name = none ∧
    (initGene (emptyLedger.next ["initGene"] (transientOf "gene" nulPayload)) []).1.Status =
      shim.ERROR := by
  refine ⟨by rfl, by unfold validInput; decide, rfl, by rfl⟩

/-- C2: in the concrete scenario `initGene` succeeds and the restricted
document is the one the claim gives, but the public document that `readGene`
returns has the key "Name" where the claim has "name": the tag of the field
`Name` of `gene` is written without quotes, so the encoder falls back on the
Go field name. -/
theorem ron_documents :
    (initGene ronStub []).1 = shim.Success none ∧
    (readGene (ronLedger.next ["readGene", "Ron"] (fun _ => none)) ["Ron"]).1 =
      shim.Success (some ("\x7b\"docType\":\"gene\",\"id\":11,\"Name\":\"Ron\"," ++
        "\"population\":\"French\",\"gene\":\"ADRB2\",\"size\":5\x7d")) ∧
    (readGenePrivateDetails (ronLedger.next ["readGenePrivateDetails", "Ron"] (fun _ => none))
        ["Ron"]).1 =
      shim.Success (some ("\x7b\"docType\":\"genePrivateDetails\",\"name\":\"Ron\"," ++
        "\"age\":40,\"varient\":\"APOB\",\"price\":99\x7d")) ∧
    json.fieldName "Name" "json:name" = "Name" ∧
    json.fieldName "Name" "json:\"name\"" = "name" := by
  refine ⟨by rfl, by rfl, by rfl, by rfl, by rfl⟩

/-- C3: a valid creation input whose name already has an entry in
collectionGenes (for instance the one written by an earlier `initGene`), no call
failing: `initGene` returns the error "This gene already exists: <name>" and
the private data of every collection is what it was. -/
theorem initGene_already_exists (stub : ChaincodeStub) (data : String) (x : geneTransientInput)
    (v : String) (hf : stub.noFault) (ht : stub.transient "gene" = some data)
    (hd : geneTransientInput.Unmarshal data = Except.ok x) (hv : validInput x)
    (hex : stub.pvt "collectionGenes" x.Name = some v) :
    (initGene stub []).1 = shim.Error ("This gene already exists: " ++ x.Name) ∧
    (initGene stub []).2.pvt = stub.pvt := by
  rw [initGene_exists stub data x v hf ht hd hv hex]
  exact ⟨rfl, rfl⟩

theorem initGene_already_exists_witness :
    (initGene (ronLedger.next ["initGene"] (transientOf "gene" ronAgainPayload)) []).1 =
      shim.Error ("This gene already exists: " ++ "Ron") ∧
    (initGene (ronLedger.next ["initGene"] (transientOf "gene" ronAgainPayload)) []).2.pvt =
      ronLedger.pvt :=
  initGene_already_exists (ronLedger.next ["initGene"] (transientOf "gene" ronAgainPayload))
    ronAgainPayload ronAgainInput (publicDoc ronInput).encode ronLedger_noFault (by rfl) (by rfl)
    (by unfold validInput; decide) ronLedger_gene

/-- C4: after a successful `delete` of a name (so a gene was stored under it),
no call failing: `readGene` of the name fails with "Gene does not exist", and a
second `delete` of the name fails with "Gene does not exist" and leaves the
private data of every collection as it was. -/
theorem delete_then_not_found (stub : ChaincodeStub) (data n : String) (hf : stub.noFault)
    (ht : stub.transient "gene_delete" = some data)
    (hd : geneDeleteTransientInput.Unmarshal data = Except.ok ⟨n⟩)
    (hs : (delete stub []).1 = shim.Success none) :
    (readGene ((delete stub []).2.next ["readGene", n] (fun _ => none)) [n]).1 =
      shim.Error ("\x7b\"Error\":\"Gene does not exist: " ++ n ++ "\"\x7d") ∧
    (delete ((delete stub []).2.next ["delete"] (transientOf "gene_delete" data)) []).1 =
      shim.Error ("Gene does not exist: " ++ n) ∧
    (delete ((delete stub []).2.next ["delete"] (transientOf "gene_delete" data)) []).2.pvt =
      (delete stub []).2.pvt := by
  obtain ⟨hn, v, k, g, -, -, -, heq⟩ := delete_success_inv stub data n hf ht hd hs
  rw [heq]
  constructor
  · exact congrArg Prod.fst (readGene_absent _ n (by exact hf) (by simp [next, del]))
  · rw [delete_absent _ data n (by exact hf) (by simp [next, transientOf]) hd hn
      (by simp [next, del])]
    exact ⟨rfl, rfl⟩

theorem delete_then_not_found_witness :
    (readGene ((delete ronDeleteStub []).2.next ["readGene", "Ron"] (fun _ => none)) ["Ron"]).1 =
      shim.Error ("\x7b\"Error\":\"Gene does not exist: " ++ "Ron" ++ "\"\x7d") ∧
    (delete ((delete ronDeleteStub []).2.next ["delete"]
        (transientOf "gene_delete" ronDeletePayload)) []).1 =
      shim.Error ("Gene does not exist: " ++ "Ron") ∧
    (delete ((delete ronDeleteStub []).2.next ["delete"]
        (transientOf "gene_delete" ronDeletePayload)) []).2.pvt =
      (delete ronDeleteStub []).2.pvt :=
  delete_then_not_found ronDeleteStub ronDeletePayload "Ron" ronLedger_noFault (by rfl)
    ronDelete_decodes ronDelete_succeeds

/-- C5: a gene stored under name `n` as `initGene` (or an earlier transfer)
wrote it, a transfer input with that name and a non-empty new label `g`, no
call failing: `transferGene` succeeds; the document then stored under `n`
decodes to the former record with `Gene` set to `g` and every other field as
before; every entry of collectionGenesPrivateDetails is as before, and so is
what `readGenePrivateDetails` returns for every name. -/
theorem transferGene_changes_gene_only (stub : ChaincodeStub) (data g n : String) (r : gene)
    (hf : stub.noFault) (ht : stub.transient "gene_name" = some data)
    (hd : geneTransferTransientInput.Unmarshal data = Except.ok ⟨g, n⟩) (hg : g ≠ "")
    (hn : n ≠ "") (hp : stub.pvt "collectionGenes" n = some r.encode) (hname : r.Name = n)
    (hid : int64 r.Id) (hsize : int64 r.Size) :
    (transferGene stub []).1 = shim.Success none ∧
    (∃ b, (transferGene stub []).2.pvt "collectionGenes" n = some b ∧
      gene.Unmarshal b = Except.ok
        { ObjectType := r.ObjectType, Id := r.Id, Name := r.Name, Population := r.Population,
          Gene := g, Size := r.Size }) ∧
    (∀ k, (transferGene stub []).2.pvt "collectionGenesPrivateDetails" k =
      stub.pvt "collectionGenesPrivateDetails" k) ∧
    (∀ k, (readGenePrivateDetails
        ((transferGene stub []).2.next ["readGenePrivateDetails", k] (fun _ => none)) [k]).1 =
      (readGenePrivateDetails (stub.next ["readGenePrivateDetails", k] (fun _ => none)) [k]).1)
    := by
  have hu := gene_Unmarshal_encode r hid hsize
  rw [transferGene_ok stub data g n r.encode r hf ht hd hg hn hp hu (by rw [hname]; exact hn)]
  refine ⟨rfl, ⟨_, ?_, gene_Unmarshal_encode ({ r with Gene := g } : gene) hid hsize⟩, ?_, ?_⟩
  · simp [put, hname, gene_encode_ne_empty, gene.encode, encodeObject_ne_empty]
  · intro k
    simp [put]
  · intro k
    have hf' : ∀ n, stub.fault n = none := hf
    rcases h : stub.pvt "collectionGenesPrivateDetails" k with _ | v <;>
      simp [readGenePrivateDetails, GetPrivateData_ok, noFault_next_iff, noFault_mk_iff, hf, hf',
        next, log, put, h]

theorem transferGene_changes_gene_only_witness :
    (transferGene ronTransferStub []).1 = shim.Success none ∧
    (∃ b, (transferGene ronTransferStub []).2.pvt "collectionGenes" "Ron" = some b ∧
      gene.Unmarshal b = Except.ok
        { ObjectType := "gene", Id := 11, Name := "Ron", Population := "French",
          Gene := "TP53", Size := 5 }) ∧
    (∀ k, (transferGene ronTransferStub []).2.pvt "collectionGenesPrivateDetails" k =
      ronTransferStub.pvt "collectionGenesPrivateDetails" k) ∧
    (∀ k, (readGenePrivateDetails
        ((transferGene ronTransferStub []).2.next ["readGenePrivateDetails", k] (fun _ => none))
        [k]).1 =
      (readGenePrivateDetails
        (ronTransferStub.next ["readGenePrivateDetails", k] (fun _ => none)) [k]).1) :=
  transferGene_changes_gene_only ronTransferStub ronTransferPayload "TP53" "Ron"
    (publicDoc ronInput) ronLedger_noFault (by rfl) (by rfl) (by decide) (by decide)
    ronLedger_gene rfl ron_int64.1 ron_int64.2

/-- C6: in the scenario, `delete` of the created gene succeeds and removes its
document, but the index entry that `initGene` wrote under the composite key of
"gene~name" is still in collectionGenes: `delete` builds its key from
"color~name", a different key. -/
theorem ron_marker_survives_delete :
    (invokeInitGene emptyLedger ronPayload).1 = shim.Success none ∧
    (invokeDelete (invokeInitGene emptyLedger ronPayload).2 ronDeletePayload).1 =
      shim.Success none ∧
    (invokeDelete (invokeInitGene emptyLedger ronPayload).2 ronDeletePayload).2.pvt
      "collectionGenes" "Ron" = none ∧
    createCompositeKey "gene~name" ["ADRB2", "Ron"] =
      Except.ok (compositeKey "gene~name" "ADRB2" "Ron") ∧
    (invokeDelete (invokeInitGene emptyLedger ronPayload).2 ronDeletePayload).2.pvt
      "collectionGenes" (compositeKey "gene~name" "ADRB2" "Ron") = some markerValue ∧
    createCompositeKey "color~name" ["ADRB2", "Ron"] ≠
      createCompositeKey "gene~name" ["ADRB2", "Ron"] := by
  have hc := invokeInitGene_ok emptyLedger ronPayload ronInput (fun _ => rfl) ronPayload_decodes
    validInput_ron validAttribute_of_literal_ADRB2 validAttribute_Ron rfl
  obtain ⟨d1, -, d3⟩ := invokeDelete_created (invokeInitGene emptyLedger ronPayload).2
    ronDeletePayload ronInput ronPayload emptyLedger.pvt ronLedger_noFault ronDelete_decodes
    ronPayload_decodes validInput_ron validAttribute_of_literal_ADRB2 validAttribute_Ron
    ronLedger_pvt
  refine ⟨by rw [hc], d1, ?_, ?_, ?_, ?_⟩
  · rw [d3]; simp [del, ronInput]
  · exact createCompositeKey_two _ _ _ validAttribute_geneName validAttribute_of_literal_ADRB2
      validAttribute_Ron
  · rw [d3]; exact marker_survives_delete emptyLedger.pvt ronInput
  · rw [createCompositeKey_two _ _ _ validAttribute_geneName validAttribute_of_literal_ADRB2
      validAttribute_Ron, createCompositeKey_two _ _ _ validAttribute_colorName
      validAttribute_of_literal_ADRB2 validAttribute_Ron]
    intro h
    exact compositeKey_ne_of_length "color~name" "gene~name" "ADRB2" "Ron" (by decide)
      (Except.ok.inj h)

/-- C7: in the scenario, after `transferGene` gives the created gene the label
TP53, the document under "Ron" has gene TP53, but the index entry of
(ADRB2, Ron) is still in collectionGenes and there is none for (TP53, Ron):
`transferGene` writes the document only. -/
theorem ron_marker_stale_after_transfer :
    (invokeInitGene emptyLedger ronPayload).1 = shim.Success none ∧
    (invokeTransferGene (invokeInitGene emptyLedger ronPayload).2 ronTransferPayload).1 =
      shim.Success none ∧
    (∃ b, (invokeTransferGene (invokeInitGene emptyLedger ronPayload).2 ronTransferPayload).2.pvt
        "collectionGenes" "Ron" = some b ∧
      gene.Unmarshal b = Except.ok
        { ObjectType := "gene", Id := 11, Name := "Ron", Population := "French",
          Gene := "TP53", Size := 5 }) ∧
    (invokeTransferGene (invokeInitGene emptyLedger ronPayload).2 ronTransferPayload).2.pvt
      "collectionGenes" (compositeKey "gene~name" "ADRB2" "Ron") = some markerValue ∧
    (invokeTransferGene (invokeInitGene emptyLedger ronPayload).2 ronTransferPayload).2.pvt
      "collectionGenes" (compositeKey "gene~name" "TP53" "Ron") = none := by
  have hc := invokeInitGene_ok emptyLedger ronPayload ronInput (fun _ => rfl) ronPayload_decodes
    validInput_ron validAttribute_of_literal_ADRB2 validAttribute_Ron rfl
  have ht := transferGene_ok ronTransferStub ronTransferPayload "TP53" "Ron"
    (publicDoc ronInput).encode (publicDoc ronInput) ronLedger_noFault (by rfl)
    ronTransfer_decodes (by decide) (by decide) ronLedger_gene
    (gene_Unmarshal_encode (publicDoc ronInput) ron_int64.1 ron_int64.2) (by decide)
  have hk1 : compositeKey "gene~name" "ADRB2" "Ron" ≠ "Ron" := by decide
  have hk2 : compositeKey "gene~name" "TP53" "Ron" ≠ "Ron" := by decide
  have hk3 : compositeKey "gene~name" "TP53" "Ron" ≠ compositeKey "gene~name" "ADRB2" "Ron" := by
    decide
  have e : invokeTransferGene (invokeInitGene emptyLedger ronPayload).2 ronTransferPayload =
      transferGene ronTransferStub [] := rfl
  rw [e, ht]
  refine ⟨by rw [hc], rfl, ⟨_, ?_, gene_Unmarshal_encode
    ({ publicDoc ronInput with Gene := "TP53" } : gene) ron_int64.1 ron_int64.2⟩, ?_, ?_⟩
  · simp [put, publicDoc, ronInput, gene.encode, encodeObject_ne_empty]
  · have := afterCreate_marker emptyLedger.pvt ronInput
    simp only [put, publicDoc, ronInput] at this ⊢
    simp [hk1, next_pvt, ronLedger_pvt, ronTransferStub]
    exact this
  · simp [put, publicDoc, ronInput, hk2, ronTransferStub, next_pvt, ronLedger_pvt, afterCreate,
      hk3, emptyLedger]

/-- C8 (amended): two valid creation inputs with the same name `n`, whose gene
labels and name hold neither U+0000 nor U+10FFFF, a ledger with no gene under
`n`, no call failing: create of the first, delete of `n` and create of the
second all succeed, and afterwards `readGene` and `readGenePrivateDetails` of
`n` return the documents of the second input. -/
theorem create_delete_create (ledger : ChaincodeStub) (d1 d2 dd : String)
    (x1 x2 : geneTransientInput) (hf : ledger.noFault)
    (h1 : geneTransientInput.Unmarshal d1 = Except.ok x1)
    (h2 : geneTransientInput.Unmarshal d2 = Except.ok x2)
    (hdd : geneDeleteTransientInput.Unmarshal dd = Except.ok ⟨x1.Name⟩)
    (hv1 : validInput x1) (hv2 : validInput x2) (hsame : x2.Name = x1.Name)
    (hg1 : validAttribute x1.Gene) (hn : validAttribute x1.Name) (hg2 : validAttribute x2.Gene)
    (hfree : ledger.pvt "collectionGenes" x1.Name = none) :
    (invokeInitGene ledger d1).1 = shim.Success none ∧
    (invokeDelete (invokeInitGene ledger d1).2 dd).1 = shim.Success none ∧
    (invokeInitGene (invokeDelete (invokeInitGene ledger d1).2 dd).2 d2).1 =
      shim.Success none ∧
    (invokeReadGene (invokeInitGene (invokeDelete (invokeInitGene ledger d1).2 dd).2 d2).2
      x1.Name).1 = shim.Success (some (publicDoc x2).encode) ∧
    gene.Unmarshal (publicDoc x2).encode = Except.ok
      { ObjectType := "gene", Id := x2.Id, Name := x2.Name, Population := x2.Population,
        Gene := x2.Gene, Size := x2.Size } ∧
    (invokeReadGenePrivateDetails
      (invokeInitGene (invokeDelete (invokeInitGene ledger d1).2 dd).2 d2).2 x1.Name).1 =
      shim.Success (some (restrictedDoc x2).encode) ∧
    genePrivateDetails.Unmarshal (restrictedDoc x2).encode = Except.ok
      { ObjectType := "genePrivateDetails", Name := x2.Name, Age := x2.Age,
        Varient := x2.Varient, Price := x2.Price } := by
  obtain ⟨r1, r2, r3, r4⟩ := geneTransientInput_range d2 x2 h2
  obtain ⟨a1, a2, a3⟩ := invokeInitGene_pvt ledger d1 x1 hf h1 hv1 hg1 hn hfree
  obtain ⟨b1, b2, b3⟩ := invokeDelete_created (invokeInitGene ledger d1).2 dd x1 d1 ledger.pvt
    a2 hdd h1 hv1 hg1 hn a3
  have hfree2 : (invokeDelete (invokeInitGene ledger d1).2 dd).2.pvt "collectionGenes" x2.Name =
      none := by
    rw [b3, hsame]; simp [del]
  obtain ⟨c1, c2, c3⟩ := invokeInitGene_pvt (invokeDelete (invokeInitGene ledger d1).2 dd).2 d2 x2
    b2 h2 hv2 hg2 (hsame ▸ hn) hfree2
  refine ⟨a1, b1, c1, ?_, gene_Unmarshal_encode (publicDoc x2) r1 r2, ?_,
    details_Unmarshal_encode (restrictedDoc x2) r3 r4⟩
  · exact invokeReadGene_present _ _ _ c2 (by rw [c3, ← hsame]; exact afterCreate_gene _ x2)
  · exact invokeReadGenePrivateDetails_present _ _ _ c2
      (by rw [c3, ← hsame]; exact afterCreate_details _ x2)

theorem create_delete_create_witness :
    (invokeInitGene emptyLedger ronPayload).1 = shim.Success none ∧
    (invokeDelete (invokeInitGene emptyLedger ronPayload).2 ronDeletePayload).1 =
      shim.Success none ∧
    (invokeInitGene (invokeDelete (invokeInitGene emptyLedger ronPayload).2
      ronDeletePayload).2 ronAgainPayload).1 = shim.Success none ∧
    (invokeReadGene (invokeInitGene (invokeDelete (invokeInitGene emptyLedger ronPayload).2
      ronDeletePayload).2 ronAgainPayload).2 "Ron").1 =
      shim.Success (some (publicDoc ronAgainInput).encode) ∧
    gene.Unmarshal (publicDoc ronAgainInput).encode = Except.ok
      { ObjectType := "gene", Id := 12, Name := "Ron", Population := "Dutch",
        Gene := "TP53", Size := 7 } ∧
    (invokeReadGenePrivateDetails
      (invokeInitGene (invokeDelete (invokeInitGene emptyLedger ronPayload).2
        ronDeletePayload).2 ronAgainPayload).2 "Ron").1 =
      shim.Success (some (restrictedDoc ronAgainInput).encode) ∧
    genePrivateDetails.Unmarshal (restrictedDoc ronAgainInput).encode = Except.ok
      { ObjectType := "genePrivateDetails", Name := "Ron", Age := 41,
        Varient := "LDLR", Price := 120 } :=
  create_delete_create emptyLedger ronPayload ronAgainPayload ronDeletePayload ronInput
    ronAgainInput (fun _ => rfl) ronPayload_decodes ronAgainPayload_decodes ronDelete_decodes
    validInput_ron validInput_ronAgain rfl validAttribute_of_literal_ADRB2 validAttribute_Ron
    (by unfold validAttribute; decide) rfl

/-- C8 as stated fails: both inputs are valid and have the name "Ron", the
ledger is empty, create and delete succeed, but the second create returns an
error: its gene label ends in U+0000, which the composite key cannot hold. -/
theorem recreate_rejects_nul_gene :
    geneTransientInput.Unmarshal ronPayload = Except.ok ronInput ∧
    geneTransientInput.Unmarshal ronNulGenePayload = Except.ok ronNulGeneInput ∧
    validInput ronInput ∧ validInput ronNulGeneInput ∧
    ronNulGeneInput.Name = ronInput.Name ∧
    emptyLedger.pvt "collectionGenes" ronInput.Name = none ∧
    (invokeInitGene emptyLedger ronPayload).1 = shim.Success none ∧
    (invokeDelete (invokeInitGene emptyLedger ronPayload).2 ronDeletePayload).1 =
      shim.Success none ∧
    (invokeInitGene (invokeDelete (invokeInitGene emptyLedger ronPayload).2
      ronDeletePayload).2 ronNulGenePayload).1.Status = shim.ERROR := by
  have hdec : geneTransientInput.Unmarshal ronNulGenePayload = Except.ok ronNulGeneInput := by
    rfl
  have hval : validInput ronNulGeneInput := by unfold validInput; decide
  obtain ⟨a1, a2, a3⟩ := invokeInitGene_pvt emptyLedger ronPayload ronInput (fun _ => rfl)
    ronPayload_decodes validInput_ron validAttribute_of_literal_ADRB2 validAttribute_Ron rfl
  obtain ⟨b1, b2, b3⟩ := invokeDelete_created (invokeInitGene emptyLedger ronPayload).2
    ronDeletePayload ronInput ronPayload emptyLedger.pvt a2 ronDelete_decodes ronPayload_decodes
    validInput_ron validAttribute_of_literal_ADRB2 validAttribute_Ron a3
  refine ⟨ronPayload_decodes, hdec, validInput_ron, hval, rfl, rfl, a1, b1, ?_⟩
  obtain ⟨e, he⟩ : ∃ e, createCompositeKey "gene~name" [ronNulGeneInput.Gene,
      ronNulGeneInput.Name] = Except.error e := ⟨_, rfl⟩
  rw [invokeInitGene_bad_key _ ronNulGenePayload e ronNulGeneInput b2 hdec hval
    (by rw [b3]; simp [del, ronNulGeneInput, ronInput]) he]
  rfl

/-- C9: when the transient map has no key "gene", or an empty payload under it,
or a payload that does not decode as the creation input, `initGene` returns an
error response, and its only call on the stub is `GetTransient`: no
collection is read or written and the private data is as before. When
`GetTransient` itself does not fail, the message is the one of the case. -/
theorem initGene_bad_transient (stub : ChaincodeStub)
    (h : stub.transient "gene" = none ∨ stub.transient "gene" = some "" ∨
      ∃ data e, stub.transient "gene" = some data ∧
        geneTransientInput.Unmarshal data = Except.error e) :
    (initGene stub []).1.Status = shim.ERROR ∧
    (initGene stub []).2 = stub.log Call.GetTransient ∧
    (initGene stub []).2.pvt = stub.pvt ∧
    (stub.fault stub.trace.length = none →
      (stub.transient "gene" = none →
        (initGene stub []).1 = shim.Error "gene must be a key in the transient map") ∧
      (stub.transient "gene" = some "" →
        (initGene stub []).1 =
          shim.Error "gene value in the transient map must be a non-empty JSON string") ∧
      (∀ data e, data ≠ "" → stub.transient "gene" = some data →
        geneTransientInput.Unmarshal data = Except.error e →
        (initGene stub []).1 = shim.Error ("Failed to decode JSON of: " ++ data))) := by
  rcases hfault : stub.fault stub.trace.length with _ | err
  · have hT : stub.GetTransient = (Except.ok stub.transient, stub.log Call.GetTransient) := by
      simp [GetTransient, hfault]
    have key : (initGene stub []).1.Status = shim.ERROR ∧
        (initGene stub []).2 = stub.log Call.GetTransient := by
      rcases h with h | h | ⟨data, e, h, hu⟩
      · simp [initGene, hT, h, shim.Error]
      · simp [initGene, hT, h, len_eq_zero_iff, shim.Error]
      · by_cases hdata : data = ""
        · simp [initGene, hT, h, len_eq_zero_iff, hdata, shim.Error]
        · simp [initGene, hT, h, len_eq_zero_iff, hdata, hu, shim.Error]
    refine ⟨key.1, key.2, by rw [key.2]; rfl, fun _ => ⟨?_, ?_, ?_⟩⟩
    · intro h0; simp [initGene, hT, h0]
    · intro h0; simp [initGene, hT, h0, len_eq_zero_iff]
    · intro data e hdata h0 hu
      simp [initGene, hT, h0, len_eq_zero_iff, hdata, hu]
  · have hT : stub.GetTransient = (Except.error err, stub.log Call.GetTransient) := by
      simp [GetTransient, hfault]
    have key : (initGene stub []).1.Status = shim.ERROR ∧
        (initGene stub []).2 = stub.log Call.GetTransient := by
      simp [initGene, hT, shim.Error]
    exact ⟨key.1, key.2, by rw [key.2]; rfl, fun hc => by simp at hc⟩

theorem initGene_bad_transient_witness :
    (initGene emptyLedger []).1.Status = shim.ERROR ∧
    (initGene emptyLedger []).2 = emptyLedger.log Call.GetTransient ∧
    (initGene emptyLedger []).2.pvt = emptyLedger.pvt ∧
    (emptyLedger.fault emptyLedger.trace.length = none →
      (emptyLedger.transient "gene" = none →
        (initGene emptyLedger []).1 = shim.Error "gene must be a key in the transient map") ∧
      (emptyLedger.transient "gene" = some "" →
        (initGene emptyLedger []).1 =
          shim.Error "gene value in the transient map must be a non-empty JSON string") ∧
      (∀ data e, data ≠ "" → emptyLedger.transient "gene" = some data →
        geneTransientInput.Unmarshal data = Except.error e →
        (initGene emptyLedger []).1 = shim.Error ("Failed to decode JSON of: " ++ data))) :=
  initGene_bad_transient emptyLedger (Or.inl rfl)

/-- C10 (amended): a decoded creation input, a ledger with no gene under its
name, no call on the stub failing: `initGene` succeeds exactly when the eight
field constraints hold and neither the gene label nor the name contains U+0000
or U+10FFFF, the characters a composite key cannot hold; so for a label and a
name without these characters it succeeds exactly when the eight constraints
hold. When a constraint is violated it returns an error with the message of a
field check and the private data is as before. -/
theorem initGene_succeeds_iff_valid (stub : ChaincodeStub) (data : String)
    (x : geneTransientInput) (hf : stub.noFault) (ht : stub.transient "gene" = some data)
    (hd : geneTransientInput.Unmarshal data = Except.ok x)
    (hfree : stub.pvt "collectionGenes" x.Name = none) :
    ((initGene stub []).1 = shim.Success none ↔
      validInput x ∧ shim.validAttribute x.Gene ∧ shim.validAttribute x.Name) ∧
    (shim.validAttribute x.Gene → shim.validAttribute x.Name →
      ((initGene stub []).1 = shim.Success none ↔ validInput x)) ∧
    (¬ validInput x →
      (initGene stub []).1.Status = shim.ERROR ∧
      (initGene stub []).1.Message ∈
        ["id field must be a positive integer", "name field must be a non-empty string",
         "population field must be a non-empty string",
         "gene field must be a non-empty string", "size field must be a positive integer",
         "Age field must be a positive integer", "varient field must be a non-empty string",
         "Price field must be a positive integer"] ∧
      (initGene stub []).2.pvt = stub.pvt) := by
  have key : (initGene stub []).1 = shim.Success none ↔
      validInput x ∧ shim.validAttribute x.Gene ∧ shim.validAttribute x.Name := by
    constructor
    · intro hs
      obtain ⟨data2, x2, ht2, hd2, hv, -, hg, hn, -⟩ := initGene_success_inv stub hs
      rw [ht] at ht2
      cases ht2
      rw [hd] at hd2
      cases hd2
      exact ⟨hv, hg, hn⟩
    · rintro ⟨hv, hg, hn⟩
      rw [initGene_ok stub data x hf ht hd hv hg hn hfree]
  refine ⟨key, fun hg hn => ?_, fun hv => ?_⟩
  · rw [key]
    exact ⟨fun h => h.1, fun h => ⟨h, hg, hn⟩⟩
  · obtain ⟨a, b, c⟩ := initGene_invalid stub data x hf ht hd hv
    exact ⟨a, b, by rw [c]; rfl⟩

theorem initGene_succeeds_iff_valid_witness :
    ((initGene ronStub []).1 = shim.Success none ↔
      validInput ronInput ∧ shim.validAttribute ronInput.Gene ∧
        shim.validAttribute ronInput.Name) ∧
    (shim.validAttribute ronInput.Gene → shim.validAttribute ronInput.Name →
      ((initGene ronStub []).1 = shim.Success none ↔ validInput ronInput)) ∧
    (¬ validInput ronInput →
      (initGene ronStub []).1.Status = shim.ERROR ∧
      (initGene ronStub []).1.Message ∈
        ["id field must be a positive integer", "name field must be a non-empty string",
         "population field must be a non-empty string",
         "gene field must be a non-empty string", "size field must be a positive integer",
         "Age field must be a positive integer", "varient field must be a non-empty string",
         "Price field must be a positive integer"] ∧
      (initGene ronStub []).2.pvt = ronStub.pvt) :=
  initGene_succeeds_iff_valid ronStub ronPayload ronInput (fun _ => rfl) (by rfl)
    ronPayload_decodes (by rfl)

/-- C10 as stated fails: on the empty ledger, on which no call fails and which
has nothing under the name, the input decoded from `nulPayload` satisfies the
eight field constraints, and `initGene` does not succeed: it answers with the
error of the composite key, whose attribute ends in U+0000. So success is not
equivalent to the eight constraints. -/
theorem valid_input_refused :
    (emptyLedger.next ["initGene"] (transientOf "gene" nulPayload)).noFault ∧
    (emptyLedger.next ["initGene"] (transientOf "gene" nulPayload)).transient "gene" =
      some nulPayload ∧
    geneTransientInput.Unmarshal nulPayload = Except.ok nulInput ∧
    (emptyLedger.next ["initGene"] (transientOf "gene" nulPayload)).pvt "collectionGenes"
      nulInput.Name = none ∧
    validInput nulInput ∧
    (initGene (emptyLedger.next ["initGene"] (transientOf "gene" nulPayload)) []).1 ≠
      shim.Success none ∧
    ¬ ((initGene (emptyLedger.next ["initGene"] (transientOf "gene" nulPayload)) []).1 =
      shim.Success none ↔ validInput nulInput) := by
  have hv : validInput nulInput := by unfold validInput; decide
  have hne : (initGene (emptyLedger.next ["initGene"] (transientOf "gene" nulPayload)) []).1 ≠
      shim.Success none := by
    intro h
    have hs := nul_create_status
    rw [h] at hs
    exact absurd hs (by decide)
  exact ⟨fun _ => rfl, rfl, by rfl, rfl, hv, hne, fun h => hne (h.mpr hv)⟩

/-- C11 (amended): for every sequence of cursor results (key k_i, record bytes
v_i), none failing, the payload of `getGenesByRange` and the bytes of
`getQueryResultForQueryString` are "[" followed by the objects
`{"Key":"k_i", "Record":v_i}` (a comma and a space before "Record", k_i and v_i
written as they are) separated by single commas, followed by "]". -/
theorem query_response_bytes (stub : ChaincodeStub) (startKey endKey queryString : String)
    (more : List String) (kvs : List queryresult.KV)
    (hf : stub.fault stub.trace.length = none)
    (hr : stub.byRange "collectionGenes" startKey endKey = cursorOf kvs)
    (hq : stub.byQuery "collectionGenes" queryString = cursorOf kvs) :
    (getGenesByRange stub (startKey :: endKey :: more)).1 =
      shim.Success (some ("[" ++ String.intercalate ","
        (kvs.map (fun kv => "\x7b\"Key\":\"" ++ kv.Key ++ "\", \"Record\":" ++ kv.Value ++ "\x7d"))
        ++ "]")) ∧
    (getQueryResultForQueryString stub queryString).1 =
      Except.ok ("[" ++ String.intercalate ","
        (kvs.map (fun kv => "\x7b\"Key\":\"" ++ kv.Key ++ "\", \"Record\":" ++ kv.Value ++ "\x7d"))
        ++ "]") := by
  have e : (fun kv : queryresult.KV =>
      "\x7b\"Key\":\"" ++ kv.Key ++ "\", \"Record\":" ++ kv.Value ++ "\x7d") = arrayMember := by
    funext kv; exact (arrayMember_eq kv).symm
  rw [e, getGenesByRange_ok stub startKey endKey more kvs hf hr,
    getQueryResultForQueryString_ok stub queryString kvs hf hq]
  exact ⟨rfl, rfl⟩

theorem query_response_bytes_witness :
    (getGenesByRange queryStub ("a" :: "z" :: [])).1 =
      shim.Success (some ("[" ++ String.intercalate ","
        (twoResults.map
          (fun kv => "\x7b\"Key\":\"" ++ kv.Key ++ "\", \"Record\":" ++ kv.Value ++ "\x7d"))
        ++ "]")) ∧
    (getQueryResultForQueryString queryStub "\x7b\"selector\":\x7b\x7d\x7d").1 =
      Except.ok ("[" ++ String.intercalate ","
        (twoResults.map
          (fun kv => "\x7b\"Key\":\"" ++ kv.Key ++ "\", \"Record\":" ++ kv.Value ++ "\x7d"))
        ++ "]") :=
  query_response_bytes queryStub "a" "z" "\x7b\"selector\":\x7b\x7d\x7d" [] twoResults rfl rfl rfl

/-- C11 as stated fails: for the single result (Ron, {"id":11}) both operations
give `[{"Key":"Ron", "Record":{"id":11}}]`, with a space after the comma, which
is not the text `[{"Key":"Ron","Record":{"id":11}}]` of the specification. -/
theorem query_response_has_space :
    (getGenesByRange oneResultStub ["a", "z"]).1 =
      shim.Success (some "[\x7b\"Key\":\"Ron\", \"Record\":\x7b\"id\":11\x7d\x7d]") ∧
    (getQueryResultForQueryString oneResultStub "\x7b\"selector\":\x7b\x7d\x7d").1 =
      Except.ok "[\x7b\"Key\":\"Ron\", \"Record\":\x7b\"id\":11\x7d\x7d]" ∧
    specArray [oneResult] = "[\x7b\"Key\":\"Ron\",\"Record\":\x7b\"id\":11\x7d\x7d]" ∧
    (getGenesByRange oneResultStub ["a", "z"]).1 ≠
      shim.Success (some (specArray [oneResult])) ∧
    (getQueryResultForQueryString oneResultStub "\x7b\"selector\":\x7b\x7d\x7d").1 ≠
      Except.ok (specArray [oneResult]) := by
  have h1 : (getGenesByRange oneResultStub ["a", "z"]).1 =
      shim.Success (some "[\x7b\"Key\":\"Ron\", \"Record\":\x7b\"id\":11\x7d\x7d]") := by rfl
  have h2 : (getQueryResultForQueryString oneResultStub "\x7b\"selector\":\x7b\x7d\x7d").1 =
      Except.ok "[\x7b\"Key\":\"Ron\", \"Record\":\x7b\"id\":11\x7d\x7d]" := by rfl
  have h3 : specArray [oneResult] = "[\x7b\"Key\":\"Ron\",\"Record\":\x7b\"id\":11\x7d\x7d]" := by rfl
  refine ⟨h1, h2, h3, ?_, ?_⟩
  · rw [h1, h3]; decide
  · rw [h2, h3]; intro h; exact absurd (Except.ok.inj h) (by decide)

/-- C17: for every sequence of n cursor results the range query and the rich
query give "[" ++ (the renderings of the results, in cursor order, joined by
",") ++ "]": n members, the i-th rendering the i-th result's key and record,
"[]" for an empty cursor, one comma between neighbours and none before the
first or after the last member. If a `Next` fails, the operation returns that
error and no array. -/
theorem query_array_structure (stub : ChaincodeStub) (startKey endKey queryString : String)
    (more : List String) (results : List (Except String queryresult.KV))
    (hf : stub.fault stub.trace.length = none)
    (hr : stub.byRange "collectionGenes" startKey endKey = results)
    (hq : stub.byQuery "collectionGenes" queryString = results) :
    (∀ kvs, results = cursorOf kvs →
      (getGenesByRange stub (startKey :: endKey :: more)).1 =
        shim.Success (some ("[" ++ String.intercalate "," (kvs.map arrayMember) ++ "]")) ∧
      (getQueryResultForQueryString stub queryString).1 =
        Except.ok ("[" ++ String.intercalate "," (kvs.map arrayMember) ++ "]") ∧
      (kvs.map arrayMember).length = kvs.length ∧
      (∀ i : Nat, (kvs.map arrayMember)[i]? = (kvs[i]?).map arrayMember)) ∧
    (∀ kvs err rest, results = failingCursor kvs err rest →
      (getGenesByRange stub (startKey :: endKey :: more)).1 = shim.Error err ∧
      (getGenesByRange stub (startKey :: endKey :: more)).1.Payload = none ∧
      (getQueryResultForQueryString stub queryString).1 = Except.error err) ∧
    "[" ++ String.intercalate "," (([] : List queryresult.KV).map arrayMember) ++ "]" = "[]" ∧
    (∀ a : queryresult.KV, String.intercalate "," ([a].map arrayMember) = arrayMember a) ∧
    (∀ (a b : queryresult.KV) (l : List queryresult.KV),
      String.intercalate "," ((a :: b :: l).map arrayMember) =
        arrayMember a ++ "," ++ String.intercalate "," ((b :: l).map arrayMember)) := by
  refine ⟨?_, ?_, rfl, fun a => rfl, fun a b l => intercalate_cons_cons _ _ _ _⟩
  · intro kvs hk
    rw [getGenesByRange_ok stub startKey endKey more kvs hf (hr.trans hk),
      getQueryResultForQueryString_ok stub queryString kvs hf (hq.trans hk)]
    exact ⟨rfl, rfl, List.length_map _ _, fun i => List.getElem?_map _ _ _⟩
  · intro kvs err rest hk
    rw [getGenesByRange_fail stub startKey endKey more kvs err rest hf (hr.trans hk),
      getQueryResultForQueryString_fail stub queryString kvs err rest hf (hq.trans hk)]
    exact ⟨rfl, rfl, rfl⟩

theorem query_array_structure_witness :
    ((getGenesByRange queryStub ("a" :: "z" :: [])).1 =
        shim.Success (some ("[" ++ String.intercalate "," (twoResults.map arrayMember) ++ "]")) ∧
      (getQueryResultForQueryString queryStub "q").1 =
        Except.ok ("[" ++ String.intercalate "," (twoResults.map arrayMember) ++ "]") ∧
      (twoResults.map arrayMember).length = twoResults.length ∧
      (∀ i : Nat, (twoResults.map arrayMember)[i]? = (twoResults[i]?).map arrayMember)) ∧
    ((getGenesByRange failingQueryStub ("a" :: "z" :: [])).1 = shim.Error "cursor lost" ∧
      (getGenesByRange failingQueryStub ("a" :: "z" :: [])).1.Payload = none ∧
      (getQueryResultForQueryString failingQueryStub "q").1 = Except.error "cursor lost") :=
  ⟨(query_array_structure queryStub "a" "z" "q" [] (cursorOf twoResults) rfl rfl rfl).1
      twoResults rfl,
    (query_array_structure failingQueryStub "a" "z" "q" []
      (failingCursor [oneResult] "cursor lost" []) rfl rfl rfl).2.1 [oneResult] "cursor lost" []
      rfl⟩

/-- C20: the two result-assembly loops are the same function of the cursor, the
buffer and the stub; hence, on the same cursor contents, `getGenesByRange`
answers with the bytes that `getQueryResultForQueryString` returns, and with
its error when it fails: both fail on the same cursors. -/
theorem query_loops_identical :
    (∀ (results : List (Except String queryresult.KV)) (buffer : String) (written : Bool)
      (stub : ChaincodeStub),
      getGenesByRange.loop results buffer written stub =
        getQueryResultForQueryString.loop results buffer written stub) ∧
    (∀ (stub : ChaincodeStub) (startKey endKey queryString : String) (more : List String),
      stub.fault stub.trace.length = none →
      stub.byRange "collectionGenes" startKey endKey =
        stub.byQuery "collectionGenes" queryString →
      ((∀ b, (getQueryResultForQueryString stub queryString).1 = Except.ok b →
          (getGenesByRange stub (startKey :: endKey :: more)).1 = shim.Success (some b)) ∧
       (∀ err, (getQueryResultForQueryString stub queryString).1 = Except.error err →
          (getGenesByRange stub (startKey :: endKey :: more)).1 = shim.Error err))) := by
  refine ⟨loops_agree, ?_⟩
  intro stub startKey endKey queryString more hf hc
  have key := loop_fst_stub (stub.byRange "collectionGenes" startKey endKey) "[" false
    (stub.log (Call.GetPrivateDataByRange "collectionGenes" startKey endKey))
    (stub.log (Call.GetPrivateDataQueryResult "collectionGenes" queryString))
  rcases h1 : getGenesByRange.loop (stub.byRange "collectionGenes" startKey endKey) "[" false
    (stub.log (Call.GetPrivateDataByRange "collectionGenes" startKey endKey)) with ⟨r1, t1⟩
  rcases h2 : getGenesByRange.loop (stub.byRange "collectionGenes" startKey endKey) "[" false
    (stub.log (Call.GetPrivateDataQueryResult "collectionGenes" queryString)) with ⟨r2, t2⟩
  rw [h1, h2] at key
  simp only at key
  subst key
  have g1 : (getGenesByRange stub (startKey :: endKey :: more)).1 =
      (match r1 with
        | Except.ok b => shim.Success (some (b ++ "]"))
        | Except.error err => shim.Error err) := by
    have hlen : ¬ (more.length + 1 + 1 < 2) := by omega
    simp only [getGenesByRange, GetPrivateDataByRange, hf]
    cases r1 <;> simp [h1, hlen]
  have g2 : (getQueryResultForQueryString stub queryString).1 =
      (match r1 with
        | Except.ok b => Except.ok (b ++ "]")
        | Except.error err => Except.error err) := by
    simp only [getQueryResultForQueryString, GetPrivateDataQueryResult, hf, ← hc,
      ← loops_agree]
    cases r1 <;> simp [h2]
  rw [g1, g2]
  cases r1 <;> simp

/-- C16: once `getGenesByRange` or `getQueryResultForQueryString` has obtained
its cursor, then, whatever the cursor delivers (all results, or a failing
`Next` at any position), the calls of the operation are the acquisition, calls
of `HasNext` and `Next`, and `Close` as the last call: `Close` is called
exactly once by the time the operation returns. -/
theorem cursor_closed_once (stub : ChaincodeStub) (startKey endKey queryString : String)
    (more : List String) (hf : stub.fault stub.trace.length = none) :
    (∃ calls : List Call,
      (getGenesByRange stub (startKey :: endKey :: more)).2.trace =
        stub.trace ++ Call.GetPrivateDataByRange "collectionGenes" startKey endKey ::
          (calls ++ [Call.Close]) ∧
      calls.count Call.Close = 0) ∧
    (∃ calls : List Call,
      (getQueryResultForQueryString stub queryString).2.trace =
        stub.trace ++ Call.GetPrivateDataQueryResult "collectionGenes" queryString ::
          (calls ++ [Call.Close]) ∧
      calls.count Call.Close = 0) ∧
    (getGenesByRange stub (startKey :: endKey :: more)).2.trace.count Call.Close =
      stub.trace.count Call.Close + 1 ∧
    (getQueryResultForQueryString stub queryString).2.trace.count Call.Close =
      stub.trace.count Call.Close + 1 := by
  obtain ⟨c1, h1, n1⟩ := loop_trace (stub.byRange "collectionGenes" startKey endKey) "[" false
    (stub.log (Call.GetPrivateDataByRange "collectionGenes" startKey endKey))
  obtain ⟨c2, h2, n2⟩ := loop_trace (stub.byQuery "collectionGenes" queryString) "[" false
    (stub.log (Call.GetPrivateDataQueryResult "collectionGenes" queryString))
  have t1 : (getGenesByRange stub (startKey :: endKey :: more)).2.trace =
      stub.trace ++ Call.GetPrivateDataByRange "collectionGenes" startKey endKey ::
        (c1 ++ [Call.Close]) := by
    simp only [getGenesByRange, GetPrivateDataByRange, hf]
    rcases h : getGenesByRange.loop (stub.byRange "collectionGenes" startKey endKey) "[" false
      (stub.log (Call.GetPrivateDataByRange "collectionGenes" startKey endKey)) with ⟨r, t⟩
    rw [h] at h1
    simp only at h1
    subst h1
    have hlen : ¬ (more.length + 1 + 1 < 2) := by omega
    cases r <;> simp [h, hlen] <;> simp [log]
  have t2 : (getQueryResultForQueryString stub queryString).2.trace =
      stub.trace ++ Call.GetPrivateDataQueryResult "collectionGenes" queryString ::
        (c2 ++ [Call.Close]) := by
    simp only [getQueryResultForQueryString, GetPrivateDataQueryResult, hf, ← loops_agree]
    rcases h : getGenesByRange.loop (stub.byQuery "collectionGenes" queryString) "[" false
      (stub.log (Call.GetPrivateDataQueryResult "collectionGenes" queryString)) with ⟨r, t⟩
    rw [h] at h2
    simp only at h2
    subst h2
    cases r <;> simp [h] <;> simp [log]
  refine ⟨⟨c1, t1, n1⟩, ⟨c2, t2, n2⟩, ?_, ?_⟩
  · rw [t1]; simp [List.count_cons, n1]
  · rw [t2]; simp [List.count_cons, n2]

theorem cursor_closed_once_witness :
    (∃ calls : List Call,
      (getGenesByRange failingQueryStub ("a" :: "z" :: [])).2.trace =
        failingQueryStub.trace ++ Call.GetPrivateDataByRange "collectionGenes" "a" "z" ::
          (calls ++ [Call.Close]) ∧
      calls.count Call.Close = 0) ∧
    (∃ calls : List Call,
      (getQueryResultForQueryString failingQueryStub "q").2.trace =
        failingQueryStub.trace ++ Call.GetPrivateDataQueryResult "collectionGenes" "q" ::
          (calls ++ [Call.Close]) ∧
      calls.count Call.Close = 0) ∧
    (getGenesByRange failingQueryStub ("a" :: "z" :: [])).2.trace.count Call.Close =
      failingQueryStub.trace.count Call.Close + 1 ∧
    (getQueryResultForQueryString failingQueryStub "q").2.trace.count Call.Close =
      failingQueryStub.trace.count Call.Close + 1 :=
  cursor_closed_once failingQueryStub "a" "z" "q" [] rfl
/-- C12: `Invoke` answers a function name that is none of the eight registered
names with the error "Received unknown function invocation" and leaves the stub
(so the private data of every collection) as it is; for each of the eight names
it returns what the handler of that name returns on the same stub and
arguments. -/
theorem Invoke_dispatch (stub : ChaincodeStub) :
    (stub.GetFunctionAndParameters.1 ∉ registeredFunctions →
      Invoke stub = (shim.Error "Received unknown function invocation", stub)) ∧
    (stub.GetFunctionAndParameters.1 = "initGene" →
      Invoke stub = initGene stub stub.GetFunctionAndParameters.2) ∧
    (stub.GetFunctionAndParameters.1 = "readGene" →
      Invoke stub = readGene stub stub.GetFunctionAndParameters.2) ∧
    (stub.GetFunctionAndParameters.1 = "readGenePrivateDetails" →
      Invoke stub = readGenePrivateDetails stub stub.GetFunctionAndParameters.2) ∧
    (stub.GetFunctionAndParameters.1 = "transferGene" →
      Invoke stub = transferGene stub stub.GetFunctionAndParameters.2) ∧
    (stub.GetFunctionAndParameters.1 = "delete" →
      Invoke stub = delete stub stub.GetFunctionAndParameters.2) ∧
    (stub.GetFunctionAndParameters.1 = "queryLongetivityMapByGene" →
      Invoke stub = queryLongetivityMapByGene stub stub.GetFunctionAndParameters.2) ∧
    (stub.GetFunctionAndParameters.1 = "queryAgeingDrugs" →
      Invoke stub = queryAgeingDrugs stub stub.GetFunctionAndParameters.2) ∧
    (stub.GetFunctionAndParameters.1 = "getGenesByRange" →
      Invoke stub = getGenesByRange stub stub.GetFunctionAndParameters.2) := by
  unfold Invoke
  rcases stub.GetFunctionAndParameters with ⟨function, args⟩
  refine ⟨?_, ?_, ?_, ?_, ?_, ?_, ?_, ?_, ?_⟩
  · intro h
    simp only [registeredFunctions, List.mem_cons, List.mem_singleton, not_or,
      List.not_mem_nil, or_false] at h
    obtain ⟨h1, h2, h3, h4, h5, h6, h7, h8⟩ := h
    simp [h1, h2, h3, h4, h5, h6, h7, h8]
  all_goals
    intro h
    simp only at h
    subst h
    simp

/-- C19: for every category argument c, the first call of `queryAgeingDrugs` is
the rich query on collectionGenes with the query string
{"selector":{"docType":"gene","owner":"L"}}, L being c with every rune
in its lower case, as `strings.ToLower` gives it (ADRB2 gives adrb2, and
U+00C0 DRB2-U+03A3 gives U+00E0 drb2-U+03C3), and its response carries the
array that the facade `getQueryResultForQueryString` builds for that query
string (the members of the cursor when no call fails); the first call of
`queryLongetivityMapByGene` is the rich query with its first argument as it is,
and its response carries the facade's array for it. -/
theorem predicate_queries (stub : ChaincodeStub) (c : String) (more : List String) :
    (∃ rest, (queryAgeingDrugs stub (c :: more)).2.trace =
      stub.trace ++ Call.GetPrivateDataQueryResult "collectionGenes"
        ("\x7b\"selector\":\x7b\"docType\":\"gene\",\"owner\":\"" ++ strings.ToLower c ++ "\"\x7d\x7d")
        :: rest) ∧
    (∀ b, (getQueryResultForQueryString stub
        ("\x7b\"selector\":\x7b\"docType\":\"gene\",\"owner\":\"" ++ strings.ToLower c ++ "\"\x7d\x7d")).1 =
        Except.ok b →
      (queryAgeingDrugs stub (c :: more)).1 = shim.Success (some b)) ∧
    (∀ kvs, stub.fault stub.trace.length = none →
      stub.byQuery "collectionGenes"
        ("\x7b\"selector\":\x7b\"docType\":\"gene\",\"owner\":\"" ++ strings.ToLower c ++ "\"\x7d\x7d") =
        cursorOf kvs →
      (queryAgeingDrugs stub (c :: more)).1 = shim.Success (some (resultArray kvs))) ∧
    (∃ rest, (queryLongetivityMapByGene stub (c :: more)).2.trace =
      stub.trace ++ Call.GetPrivateDataQueryResult "collectionGenes" c :: rest) ∧
    (∀ b, (getQueryResultForQueryString stub c).1 = Except.ok b →
      (queryLongetivityMapByGene stub (c :: more)).1 = shim.Success (some b)) ∧
    (∀ kvs, stub.fault stub.trace.length = none →
      stub.byQuery "collectionGenes" c = cursorOf kvs →
      (queryLongetivityMapByGene stub (c :: more)).1 = shim.Success (some (resultArray kvs))) ∧
    strings.ToLower "ADRB2" = "adrb2" ∧
    strings.ToLower "\u00C0DRB2-\u03A3" = "\u00E0drb2-\u03C3" := by
  have e : "\x7b\"selector\":\x7b\"docType\":\"gene\",\"owner\":\"" ++ strings.ToLower c ++ "\"\x7d\x7d" =
      ownerQuery (strings.ToLower c) := rfl
  rw [e]
  obtain ⟨a2, aok, -⟩ := queryAgeingDrugs_facade stub c more
  obtain ⟨l2, lok, -⟩ := queryLongetivityMapByGene_facade stub c more
  refine ⟨?_, aok, ?_, ?_, lok, ?_, by decide, by decide⟩
  · rw [a2]
    exact getQueryResultForQueryString_first_call stub _
  · intro kvs hf hc
    exact aok _ (by rw [getQueryResultForQueryString_ok stub _ kvs hf hc])
  · rw [l2]
    exact getQueryResultForQueryString_first_call stub _
  · intro kvs hf hc
    exact lok _ (by rw [getQueryResultForQueryString_ok stub _ kvs hf hc])

/-- C13: on the ledger of the scenario whose sixth call fails, `initGene` issues
as its sixth call the write of the index entry, that write fails with
"put failed" and stores nothing (without the failure the entry is stored), and
`initGene` answers with success all the same. -/
theorem ron_marker_error_dropped :
    ronFaultyStub.fault 5 = some "put failed" ∧
    (initGene ronFaultyStub []).2.trace =
      [Call.GetTransient,
       Call.GetPrivateData "collectionGenes" "Ron",
       Call.PutPrivateData "collectionGenes" "Ron"
         "\x7b\"docType\":\"gene\",\"id\":11,\"Name\":\"Ron\",\"population\":\"French\",\"gene\":\"ADRB2\",\"size\":5\x7d",
       Call.PutPrivateData "collectionGenesPrivateDetails" "Ron"
         "\x7b\"docType\":\"genePrivateDetails\",\"name\":\"Ron\",\"age\":40,\"varient\":\"APOB\",\"price\":99\x7d",
       Call.CreateCompositeKey "gene~name" ["ADRB2", "Ron"],
       Call.PutPrivateData "collectionGenes" (shim.compositeKey "gene~name" "ADRB2" "Ron")
         markerValue] ∧
    (initGene ronStub []).2.pvt "collectionGenes"
      (shim.compositeKey "gene~name" "ADRB2" "Ron") = some markerValue ∧
    (initGene ronFaultyStub []).2.pvt "collectionGenes"
      (shim.compositeKey "gene~name" "ADRB2" "Ron") = none ∧
    (initGene ronFaultyStub []).1 = shim.Success none := by
  refine ⟨rfl, ?_, ?_, ?_, ?_⟩ <;> rfl

/-- C15: on a stub none of whose calls fails, `transferGene` with a payload
under the transient key "gene_name" that decodes to the label g and the name n
answers "gene field must be a non-empty string" when g is empty, "name field
must be a non-empty string" when g is not empty and n is, and "Name does not
exist: n" when neither is empty and collectionGenes has nothing under n;
`delete` with a payload under "gene_delete" that decodes to the empty name
answers "name field must be a non-empty string"; in each of these cases the
private data of every collection is as before. -/
theorem transfer_delete_validation (stub : ChaincodeStub) (data g n : String)
    (hf : stub.noFault) :
    (stub.transient "gene_name" = some data →
      geneTransferTransientInput.Unmarshal data = Except.ok ⟨g, n⟩ →
      (g = "" →
        (transferGene stub []).1 = shim.Error "gene field must be a non-empty string" ∧
        (transferGene stub []).2.pvt = stub.pvt) ∧
      (g ≠ "" → n = "" →
        (transferGene stub []).1 = shim.Error "name field must be a non-empty string" ∧
        (transferGene stub []).2.pvt = stub.pvt) ∧
      (g ≠ "" → n ≠ "" → stub.pvt "collectionGenes" n = none →
        (transferGene stub []).1 = shim.Error ("Name does not exist: " ++ n) ∧
        (transferGene stub []).2.pvt = stub.pvt)) ∧
    (stub.transient "gene_delete" = some data →
      geneDeleteTransientInput.Unmarshal data = Except.ok ⟨""⟩ →
      (delete stub []).1 = shim.Error "name field must be a non-empty string" ∧
      (delete stub []).2.pvt = stub.pvt) := by
  refine ⟨fun ht hd => ⟨?_, ?_, ?_⟩, fun ht hd => ?_⟩
  · rintro rfl
    rw [transferGene_empty_gene stub data n hf ht hd]
    exact ⟨rfl, rfl⟩
  · rintro hg rfl
    rw [transferGene_empty_name stub data g hf ht hd hg]
    exact ⟨rfl, rfl⟩
  · intro hg hn hp
    rw [transferGene_absent stub data g n hf ht hd hg hn hp]
    exact ⟨rfl, rfl⟩
  · rw [delete_empty_name stub data hf ht hd]
    exact ⟨rfl, rfl⟩

theorem transfer_delete_validation_witness :
    (transferGene (emptyLedger.next ["transferGene"]
      (transientOf "gene_name" ronTransferPayload)) []).1 =
      shim.Error ("Name does not exist: " ++ "Ron") ∧
    (transferGene (emptyLedger.next ["transferGene"]
      (transientOf "gene_name" ronTransferPayload)) []).2.pvt = emptyLedger.pvt :=
  ((transfer_delete_validation
    (emptyLedger.next ["transferGene"] (transientOf "gene_name" ronTransferPayload))
    ronTransferPayload "TP53" "Ron" (fun _ => rfl)).1 rfl ronTransfer_decodes).2.2
    (by decide) (by decide) rfl

/-- C18: on the ledger of the scenario whose sixth call fails, `initGene`
answers with success and collectionGenes holds the public document under
"Ron", but under the composite key that `createCompositeKey` builds from
"gene~name" and ["ADRB2", "Ron"] (U+0000 gene~name U+0000 ADRB2 U+0000 Ron
U+0000) it holds nothing: not the byte 0x00, which is what the same create
stores there when that call does not fail. -/
theorem ron_created_without_marker :
    (initGene ronFaultyStub []).1 = shim.Success none ∧
    (initGene ronFaultyStub []).2.pvt "collectionGenes" "Ron" =
      some (publicDoc ronInput).encode ∧
    createCompositeKey "gene~name" ["ADRB2", "Ron"] =
      Except.ok "\x00gene~name\x00ADRB2\x00Ron\x00" ∧
    (initGene ronFaultyStub []).2.pvt "collectionGenes" "\x00gene~name\x00ADRB2\x00Ron\x00" =
      none ∧
    (initGene ronFaultyStub []).2.pvt "collectionGenes" "\x00gene~name\x00ADRB2\x00Ron\x00" ≠
      some markerValue ∧
    (initGene ronStub []).2.pvt "collectionGenes" "\x00gene~name\x00ADRB2\x00Ron\x00" =
      some "\x00" := by
  refine ⟨by rfl, by rfl, by rfl, by rfl, ?_, by rfl⟩
  rw [show (initGene ronFaultyStub []).2.pvt "collectionGenes"
    "\x00gene~name\x00ADRB2\x00Ron\x00" = none from by rfl]
  simp

/-- C14: on every ledger reached from one without private data by invocations
of `initGene`, `transferGene` and `delete` that succeed or fail on validation,
on a missing gene or on a taken name, and for every key n: collectionGenes
holds under n bytes that decode as a `gene` exactly when
collectionGenesPrivateDetails holds under n bytes that decode as a
`genePrivateDetails` whose name is n; whatever collectionGenesPrivateDetails
holds under n is such a document; the `gene` decoded from what collectionGenes
holds under n has the name n; and whatever else collectionGenes holds under n
is an index entry, the value U+0000 under a composite key of "gene~name". -/
theorem record_iff_detail (s : ChaincodeStub) (h : Reachable s) (n : String) :
    (holdsRecord s n ↔ holdsDetail s n) ∧
    (∀ v, s.pvt "collectionGenesPrivateDetails" n = some v → holdsDetail s n) ∧
    (∀ v g, s.pvt "collectionGenes" n = some v → gene.Unmarshal v = Except.ok g →
      g.Name = n) ∧
    (∀ v, s.pvt "collectionGenes" n = some v →
      holdsRecord s n ∨ (v = markerValue ∧ ∃ a b, n = shim.compositeKey "gene~name" a b)) := by
  obtain ⟨-, p1, p2, p3⟩ := Reachable_paired s h
  have hdetail : ∀ v, s.pvt "collectionGenesPrivateDetails" n = some v → holdsDetail s n := by
    intro v hv
    obtain ⟨d, rfl, hn, i1, i2⟩ := p2 n v hv
    exact ⟨d.encode, d, hv, details_Unmarshal_encode d i1 i2, hn⟩
  refine ⟨⟨?_, ?_⟩, hdetail, ?_, ?_⟩
  · rintro ⟨v, g, hv, hu⟩
    rcases p1 n v hv with hrec | hm
    · obtain ⟨w, hw⟩ := (p3 n).mp ⟨v, hv, hrec⟩
      exact hdetail w hw
    · exact absurd hu (markerEntry_undecodable n v g hm)
  · rintro ⟨v, d, hv, -, -⟩
    obtain ⟨w, hw, hrec⟩ := (p3 n).mpr ⟨v, hv⟩
    obtain ⟨g, hg, -⟩ := recordEntry_decodes n w hrec
    exact ⟨w, g, hw, hg⟩
  · intro v g hv hu
    rcases p1 n v hv with hrec | hm
    · obtain ⟨g2, hg, hn⟩ := recordEntry_decodes n v hrec
      rw [hg] at hu
      cases hu
      exact hn
    · exact absurd hu (markerEntry_undecodable n v g hm)
  · intro v hv
    rcases p1 n v hv with hrec | hm
    · obtain ⟨g, hg, -⟩ := recordEntry_decodes n v hrec
      exact Or.inl ⟨v, g, hv, hg⟩
    · exact Or.inr hm

theorem record_iff_detail_witness :
    (holdsRecord ronLedger "Ron" ↔ holdsDetail ronLedger "Ron") ∧
    (holdsRecord (delete ronDeleteStub []).2 "Ron" ↔
      holdsDetail (delete ronDeleteStub []).2 "Ron") :=
  ⟨(record_iff_detail ronLedger ron_reachable.1 "Ron").1,
    (record_iff_detail (delete ronDeleteStub []).2 ron_reachable.2 "Ron").1⟩

/-- C21: an `initGene` that answers with success decoded its payload to an input
x, and every entry of the private data that differs afterwards is one of three:
the entry of collectionGenes under x.Name, the entry of collectionGenes under
the composite key of "gene~name" with [x.Gene, x.Name], the entry of
collectionGenesPrivateDetails under x.Name; every other key of every collection
has the value, or the absence, it had before. The handlers `readGene`,
`readGenePrivateDetails`, `getGenesByRange`, `queryAgeingDrugs` and
`queryLongetivityMapByGene`, and the facade `getQueryResultForQueryString`,
leave the private data as it is, whatever their arguments and outcome. -/
theorem frame_effects (stub : ChaincodeStub) (args rargs : List String) (q : String) :
    ((initGene stub args).1 = shim.Success none →
      ∃ data x, args = [] ∧ stub.transient "gene" = some data ∧
        geneTransientInput.Unmarshal data = Except.ok x ∧
        ∀ c k, ¬ (c = "collectionGenes" ∧ k = x.Name) →
          ¬ (c = "collectionGenes" ∧ k = shim.compositeKey "gene~name" x.Gene x.Name) →
          ¬ (c = "collectionGenesPrivateDetails" ∧ k = x.Name) →
          (initGene stub args).2.pvt c k = stub.pvt c k) ∧
    (readGene stub rargs).2.pvt = stub.pvt ∧
    (readGenePrivateDetails stub rargs).2.pvt = stub.pvt ∧
    (getGenesByRange stub rargs).2.pvt = stub.pvt ∧
    (queryAgeingDrugs stub rargs).2.pvt = stub.pvt ∧
    (queryLongetivityMapByGene stub rargs).2.pvt = stub.pvt ∧
    (getQueryResultForQueryString stub q).2.pvt = stub.pvt := by
  refine ⟨fun hs => ?_, readGene_pvt stub rargs, readGenePrivateDetails_pvt stub rargs,
    getGenesByRange_pvt stub rargs, queryAgeingDrugs_pvt stub rargs,
    queryLongetivityMapByGene_pvt stub rargs, getQueryResultForQueryString_pvt stub q⟩
  obtain ⟨data, x, ha, ht, hd, h⟩ := initGene_frame stub args hs
  refine ⟨data, x, ha, ht, hd, fun c k n1 n2 n3 => ?_⟩
  by_contra hne
  rcases h c k hne with h1 | h2 | h3
  · exact n1 h1
  · exact n2 h2
  · exact n3 h3

theorem frame_effects_witness :
    (∃ data x, ([] : List String) = [] ∧ ronStub.transient "gene" = some data ∧
      geneTransientInput.Unmarshal data = Except.ok x ∧
      ∀ c k, ¬ (c = "collectionGenes" ∧ k = x.Name) →
        ¬ (c = "collectionGenes" ∧ k = shim.compositeKey "gene~name" x.Gene x.Name) →
        ¬ (c = "collectionGenesPrivateDetails" ∧ k = x.Name) →
        (initGene ronStub []).2.pvt c k = ronStub.pvt c k) ∧
    (readGene ronStub ["Ron"]).2.pvt = ronStub.pvt :=
  ⟨(frame_effects ronStub [] ["Ron"] "").1 rfl, (frame_effects ronStub [] ["Ron"] "").2.1⟩
